import Mathlib

/-!
# SYSVAD wave-RT stream and swap APO: position engine, packet tracker, state machine

A shallow embedding of `Samples/Audio/sysvad/EndpointsCommon/minwavertstream.cpp`
(the simulated DMA engine of `CMiniportWaveRTStream`) and of
`GetCurrentEffectsSetting`, `APOProcess`, `OnPropertyValueChanged`, `HandleNotification`
and the effect list functions from `Samples/Audio/sysvad/APO/SwapAPO/swapapomfx.cpp` and
`swapaposfx.cpp`.

Conventions.
* `ULONG`/`DWORD` values are naturals below `2 ^ 32`, `ULONGLONG` values naturals
  below `2 ^ 64`; every C operation that can wrap is written with an explicit `%`.
* `LONGLONG m_llPacketCounter` is an `Int`; only its low 32 bits are ever inspected.
* A timestamp argument (`hnsCurrentTime`) is the value of
  `KSCONVERT_PERFORMANCE_TIME (frequency, KeQueryPerformanceCounter ())`, in 100ns units.
* A division by a zero field is a fault of the C code; functions that can reach one
  return `Option`, with `none` for the fault.
* The model is the build without `SYSVAD_BTH_BYPASS` and `SYSVAD_USB_SIDEBAND`.
* Audio samples live in a sample memory indexed by sample address; a connection buffer is
  the address of its first sample.
-/

namespace Sysvad

/-! ## Machine arithmetic -/

/-- Modulus of `ULONG` arithmetic, two to the 32. -/
def U32 : Nat := 4294967296

/-- Modulus of `ULONGLONG` arithmetic, two to the 64. -/
def U64 : Nat := 18446744073709551616

/-- The constant `ULONG_MAX` of `limits.h`. -/
def ULONG_MAX : Nat := 4294967295

/-- Unsigned 32-bit subtraction `a - b`. -/
def sub32 (a b : Nat) : Nat := (a % U32 + U32 - b % U32) % U32

/-- Unsigned 64-bit subtraction `a - b`. -/
def sub64 (a b : Nat) : Nat := (a % U64 + U64 - b % U64) % U64

/-- The macro `LODWORD`: low 32 bits of a 64-bit two's complement value. -/
def LODWORD (x : Int) : Nat := (x % 4294967296).toNat

/-- The conversion of a `ULONG` bit pattern to `LONG`. -/
def toLONG (x : Nat) : Int :=
  if x % U32 < 2147483648 then ((x % U32 : Nat) : Int) else ((x % U32 : Nat) : Int) - 4294967296

/-! ## Status codes and stream states -/

/-- The `NTSTATUS` values returned by the stream object. -/
inductive NTSTATUS
  | STATUS_SUCCESS
  | STATUS_UNSUCCESSFUL
  | STATUS_INVALID_PARAMETER
  | STATUS_NOT_SUPPORTED
  | STATUS_INVALID_DEVICE_STATE
  | STATUS_DEVICE_NOT_READY
  | STATUS_DATA_LATE_ERROR
  | STATUS_DATA_OVERRUN
  | STATUS_INSUFFICIENT_RESOURCES
  | STATUS_NOT_FOUND
  deriving DecidableEq, Repr

open NTSTATUS

/-- The macro `NT_SUCCESS`: of the status codes above only `STATUS_SUCCESS` is non-negative. -/
def NT_SUCCESS (st : NTSTATUS) : Bool :=
  match st with
  | STATUS_SUCCESS => true
  | _ => false

/-- The enumeration `KSSTATE`, in its numeric order. -/
inductive KSSTATE
  | KSSTATE_STOP
  | KSSTATE_ACQUIRE
  | KSSTATE_PAUSE
  | KSSTATE_RUN
  deriving DecidableEq, Repr

open KSSTATE

/-- Numeric value of a `KSSTATE`, used by the comparisons `<` and `>` of the source. -/
def KSSTATE.toNat : KSSTATE → Nat
  | KSSTATE_STOP => 0
  | KSSTATE_ACQUIRE => 1
  | KSSTATE_PAUSE => 2
  | KSSTATE_RUN => 3

/-- A notification event handle (`PKEVENT`), identified by its address. -/
abbrev PKEVENT := Nat

/-! ## The stream object -/

/-- The members of `CMiniportWaveRTStream` that the position engine, the packet tracker and
the state machine read or write, under their source names. `nBlockAlign` is
`m_pWfExt->Format.nBlockAlign`, `isKeywordDetectorPin` is
`m_pMiniport->IsKeywordDetectorPin (m_ulPin)`, `timerSet` records whether
`m_pNotificationTimer` is armed (`ExSetTimer`) or cancelled (`ExCancelTimer`).
The class declaration is not part of the sources at hand; `byteCarryBits` is the declared
width (32 or 64) of `m_byteDisplacementCarryForward`. -/
structure CMiniportWaveRTStream where
  m_bCapture : Bool
  m_ulDmaBufferSize : Nat
  m_ulNotificationsPerBuffer : Nat
  m_KsState : KSSTATE
  m_llPacketCounter : Int
  m_ullPlayPosition : Nat
  m_ullWritePosition : Nat
  m_ullDmaTimeStamp : Nat
  m_hnsElapsedTimeCarryForward : Nat
  m_ullLastDPCTimeStamp : Nat
  m_hnsDPCTimeCarryForward : Nat
  m_ulDmaMovementRate : Nat
  m_byteDisplacementCarryForward : Nat
  m_ullLinearPosition : Nat
  m_ullPresentationPosition : Nat
  m_ulCurrentWritePosition : Nat
  m_ulLastOsReadPacket : Nat
  m_ulLastOsWritePacket : Nat
  m_bEoSReceived : Bool
  m_bLastBufferRendered : Bool
  m_NotificationList : List PKEVENT
  m_ulNotificationIntervalMs : Nat
  m_ullPerformanceCounterFrequency : Nat
  nBlockAlign : Nat
  isKeywordDetectorPin : Bool
  timerSet : Bool
  byteCarryBits : Nat
  deriving DecidableEq, Repr

/-- The member values left by a successful `CMiniportWaveRTStream::Init` for a stream of
direction `Capture_`, a format with `nAvgBytesPerSec` and `nBlockAlign`, on a pin that is
or is not the keyword detector pin. -/
def Init (Capture_ : Bool) (nAvgBytesPerSec nBlockAlign : Nat) (keywordPin : Bool)
    (byteCarryBits : Nat) : CMiniportWaveRTStream :=
  { m_bCapture := Capture_
    m_ulDmaBufferSize := 0
    m_ulNotificationsPerBuffer := 0
    m_KsState := KSSTATE_STOP
    m_llPacketCounter := 0
    m_ullPlayPosition := 0
    m_ullWritePosition := 0
    m_ullDmaTimeStamp := 0
    m_hnsElapsedTimeCarryForward := 0
    m_ullLastDPCTimeStamp := 0
    m_hnsDPCTimeCarryForward := 0
    m_ulDmaMovementRate := nAvgBytesPerSec
    m_byteDisplacementCarryForward := 0
    m_ullLinearPosition := 0
    m_ullPresentationPosition := 0
    m_ulCurrentWritePosition := 0
    m_ulLastOsReadPacket := ULONG_MAX
    m_ulLastOsWritePacket := ULONG_MAX
    m_bEoSReceived := false
    m_bLastBufferRendered := false
    m_NotificationList := []
    m_ulNotificationIntervalMs := 0
    m_ullPerformanceCounterFrequency := 0
    nBlockAlign := nBlockAlign
    isKeywordDetectorPin := keywordPin
    timerSet := false
    byteCarryBits := byteCarryBits }

/-! ## UpdatePosition -/

/-- The 64-bit value `hnsCurrentTime - m_ullDmaTimeStamp + m_hnsElapsedTimeCarryForward`
of `UpdatePosition`, in 100ns units. -/
def hnsElapsed (s : CMiniportWaveRTStream) (hnsCurrentTime : Nat) : Nat :=
  (sub64 hnsCurrentTime s.m_ullDmaTimeStamp + s.m_hnsElapsedTimeCarryForward) % U64

/-- The local `TimeElapsedInMS` of `UpdatePosition`: the cast to `ULONG` applies to the
elapsed time, before the division by 10000. -/
def TimeElapsedInMS (s : CMiniportWaveRTStream) (hnsCurrentTime : Nat) : Nat :=
  (hnsElapsed s hnsCurrentTime % U32) / 10000

/-- The sum `(m_ulDmaMovementRate * TimeElapsedInMS) + m_byteDisplacementCarryForward`:
the product is a `ULONG` product, the sum has the width of the carry member. -/
def byteSum (s : CMiniportWaveRTStream) (hnsCurrentTime : Nat) : Nat :=
  ((s.m_ulDmaMovementRate * TimeElapsedInMS s hnsCurrentTime) % U32
    + s.m_byteDisplacementCarryForward) % 2 ^ s.byteCarryBits

/-- The local `ByteDisplacement` of `UpdatePosition` as first computed from the elapsed time. -/
def ByteDisplacement (s : CMiniportWaveRTStream) (hnsCurrentTime : Nat) : Nat :=
  (byteSum s hnsCurrentTime / 1000) % U32

/-- The adjustment of `ByteDisplacement` made on a render stream once `m_bEoSReceived` is set
(the two branches of the source), for write position `W`, end-of-stream position `T`,
buffer size `B` and displacement `D`. -/
def clampToEoS (W T B D : Nat) : Nat :=
  if W ≤ T then
    min D (sub32 T W)
  else if ((W + D) % U64) % B < W then
    if ((W + D) % U64) % B > T then
      sub32 D (sub32 (((W % U32 + D) % U32) % B) T)
    else D
  else D

/-- The value of `ByteDisplacement` that `UpdatePosition` applies to the positions:
unchanged on a capture stream and on a render stream without end of stream pending. -/
def appliedDisplacement (s : CMiniportWaveRTStream) (hnsCurrentTime : Nat) : Nat :=
  if s.m_bCapture then ByteDisplacement s hnsCurrentTime
  else if s.m_bEoSReceived then
    clampToEoS s.m_ullWritePosition s.m_ulCurrentWritePosition s.m_ulDmaBufferSize
      (ByteDisplacement s hnsCurrentTime)
  else ByteDisplacement s hnsCurrentTime

/-- The members after the body of `CMiniportWaveRTStream::UpdatePosition`, for a non-zero
buffer size. `WriteBytes` and `ReadBytes` only hand chunks of the DMA buffer to the tone
generator or the data saver and write no member. -/
def positionsAfter (s : CMiniportWaveRTStream) (hnsCurrentTime : Nat) : CMiniportWaveRTStream :=
  let D0 := ByteDisplacement s hnsCurrentTime
  let D := appliedDisplacement s hnsCurrentTime
  let newWrite := ((s.m_ullWritePosition + D) % U64) % s.m_ulDmaBufferSize
  { s with
    m_hnsElapsedTimeCarryForward := hnsElapsed s hnsCurrentTime % 10000
    m_byteDisplacementCarryForward := byteSum s hnsCurrentTime % 1000
    m_ullPresentationPosition := (s.m_ullPresentationPosition + D0) % U64
    m_bLastBufferRendered :=
      if !s.m_bCapture && s.m_bEoSReceived && !s.m_bLastBufferRendered
          && decide (newWrite = s.m_ulCurrentWritePosition)
      then true else s.m_bLastBufferRendered
    m_ullPlayPosition := newWrite
    m_ullWritePosition := newWrite
    m_ullLinearPosition := (s.m_ullLinearPosition + D) % U64
    m_ullDmaTimeStamp := hnsCurrentTime % U64 }

/-- The member function `CMiniportWaveRTStream::UpdatePosition`. `WriteBytes`, `ReadBytes`
and the final wrap of the positions all divide by `m_ulDmaBufferSize`, so a zero buffer
size is a fault on every path. -/
def UpdatePosition (s : CMiniportWaveRTStream) (hnsCurrentTime : Nat) :
    Option CMiniportWaveRTStream :=
  if s.m_ulDmaBufferSize = 0 then none else some (positionsAfter s hnsCurrentTime)

/-- A sequence of `UpdatePosition` calls at the given timestamps, in order. -/
def UpdatePositions : CMiniportWaveRTStream → List Nat → Option CMiniportWaveRTStream
  | s, [] => some s
  | s, t :: ts =>
    match UpdatePosition s t with
    | some s1 => UpdatePositions s1 ts
    | none => none

/-- The position invariant: `playPosition = writePosition = linearPosition mod bufferSize`. -/
def PositionInvariant (s : CMiniportWaveRTStream) : Prop :=
  s.m_ullPlayPosition = s.m_ullWritePosition ∧
    s.m_ullWritePosition = s.m_ullLinearPosition % s.m_ulDmaBufferSize

/-- The 64-bit linear position does not wrap during the calls at the given timestamps:
before each call `m_ullLinearPosition + ByteDisplacement` is below two to the 64. -/
def LinearPositionFits : CMiniportWaveRTStream → List Nat → Bool
  | _, [] => true
  | s, t :: ts =>
    decide (s.m_ullLinearPosition + appliedDisplacement s t < U64) &&
      match UpdatePosition s t with
      | some s1 => LinearPositionFits s1 ts
      | none => true

/-- Each call at the given timestamps sees a timestamp not before `m_ullDmaTimeStamp` and an
elapsed time, carry included, below two to the 32 (in 100ns units). -/
def ElapsedFits : CMiniportWaveRTStream → List Nat → Bool
  | _, [] => true
  | s, t :: ts =>
    decide (s.m_ullDmaTimeStamp ≤ t ∧ t < U64 ∧
        t - s.m_ullDmaTimeStamp + s.m_hnsElapsedTimeCarryForward < U32) &&
      match UpdatePosition s t with
      | some s1 => ElapsedFits s1 ts
      | none => true

/-- The sum of the `TimeElapsedInMS` amounts of the calls at the given timestamps. -/
def elapsedMsTotal : CMiniportWaveRTStream → List Nat → Nat
  | _, [] => 0
  | s, t :: ts =>
    TimeElapsedInMS s t +
      match UpdatePosition s t with
      | some s1 => elapsedMsTotal s1 ts
      | none => 0

/-! ## Buffer allocation and notification registration -/

/-- The member function `CMiniportWaveRTStream::AllocateBufferWithNotification`. The outcomes
of the external calls are arguments: `setMaxWriteSize` is the status of
`m_SaveData.SetMaxWriteSize`, `pagesAllocated` tells whether `AllocatePagesForMdl` returned
a non-null MDL. The third component is the value written to `ActualSize_`. -/
def AllocateBufferWithNotification (s : CMiniportWaveRTStream)
    (NotificationCount_ RequestedSize_ : Nat) (g_DoNotCreateDataFiles : Bool)
    (setMaxWriteSize : NTSTATUS) (pagesAllocated : Bool) :
    Option (NTSTATUS × CMiniportWaveRTStream × Option Nat) :=
  if RequestedSize_ = 0 ∨ RequestedSize_ < s.nBlockAlign then
    some (STATUS_UNSUCCESSFUL, s, none)
  else if NotificationCount_ = 0 ∨ RequestedSize_ % NotificationCount_ ≠ 0 then
    some (STATUS_INVALID_PARAMETER, s, none)
  else if s.nBlockAlign = 0 then none
  else
    let size := RequestedSize_ - RequestedSize_ % s.nBlockAlign
    if !s.m_bCapture && !g_DoNotCreateDataFiles && !NT_SUCCESS setMaxWriteSize then
      some (setMaxWriteSize, s, none)
    else if !pagesAllocated then
      some (STATUS_UNSUCCESSFUL, s, none)
    else if s.m_ulDmaMovementRate = 0 then none
    else
      let ulBufferDurationMs := ((size * 1000) % U32) / s.m_ulDmaMovementRate
      some (STATUS_SUCCESS,
        { s with
          m_ulNotificationsPerBuffer := NotificationCount_
          m_ulDmaBufferSize := size
          m_ulNotificationIntervalMs := ulBufferDurationMs / NotificationCount_ },
        some size)

/-- The member function `CMiniportWaveRTStream::RegisterNotificationEvent`; `allocated` tells
whether `ExAllocatePool2` returned a list entry. -/
def RegisterNotificationEvent (s : CMiniportWaveRTStream) (NotificationEvent_ : PKEVENT)
    (allocated : Bool) : NTSTATUS × CMiniportWaveRTStream :=
  if !allocated then (STATUS_INSUFFICIENT_RESOURCES, s)
  else if s.m_NotificationList.contains NotificationEvent_ then (STATUS_UNSUCCESSFUL, s)
  else (STATUS_SUCCESS, { s with m_NotificationList := s.m_NotificationList ++ [NotificationEvent_] })

/-- The member function `CMiniportWaveRTStream::UnregisterNotificationEvent`:
`RemoveEntryList` unlinks the first entry of the list that holds the event. -/
def UnregisterNotificationEvent (s : CMiniportWaveRTStream) (NotificationEvent_ : PKEVENT) :
    NTSTATUS × CMiniportWaveRTStream :=
  if s.m_NotificationList.contains NotificationEvent_ then
    (STATUS_SUCCESS, { s with m_NotificationList := s.m_NotificationList.erase NotificationEvent_ })
  else (STATUS_NOT_FOUND, s)

/-- A call that registers or unregisters a notification event; `allocated` tells whether
`ExAllocatePool2` returns a list entry to `RegisterNotificationEvent`. -/
inductive NotificationCall
  | register (NotificationEvent_ : PKEVENT) (allocated : Bool)
  | unregister (NotificationEvent_ : PKEVENT)
  deriving DecidableEq, Repr

/-- The status and the stream after one registration call. -/
def notificationStep (s : CMiniportWaveRTStream) :
    NotificationCall → NTSTATUS × CMiniportWaveRTStream
  | NotificationCall.register ev allocated => RegisterNotificationEvent s ev allocated
  | NotificationCall.unregister ev => UnregisterNotificationEvent s ev

/-- The stream after a sequence of registration calls. -/
def notificationRun : CMiniportWaveRTStream → List NotificationCall → CMiniportWaveRTStream
  | s, [] => s
  | s, c :: cs => notificationRun (notificationStep s c).2 cs

/-! ## Position and packet queries -/

/-- The structure `KSAUDIO_POSITION`. -/
structure KSAUDIO_POSITION where
  PlayOffset : Nat
  WriteOffset : Nat
  deriving DecidableEq, Repr

/-- The member function `CMiniportWaveRTStream::GetPosition`, called at time `now`. -/
def GetPosition (s : CMiniportWaveRTStream) (now : Nat) :
    Option (NTSTATUS × CMiniportWaveRTStream × Option KSAUDIO_POSITION) :=
  if s.isKeywordDetectorPin then some (STATUS_NOT_SUPPORTED, s, none)
  else
    match (if s.m_KsState = KSSTATE_RUN then UpdatePosition s now else some s) with
    | none => none
    | some s1 =>
      some (STATUS_SUCCESS, s1,
        some { PlayOffset := s1.m_ullPlayPosition, WriteOffset := s1.m_ullWritePosition })

/-- The out-parameters of `GetReadPacket`; `none` is a parameter the call did not write. -/
structure ReadPacket where
  PacketNumber : Option Nat
  Flags : Option Nat
  PerformanceCounterValue : Option Nat
  MoreData : Option Bool
  deriving DecidableEq, Repr

/-- The 64-bit timestamp arithmetic of `GetReadPacket` (from
`linearPositionOfAvailablePacket` to `timeOfAvailablePacketInQpc`); the movement rate is
not zero here. -/
def timeOfAvailablePacketInQpc (s : CMiniportWaveRTStream) : Nat :=
  let linearPositionOfAvailablePacket : Nat :=
    ((s.m_llPacketCounter * ((s.m_ulDmaBufferSize / s.m_ulNotificationsPerBuffer : Nat) : Int))
      % 18446744073709551616).toNat
  let carryForwardBytes :=
    ((s.m_hnsElapsedTimeCarryForward * s.m_ulDmaMovementRate) % U64) / 10000000
  let deltaLinearPosition :=
    sub64 ((s.m_ullLinearPosition + carryForwardBytes) % U64) linearPositionOfAvailablePacket
  let deltaTimeInHns := ((deltaLinearPosition * 10000000) % U64) / s.m_ulDmaMovementRate
  let timeOfAvailablePacketInHns := sub64 s.m_ullDmaTimeStamp deltaTimeInHns
  ((timeOfAvailablePacketInHns * s.m_ullPerformanceCounterFrequency) % U64) / 10000000

/-- The member function `CMiniportWaveRTStream::GetReadPacket`. `kws` is what
`m_KeywordDetector.GetReadPacket` returns on the keyword detector pin: its status and the
packet number, counter value and more-data flag it writes. -/
def GetReadPacket (s : CMiniportWaveRTStream) (kws : NTSTATUS × Nat × Nat × Bool) :
    Option (NTSTATUS × CMiniportWaveRTStream × ReadPacket) :=
  if s.m_ulNotificationsPerBuffer = 0 then
    some (STATUS_NOT_SUPPORTED, s,
      { PacketNumber := none, Flags := none, PerformanceCounterValue := none, MoreData := none })
  else if s.m_KsState.toNat < KSSTATE_PAUSE.toNat then
    some (STATUS_INVALID_DEVICE_STATE, s,
      { PacketNumber := none, Flags := some 0, PerformanceCounterValue := none, MoreData := none })
  else if s.isKeywordDetectorPin then
    some (kws.1,
      (if NT_SUCCESS kws.1 then { s with m_ulLastOsReadPacket := kws.2.1 } else s),
      { PacketNumber := some kws.2.1, Flags := some 0,
        PerformanceCounterValue := some kws.2.2.1, MoreData := some kws.2.2.2 })
  else
    let availablePacketNumber := LODWORD (s.m_llPacketCounter - 1)
    if availablePacketNumber = s.m_ulLastOsReadPacket then
      some (STATUS_DEVICE_NOT_READY, s,
        { PacketNumber := none, Flags := some 0, PerformanceCounterValue := none,
          MoreData := none })
    else if s.m_ulDmaMovementRate = 0 then none
    else
      some (STATUS_SUCCESS, { s with m_ulLastOsReadPacket := availablePacketNumber },
        { PacketNumber := some availablePacketNumber, Flags := some 0,
          PerformanceCounterValue := some (timeOfAvailablePacketInQpc s),
          MoreData := some false })

/-- Modelled from the spec: `SetCurrentWritePositionInternal` is defined outside the sources
at hand. The comment at its call site in `SetWritePacket` says that it sets the current write
position to the given byte of the DMA buffer after checking the position against the DMA
buffer size, and that position 0 is no error. The exact comparison is not visible, so it is the
argument `fits` (position, buffer size); a rejected position leaves the stream as it was. -/
def SetCurrentWritePositionInternal (fits : Nat → Nat → Bool) (s : CMiniportWaveRTStream)
    (ulCurrentWritePosition : Nat) : NTSTATUS × CMiniportWaveRTStream :=
  if fits ulCurrentWritePosition s.m_ulDmaBufferSize then
    (STATUS_SUCCESS, { s with m_ulCurrentWritePosition := ulCurrentWritePosition })
  else (STATUS_INVALID_PARAMETER, s)

/-- Modelled from the spec: `SetStreamCurrentWritePositionForLastBuffer` is defined outside
the sources at hand. By the spec, `SetWritePacket` with the end-of-stream flag "commits both the
EOS marker and the adjusted write position atomically under the position lock": the marker is
set together with an accepted write position, and neither is changed otherwise. -/
def SetStreamCurrentWritePositionForLastBuffer (fits : Nat → Nat → Bool)
    (s : CMiniportWaveRTStream) (ulWritePosition : Nat) : NTSTATUS × CMiniportWaveRTStream :=
  let r := SetCurrentWritePositionInternal fits s ulWritePosition
  if NT_SUCCESS r.1 then (r.1, { r.2 with m_bEoSReceived := true }) else r

/-- The flag `KSSTREAM_HEADER_OPTIONSF_ENDOFSTREAM` of `ks.h`. -/
def KSSTREAM_HEADER_OPTIONSF_ENDOFSTREAM : Nat := 0x200

/-- The local `expectedPacket` of `SetWritePacket`: the low 32 bits of the packet counter,
incremented (as a `ULONG`) when the stream is in `KSSTATE_RUN`. -/
def expectedPacket (s : CMiniportWaveRTStream) : Nat :=
  if s.m_KsState = KSSTATE_RUN then (LODWORD s.m_llPacketCounter + 1) % U32
  else LODWORD s.m_llPacketCounter

/-- The member function `CMiniportWaveRTStream::SetWritePacket`. -/
def SetWritePacket (fits : Nat → Nat → Bool) (s : CMiniportWaveRTStream)
    (PacketNumber Flags EosPacketLength : Nat) : NTSTATUS × CMiniportWaveRTStream :=
  if s.m_ulNotificationsPerBuffer = 0 then (STATUS_NOT_SUPPORTED, s)
  else
    let oldLastOsWritePacket := s.m_ulLastOsWritePacket
    if s.m_bEoSReceived then (STATUS_INVALID_DEVICE_STATE, s)
    else
      let deltaFromExpectedPacket := toLONG (sub32 PacketNumber (expectedPacket s))
      if deltaFromExpectedPacket < 0 then (STATUS_DATA_LATE_ERROR, s)
      else if deltaFromExpectedPacket > 0 then (STATUS_DATA_OVERRUN, s)
      else
        let packetSize := s.m_ulDmaBufferSize / s.m_ulNotificationsPerBuffer
        let packetIndex := PacketNumber % s.m_ulNotificationsPerBuffer
        let ulCurrentWritePosition := (packetIndex * packetSize) % U32
        if Flags &&& KSSTREAM_HEADER_OPTIONSF_ENDOFSTREAM ≠ 0 then
          if EosPacketLength > packetSize then (STATUS_INVALID_PARAMETER, s)
          else
            let r := SetStreamCurrentWritePositionForLastBuffer fits
              { s with m_ulLastOsWritePacket := PacketNumber }
              ((ulCurrentWritePosition + EosPacketLength) % U32)
            if !NT_SUCCESS r.1 then
              (r.1, { r.2 with m_ulLastOsWritePacket := oldLastOsWritePacket })
            else r
        else
          let r := SetCurrentWritePositionInternal fits
            { s with m_ulLastOsWritePacket := PacketNumber } ulCurrentWritePosition
          if !NT_SUCCESS r.1 then
            (r.1, { r.2 with m_ulLastOsWritePacket := oldLastOsWritePacket })
          else r

/-! ## State machine and notification timer -/

/-- Modelled from the spec: `GetPositions` is defined outside the sources at hand. `SetState`
calls it on every transition to Pause with the comment "This call updates the linear buffer
and presentation positions"; by the spec the transition from Run to Pause recomputes the
position once synchronously, so the position is updated when the stream is still in Run. -/
def GetPositions (s : CMiniportWaveRTStream) (now : Nat) : Option CMiniportWaveRTStream :=
  if s.m_KsState = KSSTATE_RUN then UpdatePosition s now else some s

/-- The member function `CMiniportWaveRTStream::SetState`, called at time `now` (the value
both clock reads of the call convert to). `frequency` is the counter frequency that
`KeQueryPerformanceCounter` reports on the transition to Run. The ETW event, the keyword
detector and `m_SaveData.WaitAllWorkItems` write no member of the stream. -/
def SetState (s : CMiniportWaveRTStream) (State_ : KSSTATE) (now frequency : Nat) :
    Option (NTSTATUS × CMiniportWaveRTStream) :=
  match State_ with
  | KSSTATE_STOP =>
    some (STATUS_SUCCESS,
      { s with
        m_llPacketCounter := 0
        m_ullPlayPosition := 0
        m_ullWritePosition := 0
        m_ullLinearPosition := 0
        m_ullPresentationPosition := 0
        m_ulLastOsReadPacket := ULONG_MAX
        m_ulCurrentWritePosition := 0
        m_ulLastOsWritePacket := ULONG_MAX
        m_bEoSReceived := false
        m_bLastBufferRendered := false
        m_KsState := KSSTATE_STOP })
  | KSSTATE_ACQUIRE => some (STATUS_SUCCESS, { s with m_KsState := KSSTATE_ACQUIRE })
  | KSSTATE_PAUSE =>
    let s1 :=
      if s.m_KsState.toNat > KSSTATE_PAUSE.toNat ∧ s.m_ulNotificationIntervalMs > 0 then
        { s with
          timerSet := false
          m_hnsDPCTimeCarryForward :=
            if s.m_ullLastDPCTimeStamp > 0 then
              (sub64 now s.m_ullLastDPCTimeStamp + s.m_hnsDPCTimeCarryForward) % U64
            else s.m_hnsDPCTimeCarryForward }
      else s
    match GetPositions s1 now with
    | none => none
    | some s2 => some (STATUS_SUCCESS, { s2 with m_KsState := KSSTATE_PAUSE })
  | KSSTATE_RUN =>
    some (STATUS_SUCCESS,
      { s with
        m_ullPerformanceCounterFrequency := frequency
        m_ullLastDPCTimeStamp := now % U64
        m_ullDmaTimeStamp := now % U64
        timerSet := if s.m_ulNotificationIntervalMs > 0 then true else s.timerSet
        m_KsState := KSSTATE_RUN })

/-- The 64-bit value `hnsCurrentTime - m_ullLastDPCTimeStamp + m_hnsDPCTimeCarryForward`
of `TimerNotifyRT`. -/
def hnsSinceLastDPC (s : CMiniportWaveRTStream) (hnsCurrentTime : Nat) : Nat :=
  (sub64 hnsCurrentTime s.m_ullLastDPCTimeStamp + s.m_hnsDPCTimeCarryForward) % U64

/-- The local `TimeElapsedInMS` of `TimerNotifyRT`: the cast to `ULONG` applies before the
division by 10000. -/
def timerElapsedInMS (s : CMiniportWaveRTStream) (hnsCurrentTime : Nat) : Nat :=
  (hnsSinceLastDPC s hnsCurrentTime % U32) / 10000

/-- The block of `TimerNotifyRT` taken when the notification interval has elapsed: the time
beyond the interval is carried forward and the time of this callback is recorded. -/
def recordBufferCompleted (s : CMiniportWaveRTStream) (hnsCurrentTime : Nat) :
    CMiniportWaveRTStream :=
  { s with
    m_hnsDPCTimeCarryForward :=
      sub64 (hnsSinceLastDPC s hnsCurrentTime) ((s.m_ulNotificationIntervalMs * 10000) % U32)
    m_ullLastDPCTimeStamp := hnsCurrentTime % U64 }

/-- The part of `TimerNotifyRT` after the call of `UpdatePosition`: the packet counter, the
check of the stream state, the notification events signalled (`KeSetEvent`), in list order,
and the cancellation of the timer once the last buffer is rendered. In the signalling loop
the ETW event written before each `KeSetEvent` takes
`m_ulDmaBufferSize / m_ulNotificationsPerBuffer`: with an event to signal and zero
notifications per buffer the callback faults there, before the first event is signalled. The
glitch report and `m_pMiniport->DpcRoutine` write no member of the stream modelled here. -/
def completeTick (s2 : CMiniportWaveRTStream) (bufferCompleted : Bool) :
    Option (CMiniportWaveRTStream × List PKEVENT) :=
  let s3 :=
    if !s2.m_bEoSReceived then { s2 with m_llPacketCounter := s2.m_llPacketCounter + 1 }
    else s2
  if s3.m_KsState ≠ KSSTATE_RUN then some (s3, [])
  else
    let signalled : Option (List PKEVENT) :=
      if !s3.m_NotificationList.isEmpty && (bufferCompleted || s3.m_bLastBufferRendered) then
        if s3.m_ulNotificationsPerBuffer = 0 then none else some s3.m_NotificationList
      else some []
    signalled.map (fun events =>
      ((if s3.m_bLastBufferRendered then { s3 with timerSet := false } else s3), events))

/-- The timer callback `TimerNotifyRT` run at time `hnsCurrentTime`, with the list of
notification events it signals. -/
def TimerNotifyRT (s : CMiniportWaveRTStream) (hnsCurrentTime : Nat) :
    Option (CMiniportWaveRTStream × List PKEVENT) :=
  let bufferCompleted :=
    decide (timerElapsedInMS s hnsCurrentTime ≥ s.m_ulNotificationIntervalMs)
  let s1 := if bufferCompleted then recordBufferCompleted s hnsCurrentTime else s
  if !bufferCompleted && !s1.m_bEoSReceived then some (s1, [])
  else (UpdatePosition s1 hnsCurrentTime).bind (fun s2 => completeTick s2 bufferCompleted)

/-! ## Executions -/

/-- One call made on a stream: by the client (`AllocateBufferWithNotification`,
`RegisterNotificationEvent`, `UnregisterNotificationEvent`, `SetState`, `GetPosition`) or by
the notification timer. -/
inductive Call
  | allocateBufferWithNotification (NotificationCount_ RequestedSize_ : Nat)
  | registerNotificationEvent (NotificationEvent_ : PKEVENT)
  | unregisterNotificationEvent (NotificationEvent_ : PKEVENT)
  | setState (State_ : KSSTATE) (now : Nat)
  | getPosition (now : Nat)
  | timerNotifyRT (now : Nat)
  deriving DecidableEq, Repr

/-- The stream after one call and the events the call signals. External allocations succeed
and the counter frequency is ten million ticks per second; a timer callback is part of an
execution only while the timer is armed. -/
def step (s : CMiniportWaveRTStream) : Call → Option (CMiniportWaveRTStream × List PKEVENT)
  | Call.allocateBufferWithNotification n size =>
    (AllocateBufferWithNotification s n size true STATUS_SUCCESS true).map
      (fun r => (r.2.1, []))
  | Call.registerNotificationEvent ev => some ((RegisterNotificationEvent s ev true).2, [])
  | Call.unregisterNotificationEvent ev => some ((UnregisterNotificationEvent s ev).2, [])
  | Call.setState st now => (SetState s st now 10000000).map (fun r => (r.2, []))
  | Call.getPosition now => (GetPosition s now).map (fun r => (r.2.1, []))
  | Call.timerNotifyRT now => if s.timerSet then TimerNotifyRT s now else none

/-- The stream after a sequence of calls, with the events signalled by each call in turn. -/
def run : CMiniportWaveRTStream → List Call → Option (CMiniportWaveRTStream × List (List PKEVENT))
  | s, [] => some (s, [])
  | s, c :: cs =>
    match step s c with
    | none => none
    | some (s1, ev) =>
      match run s1 cs with
      | none => none
      | some (s2, evs) => some (s2, ev :: evs)

/-! ## Concrete streams -/

/-- A render stream with a 4096-byte buffer whose linear position is 4096 bytes below
two to the 64. -/
def streamNearWrap : CMiniportWaveRTStream :=
  { Init false 192000 4 false 32 with
    m_ulDmaBufferSize := 4096
    m_ullLinearPosition := 18446744073709547520 }

/-- A render stream with a 4096-byte buffer and all positions and carries zero. -/
def streamFresh : CMiniportWaveRTStream :=
  { Init false 192000 4 false 32 with
    m_ulDmaBufferSize := 4096
    m_ulNotificationsPerBuffer := 4
    m_ulNotificationIntervalMs := 5 }

/-- The calls that bring a fresh render stream to four completed packets: a 4096-byte buffer
with 4 notifications, Run at time 0 and a timer callback every 5 ms. -/
def fourPackets : List Call :=
  [Call.allocateBufferWithNotification 4 4096, Call.setState KSSTATE_RUN 0,
   Call.timerNotifyRT 50000, Call.timerNotifyRT 100000, Call.timerNotifyRT 150000,
   Call.timerNotifyRT 200000]

/-- A running render stream with a 4096-byte buffer after four completed packets (write
position 3840 at time 20 ms) and end of stream pending at position 1024. -/
def streamEoSPending : CMiniportWaveRTStream :=
  { Init false 192000 4 false 32 with
    m_ulDmaBufferSize := 4096
    m_ulNotificationsPerBuffer := 4
    m_ulNotificationIntervalMs := 5
    m_KsState := KSSTATE_RUN
    m_llPacketCounter := 4
    m_ullPlayPosition := 3840
    m_ullWritePosition := 3840
    m_ullLinearPosition := 3840
    m_ullPresentationPosition := 3840
    m_ullDmaTimeStamp := 200000
    m_ullLastDPCTimeStamp := 200000
    m_ullPerformanceCounterFrequency := 10000000
    m_ulCurrentWritePosition := 1024
    m_ulLastOsWritePacket := 5
    m_bEoSReceived := true
    timerSet := true }

/-- A paused render stream with a 4096-byte buffer, 4 notifications per buffer and packet
counter 0. -/
def streamPaused : CMiniportWaveRTStream := { streamFresh with m_KsState := KSSTATE_PAUSE }

/-- A running render stream with a 4096-byte buffer, 4 notifications per buffer and packet
counter 4, so that the expected packet number is 5. -/
def streamRun4 : CMiniportWaveRTStream :=
  { streamFresh with m_KsState := KSSTATE_RUN, m_llPacketCounter := 4 }

/-- A paused stream with one completed packet that the OS has not read yet. -/
def streamOnePacket : CMiniportWaveRTStream :=
  { streamFresh with m_KsState := KSSTATE_PAUSE, m_llPacketCounter := 1 }

/-- One reading of the range check of `SetCurrentWritePositionInternal`: the position does not
exceed the buffer size. -/
def fitsBuffer (position size : Nat) : Bool := decide (position ≤ size)

/-- The stream of the end-to-end scenario after `AllocateBufferWithNotification (4, 4096)` on a
fresh render stream with block alignment 4 and 192000 bytes per second. -/
def streamAllocated (bits : Nat) : CMiniportWaveRTStream :=
  { Init false 192000 4 false bits with
    m_ulNotificationsPerBuffer := 4
    m_ulDmaBufferSize := 4096
    m_ulNotificationIntervalMs := 5 }

/-- The stream of the end-to-end scenario after the transition to Run at time `t0`. -/
def streamRunning (bits t0 freq : Nat) : CMiniportWaveRTStream :=
  { streamAllocated bits with
    m_ullPerformanceCounterFrequency := freq
    m_ullLastDPCTimeStamp := t0 % U64
    m_ullDmaTimeStamp := t0 % U64
    timerSet := true
    m_KsState := KSSTATE_RUN }

/-- An execution with a Stop between two Runs: a 4096-byte buffer with 4 notifications (the
notification interval is 5 ms) and one registered event; Run at 100 ms with timer callbacks
every millisecond, Pause at 104.9 ms, Stop, then Acquire, Pause, Run at 200 ms and one timer
callback at 201 ms. Times are in 100ns units. -/
def staleCarryCalls : List Call :=
  [Call.allocateBufferWithNotification 4 4096, Call.registerNotificationEvent 7,
   Call.setState KSSTATE_ACQUIRE 900000, Call.setState KSSTATE_PAUSE 950000,
   Call.setState KSSTATE_RUN 1000000,
   Call.timerNotifyRT 1010000, Call.timerNotifyRT 1020000, Call.timerNotifyRT 1030000,
   Call.timerNotifyRT 1040000,
   Call.setState KSSTATE_PAUSE 1049000, Call.setState KSSTATE_STOP 1050000,
   Call.setState KSSTATE_ACQUIRE 1900000, Call.setState KSSTATE_PAUSE 1950000,
   Call.setState KSSTATE_RUN 2000000,
   Call.timerNotifyRT 2010000]

/-- A capture stream on the keyword detector pin, as `Init` leaves it. -/
def streamKeyword : CMiniportWaveRTStream := Init true 32000 2 true 32

/-- A stopped render stream with events 7 and 9 registered, in this order. -/
def streamTwoEvents : CMiniportWaveRTStream :=
  { Init false 192000 4 false 32 with m_NotificationList := [7, 9] }

/-- The last-buffer-rendered flag is set only on a stream that has received end of stream.
`Init` establishes this and every operation keeps it. -/
def EoSInvariant (s : CMiniportWaveRTStream) : Prop :=
  s.m_bLastBufferRendered = true → s.m_bEoSReceived = true

/-- The calls up to the first completed packet: a 4096-byte buffer with 4 notifications,
Acquire, Pause, Run at 100 ms and one timer callback 5.33 ms later. -/
def firstPacketCalls : List Call :=
  [Call.allocateBufferWithNotification 4 4096, Call.setState KSSTATE_ACQUIRE 700000,
   Call.setState KSSTATE_PAUSE 800000, Call.setState KSSTATE_RUN 1000000,
   Call.timerNotifyRT 1053300]

/-- A running render stream, as `streamRunning`, with events 7 and 9 registered. -/
def streamRunningTwoEvents : CMiniportWaveRTStream :=
  { streamRunning 32 1000000 10000000 with m_NotificationList := [7, 9] }

/-- The member function `CMiniportWaveRTStream::AllocateAudioBuffer`; `pagesAllocated` tells
whether `AllocatePagesForMdl` returned a non-null MDL. The third component is the value
written to `ActualSize_`. -/
def AllocateAudioBuffer (s : CMiniportWaveRTStream) (RequestedSize_ : Nat)
    (pagesAllocated : Bool) : Option (NTSTATUS × CMiniportWaveRTStream × Option Nat) :=
  if RequestedSize_ = 0 ∨ RequestedSize_ < s.nBlockAlign then
    some (STATUS_UNSUCCESSFUL, s, none)
  else if s.nBlockAlign = 0 then none
  else
    let size := RequestedSize_ - RequestedSize_ % s.nBlockAlign
    if !pagesAllocated then some (STATUS_UNSUCCESSFUL, s, none)
    else
      some (STATUS_SUCCESS,
        { s with m_ulDmaBufferSize := size, m_ulNotificationsPerBuffer := 0 }, some size)

/-- Whether a call of `UpdatePosition` writes the ETW event `eMINIPORT_LAST_BUFFER_RENDERED`:
the condition of the `if` that also sets `m_bLastBufferRendered`. -/
def lastBufferRenderedEvent (s : CMiniportWaveRTStream) (hnsCurrentTime : Nat) : Bool :=
  !s.m_bCapture && s.m_bEoSReceived && !s.m_bLastBufferRendered
    && decide (((s.m_ullWritePosition + appliedDisplacement s hnsCurrentTime) % U64)
        % s.m_ulDmaBufferSize = s.m_ulCurrentWritePosition)

/-- The number of `eMINIPORT_LAST_BUFFER_RENDERED` events written along a sequence of
`UpdatePosition` calls, each made at its timestamp after another operation on the stream
(given as the change it makes to the members). -/
def lastBufferRenderedEvents :
    CMiniportWaveRTStream → List ((CMiniportWaveRTStream → CMiniportWaveRTStream) × Nat) → Nat
  | _, [] => 0
  | s, (f, t) :: rest =>
    (if lastBufferRenderedEvent (f s) t then 1 else 0) +
      match UpdatePosition (f s) t with
      | some s1 => lastBufferRenderedEvents s1 rest
      | none => 0

/-- The loop of `WriteBytes` and `ReadBytes` for buffer size `B`, run for at most `fuel`
iterations from `bufferOffset` with `ByteDisplacement` bytes left: the chunks (offset in the
DMA buffer, length `runWrite`) handed to the tone generator or the data saver, in order;
`none` when the loop has not finished within `fuel` iterations. -/
def chunkLoop (B : Nat) : Nat → Nat → Nat → Option (List (Nat × Nat))
  | _, _, 0 => some []
  | 0, _, _ + 1 => none
  | fuel + 1, bufferOffset, ByteDisplacement + 1 =>
    let runWrite := min (ByteDisplacement + 1) (sub32 B bufferOffset)
    match chunkLoop B fuel (((bufferOffset + runWrite) % U32) % B)
        (ByteDisplacement + 1 - runWrite) with
    | some rest => some ((bufferOffset, runWrite) :: rest)
    | none => none

/-- The member function `CMiniportWaveRTStream::WriteBytes`, run for at most `fuel` loop
iterations: the chunks given to `m_ToneGenerator.GenerateSine`. A zero buffer size is a
division by zero. -/
def WriteBytes (s : CMiniportWaveRTStream) (fuel ByteDisplacement : Nat) :
    Option (List (Nat × Nat)) :=
  if s.m_ulDmaBufferSize = 0 then none
  else
    chunkLoop s.m_ulDmaBufferSize fuel ((s.m_ullLinearPosition % s.m_ulDmaBufferSize) % U32)
      ByteDisplacement

/-- The member function `CMiniportWaveRTStream::ReadBytes`, run for at most `fuel` loop
iterations: the chunks given to `m_SaveData.WriteData`. A zero buffer size is a division by
zero. -/
def ReadBytes (s : CMiniportWaveRTStream) (fuel ByteDisplacement : Nat) :
    Option (List (Nat × Nat)) :=
  if s.m_ulDmaBufferSize = 0 then none
  else
    chunkLoop s.m_ulDmaBufferSize fuel ((s.m_ullLinearPosition % s.m_ulDmaBufferSize) % U32)
      ByteDisplacement

/-- The chunks are non-empty, lie inside a buffer of `B` bytes, start at `start`, and each
next chunk starts where the previous one ended, modulo `B`. -/
def chunksFrom (B : Nat) : Nat → List (Nat × Nat) → Bool
  | _, [] => true
  | start, (offset, length) :: rest =>
    decide (offset = start) && decide (0 < length) && decide (offset < B)
      && decide (offset + length ≤ B) && chunksFrom B ((offset + length) % B) rest

/-- The sum of the chunk lengths. -/
def chunkBytes (chunks : List (Nat × Nat)) : Nat := (chunks.map Prod.snd).sum

/-- A render stream with a 4096-byte buffer whose linear position is 12000 (offset 3808). -/
def streamOffset : CMiniportWaveRTStream :=
  { Init false 192000 4 false 32 with
    m_ulDmaBufferSize := 4096
    m_ullPlayPosition := 3808
    m_ullWritePosition := 3808
    m_ullLinearPosition := 12000 }

/-- A running render stream with end of stream pending whose write position has reached the
end-of-stream position 1024. -/
def streamAtEoS : CMiniportWaveRTStream :=
  { streamEoSPending with
    m_ullPlayPosition := 1024
    m_ullWritePosition := 1024
    m_ullLinearPosition := 5120
    m_bLastBufferRendered := true }

end Sysvad

/-! ## The swap APO: aggregate effects-enable setting -/

namespace SwapAPO

/-- A `GUID`, as its 128-bit value. -/
abbrev GUID := Nat

/-- The processing mode `AUDIO_SIGNALPROCESSINGMODE_RAW` of `ksmedia.h`. -/
def AUDIO_SIGNALPROCESSINGMODE_RAW : GUID := 0x9E90EA20B4934FD1A1A87E1361A956CF

/-- The processing mode `AUDIO_SIGNALPROCESSINGMODE_DEFAULT` of `ksmedia.h`. -/
def AUDIO_SIGNALPROCESSINGMODE_DEFAULT : GUID := 0xC18E2F7E933D4965B7D11EEF228D2AF3

/-- A `PROPERTYKEY`: format identifier and property identifier. -/
structure PROPERTYKEY where
  fmtid : GUID
  pid : Nat
  deriving DecidableEq, Repr

/-- The key `PKEY_AudioEndpoint_Disable_SysFx` of `mmdeviceapi.h`. -/
def PKEY_AudioEndpoint_Disable_SysFx : PROPERTYKEY :=
  { fmtid := 0x1DA5D803D4924EDD8C23E0C0FFEE7F0E, pid := 5 }

/-- The variant type tag `VT_UI4`. -/
def VT_UI4 : Nat := 19

/-- The fields of a `PROPVARIANT` that the setting reads. -/
structure PROPVARIANT where
  vt : Nat
  ulVal : Nat
  deriving DecidableEq, Repr

/-- An `IPropertyStore`: `GetValue` on a key, `none` when the call returns a failure code. -/
abbrev IPropertyStore := PROPERTYKEY → Option PROPVARIANT

/-- The function `GetCurrentEffectsSetting` of `swapapomfx.cpp`; the result is the `LONG`
it returns, 1 or 0. -/
def GetCurrentEffectsSetting (properties : IPropertyStore) (pkeyEnable : PROPERTYKEY)
    (processingMode : GUID) : Int :=
  let enabled0 : Bool :=
    match properties PKEY_AudioEndpoint_Disable_SysFx with
    | some var => !(var.vt == VT_UI4 && var.ulVal != 0)
    | none => false
  let enabled1 : Bool :=
    enabled0 &&
      (match properties pkeyEnable with
       | some var => var.vt == VT_UI4 && var.ulVal != 0
       | none => false)
  let enabled2 : Bool := enabled1 && !(processingMode == AUDIO_SIGNALPROCESSINGMODE_RAW)
  if enabled2 then 1 else 0

/-- A property key of an effect, different from the master-disable key. -/
def effectKey : PROPERTYKEY := { fmtid := 0xA44531EF53774944AE1553789A9629C7, pid := 2 }

/-- A property store whose master-disable property is the `VT_UI4` value `master` and whose
other properties are the `VT_UI4` value `enable`. -/
def storeWith (master enable : Nat) : IPropertyStore :=
  fun key =>
    if key = PKEY_AudioEndpoint_Disable_SysFx then some { vt := VT_UI4, ulVal := master }
    else some { vt := VT_UI4, ulVal := enable }

/-! ## The swap APO: the processing entry point and the property notification -/

/-- The value `BUFFER_INVALID` of the enumeration `APO_BUFFER_FLAGS`. -/
def BUFFER_INVALID : Nat := 0

/-- The value `BUFFER_VALID` of the enumeration `APO_BUFFER_FLAGS`. -/
def BUFFER_VALID : Nat := 1

/-- The value `BUFFER_SILENT` of the enumeration `APO_BUFFER_FLAGS`. -/
def BUFFER_SILENT : Nat := 2

/-- The structure `APO_CONNECTION_PROPERTY`: `pBuffer` is the address of the connection
buffer, counted in samples. -/
structure APO_CONNECTION_PROPERTY where
  pBuffer : Nat
  u32ValidFrameCount : Nat
  u32BufferFlags : Nat
  deriving DecidableEq, Repr

/-- A `FLOAT32` sample. The only arithmetic on samples here is the product with a gain
coefficient; samples are taken as rational numbers, for which, as for IEEE values, the
product with 1.0 is the sample itself. -/
abbrev FLOAT32 := ℚ

/-- The sample memory: the sample stored at each address. -/
abbrev SampleMemory := Nat → FLOAT32

/-- The helper `WriteSilence` of the base class, which the sources at hand call and do not
define: it zeroes `u32FrameCount * u32SamplesPerFrame` samples from `pf32Frames` on. -/
def WriteSilence (mem : SampleMemory) (pf32Frames u32FrameCount u32SamplesPerFrame : Nat) :
    SampleMemory :=
  fun a =>
    if pf32Frames ≤ a ∧ a < pf32Frames + u32FrameCount * u32SamplesPerFrame then 0 else mem a

/-- The helper `CopyFrames` of the base class, which the sources at hand call and do not
define: it copies `u32FrameCount * u32SamplesPerFrame` samples from `pf32InFrames` to
`pf32OutFrames`. -/
def CopyFrames (mem : SampleMemory)
    (pf32OutFrames pf32InFrames u32FrameCount u32SamplesPerFrame : Nat) : SampleMemory :=
  fun a =>
    if pf32OutFrames ≤ a ∧ a < pf32OutFrames + u32FrameCount * u32SamplesPerFrame then
      mem (pf32InFrames + (a - pf32OutFrames))
    else mem a

/-- Modelled from the spec: `ProcessSwap` is defined outside the sources at hand. By the spec
the effect is a channel permutation that is its own inverse, the channel swap: in each of the
`u32ValidFrameCount` frames the first two channels change places and the other channels are
copied. The input is read as it was before the call, which is what an in-place call
(`pf32OutputFrames = pf32InputFrames`) on whole frames does. -/
def ProcessSwap (mem : SampleMemory)
    (pf32OutputFrames pf32InputFrames u32ValidFrameCount u32SamplesPerFrame : Nat) :
    SampleMemory :=
  fun a =>
    if pf32OutputFrames ≤ a ∧
        a < pf32OutputFrames + u32ValidFrameCount * u32SamplesPerFrame then
      if (a - pf32OutputFrames) % u32SamplesPerFrame = 0 then
        mem (pf32InputFrames + (a - pf32OutputFrames) + 1)
      else if (a - pf32OutputFrames) % u32SamplesPerFrame = 1 then
        mem (pf32InputFrames + (a - pf32OutputFrames) - 1)
      else mem (pf32InputFrames + (a - pf32OutputFrames))
    else mem a

/-- Modelled from the spec: `ProcessSwapScale` is defined outside the sources at hand. By the
spec it is the channel permutation of `ProcessSwap` with a per-channel gain coefficient: each
output sample is the permuted input sample times the coefficient of its channel. -/
def ProcessSwapScale (mem : SampleMemory)
    (pf32OutputFrames pf32InputFrames u32ValidFrameCount u32SamplesPerFrame : Nat)
    (pf32Coefficients : Nat → FLOAT32) : SampleMemory :=
  fun a =>
    if pf32OutputFrames ≤ a ∧
        a < pf32OutputFrames + u32ValidFrameCount * u32SamplesPerFrame then
      ProcessSwap mem pf32OutputFrames pf32InputFrames u32ValidFrameCount u32SamplesPerFrame a
        * pf32Coefficients ((a - pf32OutputFrames) % u32SamplesPerFrame)
    else mem a

/-- The value `AUDIO_SYSTEMEFFECT_STATE_OFF` of the enumeration `AUDIO_SYSTEMEFFECT_STATE`. -/
def AUDIO_SYSTEMEFFECT_STATE_OFF : Nat := 0

/-- The value `AUDIO_SYSTEMEFFECT_STATE_ON` of the enumeration `AUDIO_SYSTEMEFFECT_STATE`. -/
def AUDIO_SYSTEMEFFECT_STATE_ON : Nat := 1

/-- The structure `AUDIO_SYSTEMEFFECT`: an effect, whether its state can be set, and its
state. -/
structure AUDIO_SYSTEMEFFECT where
  id : GUID
  canSetState : Bool
  state : Nat
  deriving DecidableEq, Repr

/-- The members of `CSwapAPOMFX` read or written by `APOProcess`, `OnPropertyValueChanged`,
`HandleNotification` and the effect list functions. `m_spAPOSystemEffectsProperties` and
`m_userStore` are `none` for a null pointer, `m_hEffectsChangedEvent` is `none` for a null
handle; `GetSamplesPerFrame ()` of the base class returns `m_u32SamplesPerFrame`;
`m_effectInfos` is the array of `NUM_OF_EFFECTS` effects. -/
structure CSwapAPOMFX where
  m_AudioProcessingMode : GUID
  m_fEnableSwapMFX : Int
  m_u32SamplesPerFrame : Nat
  m_pf32Coefficients : Nat → FLOAT32
  m_spAPOSystemEffectsProperties : Option IPropertyStore
  m_hEffectsChangedEvent : Option Nat
  m_effectInfos : List AUDIO_SYSTEMEFFECT
  m_userStore : Option IPropertyStore

/-- The members of `CSwapAPOSFX` read or written by `APOProcess` and
`OnPropertyValueChanged`. -/
structure CSwapAPOSFX where
  m_AudioProcessingMode : GUID
  m_fEnableSwapSFX : Int
  m_u32SamplesPerFrame : Nat
  m_spAPOSystemEffectsProperties : Option IPropertyStore
  m_hEffectsChangedEvent : Option Nat

/-- The member function `CSwapAPOMFX::APOProcess`, on the first input connection and the
first output connection: the sample memory and the output connection after the call. -/
def CSwapAPOMFX.APOProcess (this : CSwapAPOMFX) (mem : SampleMemory)
    (ppInputConnections0 : APO_CONNECTION_PROPERTY) (u32NumOutputConnections : Nat)
    (ppOutputConnections0 : APO_CONNECTION_PROPERTY) :
    SampleMemory × APO_CONNECTION_PROPERTY :=
  if ppInputConnections0.u32BufferFlags = BUFFER_INVALID then (mem, ppOutputConnections0)
  else if ppInputConnections0.u32BufferFlags = BUFFER_VALID
      ∨ ppInputConnections0.u32BufferFlags = BUFFER_SILENT then
    let mem1 :=
      if BUFFER_SILENT = ppInputConnections0.u32BufferFlags then
        WriteSilence mem ppInputConnections0.pBuffer ppInputConnections0.u32ValidFrameCount
          this.m_u32SamplesPerFrame
      else mem
    let mem2 :=
      if this.m_AudioProcessingMode ≠ AUDIO_SIGNALPROCESSINGMODE_RAW
          ∧ this.m_fEnableSwapMFX ≠ 0 ∧ 1 < this.m_u32SamplesPerFrame then
        ProcessSwapScale mem1 ppInputConnections0.pBuffer ppInputConnections0.pBuffer
          ppInputConnections0.u32ValidFrameCount this.m_u32SamplesPerFrame
          this.m_pf32Coefficients
      else mem1
    let mem3 :=
      if 0 ≠ u32NumOutputConnections
          ∧ ppOutputConnections0.pBuffer ≠ ppInputConnections0.pBuffer then
        CopyFrames mem2 ppOutputConnections0.pBuffer ppInputConnections0.pBuffer
          ppInputConnections0.u32ValidFrameCount this.m_u32SamplesPerFrame
      else mem2
    (mem3,
      { ppOutputConnections0 with
        u32BufferFlags := ppInputConnections0.u32BufferFlags
        u32ValidFrameCount := ppInputConnections0.u32ValidFrameCount })
  else (mem, ppOutputConnections0)

/-- The member function `CSwapAPOSFX::APOProcess`, on the first input connection and the
first output connection: the sample memory and the output connection after the call. -/
def CSwapAPOSFX.APOProcess (this : CSwapAPOSFX) (mem : SampleMemory)
    (ppInputConnections0 : APO_CONNECTION_PROPERTY) (u32NumOutputConnections : Nat)
    (ppOutputConnections0 : APO_CONNECTION_PROPERTY) :
    SampleMemory × APO_CONNECTION_PROPERTY :=
  if ppInputConnections0.u32BufferFlags = BUFFER_INVALID then (mem, ppOutputConnections0)
  else if ppInputConnections0.u32BufferFlags = BUFFER_VALID
      ∨ ppInputConnections0.u32BufferFlags = BUFFER_SILENT then
    let mem1 :=
      if BUFFER_SILENT = ppInputConnections0.u32BufferFlags then
        WriteSilence mem ppInputConnections0.pBuffer ppInputConnections0.u32ValidFrameCount
          this.m_u32SamplesPerFrame
      else mem
    let mem2 :=
      if this.m_AudioProcessingMode ≠ AUDIO_SIGNALPROCESSINGMODE_RAW
          ∧ this.m_fEnableSwapSFX ≠ 0 then
        ProcessSwap mem1 ppInputConnections0.pBuffer ppInputConnections0.pBuffer
          ppInputConnections0.u32ValidFrameCount this.m_u32SamplesPerFrame
      else mem1
    let mem3 :=
      if 0 ≠ u32NumOutputConnections
          ∧ ppOutputConnections0.pBuffer ≠ ppInputConnections0.pBuffer then
        CopyFrames mem2 ppOutputConnections0.pBuffer ppInputConnections0.pBuffer
          ppInputConnections0.u32ValidFrameCount this.m_u32SamplesPerFrame
      else mem2
    (mem3,
      { ppOutputConnections0 with
        u32BufferFlags := ppInputConnections0.u32BufferFlags
        u32ValidFrameCount := ppInputConnections0.u32ValidFrameCount })
  else (mem, ppOutputConnections0)

/-- The member function `CSwapAPOMFX::OnPropertyValueChanged`: the object after the call and
whether the call signals `m_hEffectsChangedEvent`. The key
`PKEY_Endpoint_Enable_Channel_Swap_MFX` is declared in a header outside the sources at hand,
so its value is an argument. -/
def CSwapAPOMFX.OnPropertyValueChanged (PKEY_Endpoint_Enable_Channel_Swap_MFX : PROPERTYKEY)
    (this : CSwapAPOMFX) (key : PROPERTYKEY) : CSwapAPOMFX × Bool :=
  match this.m_spAPOSystemEffectsProperties with
  | none => (this, false)
  | some properties =>
    if key = PKEY_Endpoint_Enable_Channel_Swap_MFX ∨ key = PKEY_AudioEndpoint_Disable_SysFx
    then
      let fNewValue :=
        GetCurrentEffectsSetting properties PKEY_Endpoint_Enable_Channel_Swap_MFX
          this.m_AudioProcessingMode
      let fOldValue := this.m_fEnableSwapMFX
      let nChanges : Nat := if fNewValue ≠ fOldValue then 1 else 0
      ({ this with m_fEnableSwapMFX := fNewValue },
        decide (nChanges > 0) && this.m_hEffectsChangedEvent.isSome)
    else (this, false)

/-- The member function `CSwapAPOSFX::OnPropertyValueChanged`: the object after the call and
whether the call signals `m_hEffectsChangedEvent`. The key
`PKEY_Endpoint_Enable_Channel_Swap_SFX` is declared in a header outside the sources at hand,
so its value is an argument. -/
def CSwapAPOSFX.OnPropertyValueChanged (PKEY_Endpoint_Enable_Channel_Swap_SFX : PROPERTYKEY)
    (this : CSwapAPOSFX) (key : PROPERTYKEY) : CSwapAPOSFX × Bool :=
  match this.m_spAPOSystemEffectsProperties with
  | none => (this, false)
  | some properties =>
    if key = PKEY_Endpoint_Enable_Channel_Swap_SFX ∨ key = PKEY_AudioEndpoint_Disable_SysFx
    then
      let fNewValue :=
        GetCurrentEffectsSetting properties PKEY_Endpoint_Enable_Channel_Swap_SFX
          this.m_AudioProcessingMode
      let fOldValue := this.m_fEnableSwapSFX
      let nChanges : Nat := if fNewValue ≠ fOldValue then 1 else 0
      ({ this with m_fEnableSwapSFX := fNewValue },
        decide (nChanges > 0) && this.m_hEffectsChangedEvent.isSome)
    else (this, false)

/-- A property store on which every `GetValue` call fails. -/
def storeFailing : IPropertyStore := fun _ => none

/-- A mix-effect object with the swap effect enabled in its cache, two channels, all
coefficients 1.0, and a property store whose reads fail. -/
def mfxEnabled : CSwapAPOMFX :=
  { m_AudioProcessingMode := AUDIO_SIGNALPROCESSINGMODE_DEFAULT
    m_fEnableSwapMFX := 1
    m_u32SamplesPerFrame := 2
    m_pf32Coefficients := fun _ => 1
    m_spAPOSystemEffectsProperties := some storeFailing
    m_hEffectsChangedEvent := some 11
    m_effectInfos := []
    m_userStore := none }

/-- A stream-effect object with the swap effect enabled in its cache, two channels, and a
property store whose reads fail. -/
def sfxEnabled : CSwapAPOSFX :=
  { m_AudioProcessingMode := AUDIO_SIGNALPROCESSINGMODE_DEFAULT
    m_fEnableSwapSFX := 1
    m_u32SamplesPerFrame := 2
    m_spAPOSystemEffectsProperties := some storeFailing
    m_hEffectsChangedEvent := some 11 }

/-- A sample memory that holds the sample `a` at address `a`. -/
def rampMemory : SampleMemory := fun a => (a : ℚ)

/-- An input connection flagged Silent: 3 frames at address 16. -/
def inputSilent : APO_CONNECTION_PROPERTY :=
  { pBuffer := 16, u32ValidFrameCount := 3, u32BufferFlags := BUFFER_SILENT }

/-- An input connection with the undefined flag 7. -/
def inputUndefined : APO_CONNECTION_PROPERTY :=
  { pBuffer := 16, u32ValidFrameCount := 3, u32BufferFlags := 7 }

/-- An output connection on the buffer of the input connection. -/
def outputInPlace : APO_CONNECTION_PROPERTY :=
  { pBuffer := 16, u32ValidFrameCount := 0, u32BufferFlags := BUFFER_INVALID }

/-- An output connection on a buffer of its own. -/
def outputElsewhere : APO_CONNECTION_PROPERTY :=
  { pBuffer := 64, u32ValidFrameCount := 5, u32BufferFlags := BUFFER_VALID }



/-- An input connection flagged Valid: 3 frames at address 16. -/
def inputValid : APO_CONNECTION_PROPERTY :=
  { pBuffer := 16, u32ValidFrameCount := 3, u32BufferFlags := BUFFER_VALID }

/-! ## The swap APO: effect list, notifications, and the calls made by the processing -/

/-- An `HRESULT`, as its 32-bit value. -/
abbrev HRESULT := Nat

/-- The value `S_OK`. -/
def S_OK : HRESULT := 0

/-- The value `E_NOTFOUND`. -/
def E_NOTFOUND : HRESULT := 0x80070490

/-- The value `E_OUTOFMEMORY`. -/
def E_OUTOFMEMORY : HRESULT := 0x8007000E

/-- The `HRESULT` that `CSwapAPOMFX::OnPropertyValueChanged` returns: its local `hr`, set to
`S_OK` at entry and assigned on no path. -/
def CSwapAPOMFX.OnPropertyValueChanged_hr (PKEY_Endpoint_Enable_Channel_Swap_MFX : PROPERTYKEY)
    (this : CSwapAPOMFX) (key : PROPERTYKEY) : HRESULT :=
  match this.m_spAPOSystemEffectsProperties with
  | none => S_OK
  | some _ =>
    if key = PKEY_Endpoint_Enable_Channel_Swap_MFX ∨ key = PKEY_AudioEndpoint_Disable_SysFx
    then S_OK
    else S_OK

/-- The `HRESULT` that `CSwapAPOSFX::OnPropertyValueChanged` returns: its local `hr`, set to
`S_OK` at entry and assigned on no path. -/
def CSwapAPOSFX.OnPropertyValueChanged_hr (PKEY_Endpoint_Enable_Channel_Swap_SFX : PROPERTYKEY)
    (this : CSwapAPOSFX) (key : PROPERTYKEY) : HRESULT :=
  match this.m_spAPOSystemEffectsProperties with
  | none => S_OK
  | some _ =>
    if key = PKEY_Endpoint_Enable_Channel_Swap_SFX ∨ key = PKEY_AudioEndpoint_Disable_SysFx
    then S_OK
    else S_OK

/-- The member function `CSwapAPOMFX::SetAudioSystemEffectState`: the status, the object after
the call and whether the call signals `m_hEffectsChangedEvent`. The loop
`for (auto effectInfo : m_effectInfos)` binds `effectInfo` to a copy of each array element, so
the assignment `effectInfo.state = state` changes the copy and `m_effectInfos` keeps its
value. `SetEvent` is called without a check of the handle; on a null handle it signals
nothing. -/
def CSwapAPOMFX.SetAudioSystemEffectState (this : CSwapAPOMFX) (effectId : GUID)
    (state : Nat) : HRESULT × CSwapAPOMFX × Bool :=
  match this.m_effectInfos.find? (fun effectInfo => effectId == effectInfo.id) with
  | some effectInfo =>
    let oldState := effectInfo.state
    let effectInfo1 : AUDIO_SYSTEMEFFECT := { effectInfo with state := state }
    (S_OK, this, decide (oldState ≠ effectInfo1.state) && this.m_hEffectsChangedEvent.isSome)
  | none => (E_NOTFOUND, this, false)

/-- The member function `CSwapAPOMFX::GetControllableSystemEffectsList` with non-null out
pointers: the status, the object after the call and the effects reported. `event` is the
handle passed in (`none` for `NULL`), `duplicated` the handle that `DuplicateHandle` gives
(`none` when it fails, with the error `hrDuplicate`), `allocated` tells whether
`CoTaskMemAlloc` returned memory. -/
def CSwapAPOMFX.GetControllableSystemEffectsList (this : CSwapAPOMFX) (event : Option Nat)
    (duplicated : Option Nat) (hrDuplicate : HRESULT) (allocated : Bool) :
    HRESULT × CSwapAPOMFX × List AUDIO_SYSTEMEFFECT :=
  let this1 := { this with m_hEffectsChangedEvent := none }
  if event.isSome && duplicated.isNone then (hrDuplicate, this1, [])
  else
    let this2 := if event.isSome then { this1 with m_hEffectsChangedEvent := duplicated } else this1
    if this2.m_AudioProcessingMode ≠ AUDIO_SIGNALPROCESSINGMODE_RAW then
      if !allocated then (E_OUTOFMEMORY, this2, [])
      else (S_OK, this2, this2.m_effectInfos)
    else (S_OK, this2, [])

/-- The notifications that `HandleNotification` tells apart: an endpoint property change with
its key, an audio environment state change, which only writes `m_bIsSpatialAudioInUse`, and
every other type. -/
inductive APO_NOTIFICATION
  | endpointPropertyChange (propertyKey : PROPERTYKEY)
  | audioEnvironmentStateChange
  | other
  deriving DecidableEq, Repr

/-- The member function `CSwapAPOMFX::HandleNotification`: the object after the call and
whether the call signals `m_hEffectsChangedEvent`; `none` when `m_userStore` is null, which
`GetCurrentEffectsSetting` dereferences. The array `controls` names `m_fEnableSwapMFX`, and no
statement of the function writes through it. The key `PKEY_Endpoint_Enable_Channel_Swap_MFX`
is declared in a header outside the sources at hand, so its value is an argument. -/
def CSwapAPOMFX.HandleNotification (PKEY_Endpoint_Enable_Channel_Swap_MFX : PROPERTYKEY)
    (this : CSwapAPOMFX) (apoNotification : APO_NOTIFICATION) : Option (CSwapAPOMFX × Bool) :=
  match apoNotification with
  | APO_NOTIFICATION.endpointPropertyChange propertyKey =>
    if propertyKey = PKEY_Endpoint_Enable_Channel_Swap_MFX
        ∨ propertyKey = PKEY_AudioEndpoint_Disable_SysFx then
      match this.m_userStore, this.m_effectInfos with
      | some userStore, effectInfo0 :: _ =>
        let fNewValue :=
          GetCurrentEffectsSetting userStore PKEY_Endpoint_Enable_Channel_Swap_MFX
            this.m_AudioProcessingMode
        let r := this.SetAudioSystemEffectState effectInfo0.id
          (if fNewValue ≠ 0 then AUDIO_SYSTEMEFFECT_STATE_ON else AUDIO_SYSTEMEFFECT_STATE_OFF)
        some (r.2.1, r.2.2)
      | _, _ => none
    else some (this, false)
  | _ => some (this, false)

/-- A call that `APOProcess` makes on the sample memory, with its arguments. -/
inductive SampleCall
  | writeSilence (pf32Frames u32FrameCount u32SamplesPerFrame : Nat)
  | processSwapScale (pf32OutputFrames pf32InputFrames u32ValidFrameCount
      u32SamplesPerFrame : Nat)
  | processSwap (pf32OutputFrames pf32InputFrames u32ValidFrameCount u32SamplesPerFrame : Nat)
  | copyFrames (pf32OutFrames pf32InFrames u32FrameCount u32SamplesPerFrame : Nat)
  deriving DecidableEq, Repr

/-- The sample memory after a call; `pf32Coefficients` are the coefficients that
`ProcessSwapScale` is given. -/
def SampleCall.run (pf32Coefficients : Nat → FLOAT32) (mem : SampleMemory) :
    SampleCall → SampleMemory
  | SampleCall.writeSilence p n spf => WriteSilence mem p n spf
  | SampleCall.processSwapScale pOut pIn n spf => ProcessSwapScale mem pOut pIn n spf pf32Coefficients
  | SampleCall.processSwap pOut pIn n spf => ProcessSwap mem pOut pIn n spf
  | SampleCall.copyFrames pOut pIn n spf => CopyFrames mem pOut pIn n spf

/-- The calls on the sample memory that `CSwapAPOMFX::APOProcess` makes, in order. -/
def CSwapAPOMFX.APOProcess_calls (this : CSwapAPOMFX)
    (ppInputConnections0 : APO_CONNECTION_PROPERTY) (u32NumOutputConnections : Nat)
    (ppOutputConnections0 : APO_CONNECTION_PROPERTY) : List SampleCall :=
  if ppInputConnections0.u32BufferFlags = BUFFER_INVALID then []
  else if ppInputConnections0.u32BufferFlags = BUFFER_VALID
      ∨ ppInputConnections0.u32BufferFlags = BUFFER_SILENT then
    let calls1 : List SampleCall :=
      if BUFFER_SILENT = ppInputConnections0.u32BufferFlags then
        [SampleCall.writeSilence ppInputConnections0.pBuffer
          ppInputConnections0.u32ValidFrameCount this.m_u32SamplesPerFrame]
      else []
    let calls2 :=
      if this.m_AudioProcessingMode ≠ AUDIO_SIGNALPROCESSINGMODE_RAW
          ∧ this.m_fEnableSwapMFX ≠ 0 ∧ 1 < this.m_u32SamplesPerFrame then
        calls1 ++ [SampleCall.processSwapScale ppInputConnections0.pBuffer
          ppInputConnections0.pBuffer ppInputConnections0.u32ValidFrameCount
          this.m_u32SamplesPerFrame]
      else calls1
    if 0 ≠ u32NumOutputConnections
        ∧ ppOutputConnections0.pBuffer ≠ ppInputConnections0.pBuffer then
      calls2 ++ [SampleCall.copyFrames ppOutputConnections0.pBuffer
        ppInputConnections0.pBuffer ppInputConnections0.u32ValidFrameCount
        this.m_u32SamplesPerFrame]
    else calls2
  else []

/-- The calls on the sample memory that `CSwapAPOSFX::APOProcess` makes, in order. -/
def CSwapAPOSFX.APOProcess_calls (this : CSwapAPOSFX)
    (ppInputConnections0 : APO_CONNECTION_PROPERTY) (u32NumOutputConnections : Nat)
    (ppOutputConnections0 : APO_CONNECTION_PROPERTY) : List SampleCall :=
  if ppInputConnections0.u32BufferFlags = BUFFER_INVALID then []
  else if ppInputConnections0.u32BufferFlags = BUFFER_VALID
      ∨ ppInputConnections0.u32BufferFlags = BUFFER_SILENT then
    let calls1 : List SampleCall :=
      if BUFFER_SILENT = ppInputConnections0.u32BufferFlags then
        [SampleCall.writeSilence ppInputConnections0.pBuffer
          ppInputConnections0.u32ValidFrameCount this.m_u32SamplesPerFrame]
      else []
    let calls2 :=
      if this.m_AudioProcessingMode ≠ AUDIO_SIGNALPROCESSINGMODE_RAW
          ∧ this.m_fEnableSwapSFX ≠ 0 then
        calls1 ++ [SampleCall.processSwap ppInputConnections0.pBuffer
          ppInputConnections0.pBuffer ppInputConnections0.u32ValidFrameCount
          this.m_u32SamplesPerFrame]
      else calls1
    if 0 ≠ u32NumOutputConnections
        ∧ ppOutputConnections0.pBuffer ≠ ppInputConnections0.pBuffer then
      calls2 ++ [SampleCall.copyFrames ppOutputConnections0.pBuffer
        ppInputConnections0.pBuffer ppInputConnections0.u32ValidFrameCount
        this.m_u32SamplesPerFrame]
    else calls2
  else []

/-- The identifier of the swap effect, `SwapEffectId`; its value is declared outside the
sources at hand. -/
def SwapEffectId : GUID := 0xB8EC75BA00ED434CA732064A0F00788E

/-- A mix-effect object whose cache says that the swap effect is off (`m_fEnableSwapMFX = 0`,
effect state `AUDIO_SYSTEMEFFECT_STATE_OFF`), while its user store has the master-disable
property 0 and the enable property 1, in the default processing mode. -/
def mfxStale : CSwapAPOMFX :=
  { m_AudioProcessingMode := AUDIO_SIGNALPROCESSINGMODE_DEFAULT
    m_fEnableSwapMFX := 0
    m_u32SamplesPerFrame := 2
    m_pf32Coefficients := fun _ => 1
    m_spAPOSystemEffectsProperties := none
    m_hEffectsChangedEvent := some 11
    m_effectInfos :=
      [{ id := SwapEffectId, canSetState := false, state := AUDIO_SYSTEMEFFECT_STATE_OFF }]
    m_userStore := some (storeWith 0 1) }

/-- A mix-effect object with the flag cached as 0 and a legacy property store with the
master-disable property 0 and the enable property 1. -/
def mfxLegacy : CSwapAPOMFX :=
  { mfxStale with
    m_spAPOSystemEffectsProperties := some (storeWith 0 1)
    m_userStore := none }

end SwapAPO

/-! ## Theorems: the position engine -/

namespace Sysvad

open NTSTATUS KSSTATE

/-- With a non-zero buffer size `UpdatePosition` returns, and these are the members it leaves. -/
theorem UpdatePosition_isSome (s : CMiniportWaveRTStream) (t : Nat)
    (hB : 0 < s.m_ulDmaBufferSize) : ∃ s1, UpdatePosition s t = some s1 ∧
      s1.m_ulDmaBufferSize = s.m_ulDmaBufferSize ∧
      s1.m_ullLinearPosition = (s.m_ullLinearPosition + appliedDisplacement s t) % U64 ∧
      s1.m_ullWritePosition =
        ((s.m_ullWritePosition + appliedDisplacement s t) % U64) % s.m_ulDmaBufferSize ∧
      s1.m_ullPlayPosition = s1.m_ullWritePosition ∧
      s1.m_hnsElapsedTimeCarryForward = hnsElapsed s t % 10000 ∧
      s1.m_ullDmaTimeStamp = t % U64 := by
  have h0 : s.m_ulDmaBufferSize ≠ 0 := Nat.pos_iff_ne_zero.mp hB
  unfold UpdatePosition
  rw [if_neg h0]
  exact ⟨_, rfl, rfl, rfl, rfl, rfl, rfl, rfl⟩

/-- One call keeps the position invariant and does not decrease the linear position, as long
as the linear position does not wrap. -/
theorem UpdatePosition_invariant_step (s : CMiniportWaveRTStream) (t : Nat)
    (hB : 0 < s.m_ulDmaBufferSize) (hInv : PositionInvariant s)
    (hfit : s.m_ullLinearPosition + appliedDisplacement s t < U64) :
    ∃ s1, UpdatePosition s t = some s1 ∧ PositionInvariant s1 ∧
      s1.m_ulDmaBufferSize = s.m_ulDmaBufferSize ∧
      s.m_ullLinearPosition ≤ s1.m_ullLinearPosition := by
  obtain ⟨s1, h1, hBs, hL, hW, hP, _, _⟩ := UpdatePosition_isSome s t hB
  refine ⟨s1, h1, ⟨hP, ?_⟩, hBs, ?_⟩
  · rw [hW, hL, hBs, Nat.mod_eq_of_lt hfit]
    have hle : s.m_ullWritePosition ≤ s.m_ullLinearPosition := by
      rw [hInv.2]; exact Nat.mod_le _ _
    have hlt : s.m_ullWritePosition + appliedDisplacement s t < U64 := by omega
    rw [Nat.mod_eq_of_lt hlt, hInv.2, Nat.mod_add_mod]
  · rw [hL, Nat.mod_eq_of_lt hfit]; omega

/-- The invariant and the monotonicity of the linear position along a sequence of calls,
stated for every prefix of the sequence. -/
theorem UpdatePositions_invariant_aux (ts : List Nat) :
    ∀ s : CMiniportWaveRTStream, 0 < s.m_ulDmaBufferSize → PositionInvariant s →
      LinearPositionFits s ts = true →
      ∀ k, ∃ sk, UpdatePositions s (ts.take k) = some sk ∧ PositionInvariant sk ∧
        s.m_ullLinearPosition ≤ sk.m_ullLinearPosition ∧
        ∀ j, j ≤ k → ∃ sj, UpdatePositions s (ts.take j) = some sj ∧
          sj.m_ullLinearPosition ≤ sk.m_ullLinearPosition := by
  induction ts with
  | nil =>
    intro s _ hInv _ k
    refine ⟨s, by simp [UpdatePositions], hInv, le_refl _, ?_⟩
    intro j _
    exact ⟨s, by simp [UpdatePositions], le_refl _⟩
  | cons t rest ih =>
    intro s hB hInv hfit k
    simp only [LinearPositionFits, Bool.and_eq_true, decide_eq_true_eq] at hfit
    obtain ⟨hfit1, hfit2⟩ := hfit
    obtain ⟨s1, h1, hInv1, hB1, hL1⟩ := UpdatePosition_invariant_step s t hB hInv hfit1
    rw [h1] at hfit2
    cases k with
    | zero =>
      refine ⟨s, by simp [UpdatePositions], hInv, le_refl _, ?_⟩
      intro j hj
      have hj0 : j = 0 := by omega
      subst hj0
      exact ⟨s, by simp [UpdatePositions], le_refl _⟩
    | succ k =>
      obtain ⟨sk, hk, hInvk, hLk, hall⟩ := ih s1 (by omega) hInv1 hfit2 k
      refine ⟨sk, by simp [UpdatePositions, h1, hk], hInvk, le_trans hL1 hLk, ?_⟩
      intro j hj
      cases j with
      | zero => exact ⟨s, by simp [UpdatePositions], le_trans hL1 hLk⟩
      | succ j =>
        obtain ⟨sj, hsj, hle⟩ := hall j (by omega)
        exact ⟨sj, by simp [UpdatePositions, h1, hsj], hle⟩

/-- C1, as stated, fails: a stream with a positive buffer size that satisfies the position
invariant, whose 64-bit linear position is 4096 bytes below two to the 64, is called once
with a later timestamp (one second after `m_ullDmaTimeStamp`); the linear position wraps
and decreases from 18446744073709547520 to 187904. -/
theorem UpdatePosition_linear_position_wraps :
    0 < streamNearWrap.m_ulDmaBufferSize ∧ PositionInvariant streamNearWrap ∧
      streamNearWrap.m_ullDmaTimeStamp ≤ 10000000 ∧
      (UpdatePosition streamNearWrap 10000000).map (fun s => s.m_ullLinearPosition)
        = some 187904 ∧
      187904 < streamNearWrap.m_ullLinearPosition := by
  refine ⟨by decide, by unfold PositionInvariant; decide, by decide, by decide, by decide⟩

/-- C1 (amended): for every stream with a positive DMA buffer size that satisfies
`playPosition = writePosition = linearPosition mod bufferSize`, and every sequence of
`UpdatePosition` calls (capture or render, end of stream pending or not, whatever the
timestamps, so in particular non-decreasing ones) during which the 64-bit linear position
does not wrap: every call returns, after every call
`playPosition = writePosition = linearPosition mod bufferSize`, and the linear position
after `j` calls is at most the linear position after `k` calls whenever `j ≤ k`. -/
theorem UpdatePosition_invariant_monotone (s : CMiniportWaveRTStream) (ts : List Nat)
    (hB : 0 < s.m_ulDmaBufferSize) (hInv : PositionInvariant s)
    (hfit : LinearPositionFits s ts = true) (k : Nat) :
    ∃ sk, UpdatePositions s (ts.take k) = some sk ∧ PositionInvariant sk ∧
      ∀ j, j ≤ k → ∃ sj, UpdatePositions s (ts.take j) = some sj ∧
        sj.m_ullLinearPosition ≤ sk.m_ullLinearPosition := by
  obtain ⟨sk, hk, hInvk, _, hall⟩ := UpdatePositions_invariant_aux ts s hB hInv hfit k
  exact ⟨sk, hk, hInvk, hall⟩

/-- Witness of C1 (amended): a fresh render stream with a 4096-byte buffer, called at 1 ms,
5.33 ms and 30 ms. -/
theorem UpdatePosition_invariant_monotone_witness :
    0 < streamFresh.m_ulDmaBufferSize ∧ PositionInvariant streamFresh ∧
      LinearPositionFits streamFresh [10000, 53300, 300000] = true ∧
      ∃ sk, UpdatePositions streamFresh ([10000, 53300, 300000].take 3) = some sk ∧
        PositionInvariant sk ∧
        ∀ j, j ≤ 3 → ∃ sj, UpdatePositions streamFresh ([10000, 53300, 300000].take j) = some sj ∧
          sj.m_ullLinearPosition ≤ sk.m_ullLinearPosition :=
  ⟨by decide, by unfold PositionInvariant; decide, by decide,
    UpdatePosition_invariant_monotone streamFresh [10000, 53300, 300000] (by decide)
      (by unfold PositionInvariant; decide) (by decide) 3⟩

/-- C2 fails on the code: on the render stream `streamEoSPending` (buffer 4096 bytes, write
position 3840, end of stream pending at position 1024, reached by `fourPackets` and a
`SetWritePacket` with the end-of-stream flag) the forward distance to the end-of-stream
position is 1280 bytes, but a call 22 ms after the last one applies a displacement of 4224
bytes: the cursor goes past the end-of-stream position, to offset 3968, and the last buffer
is not flagged as rendered. -/
theorem UpdatePosition_EoS_overshoot :
    (run (Init false 192000 4 false 32) fourPackets).map
        (fun r => SetWritePacket fitsBuffer r.1 5
          KSSTREAM_HEADER_OPTIONSF_ENDOFSTREAM 0) = some (STATUS_SUCCESS, streamEoSPending) ∧
      (streamEoSPending.m_ulCurrentWritePosition + streamEoSPending.m_ulDmaBufferSize
          - streamEoSPending.m_ullWritePosition) % streamEoSPending.m_ulDmaBufferSize = 1280 ∧
      appliedDisplacement streamEoSPending 420000 = 4224 ∧
      (UpdatePosition streamEoSPending 420000).map
          (fun s => (s.m_ullWritePosition, s.m_ullLinearPosition, s.m_bLastBufferRendered))
        = some (3968, 8064, false) := by
  refine ⟨by decide, by decide, by decide, by decide⟩

/-- When the timestamp is not before `m_ullDmaTimeStamp` and the elapsed time with the carry
is below two to the 32, the 64-bit elapsed time of the call is the exact difference. -/
theorem hnsElapsed_eq (s : CMiniportWaveRTStream) (t : Nat)
    (h1 : s.m_ullDmaTimeStamp ≤ t)
    (h3 : t - s.m_ullDmaTimeStamp + s.m_hnsElapsedTimeCarryForward < U32) :
    hnsElapsed s t = t - s.m_ullDmaTimeStamp + s.m_hnsElapsedTimeCarryForward := by
  unfold hnsElapsed sub64
  unfold U64 U32 at *
  omega

/-- One call splits an elapsed time below two to the 32 into milliseconds and remainder. -/
theorem TimeElapsedInMS_split (s : CMiniportWaveRTStream) (t : Nat)
    (he : hnsElapsed s t < U32) :
    TimeElapsedInMS s t * 10000 + hnsElapsed s t % 10000 = hnsElapsed s t := by
  unfold TimeElapsedInMS
  rw [Nat.mod_eq_of_lt he]
  omega

/-- The conservation of elapsed time along a sequence of calls. -/
theorem elapsedMsTotal_conserved (ts : List Nat) :
    ∀ s : CMiniportWaveRTStream, 0 < s.m_ulDmaBufferSize → ElapsedFits s ts = true →
      ∃ sn, UpdatePositions s ts = some sn ∧
        s.m_ullDmaTimeStamp ≤ sn.m_ullDmaTimeStamp ∧
        elapsedMsTotal s ts * 10000 + sn.m_hnsElapsedTimeCarryForward
          = sn.m_ullDmaTimeStamp - s.m_ullDmaTimeStamp + s.m_hnsElapsedTimeCarryForward := by
  induction ts with
  | nil =>
    intro s _ _
    exact ⟨s, by simp [UpdatePositions], le_refl _, by simp [elapsedMsTotal]⟩
  | cons t rest ih =>
    intro s hB hfit
    simp only [ElapsedFits, Bool.and_eq_true, decide_eq_true_eq] at hfit
    obtain ⟨⟨h1, h2, h3⟩, hrest⟩ := hfit
    obtain ⟨s1, hs1, hBs, _, _, _, hcarry, hts⟩ := UpdatePosition_isSome s t hB
    rw [hs1] at hrest
    obtain ⟨sn, hsn, hle, hsum⟩ := ih s1 (by omega) hrest
    have he := hnsElapsed_eq s t h1 h3
    have hsplit := TimeElapsedInMS_split s t (by rw [he]; exact h3)
    rw [Nat.mod_eq_of_lt h2] at hts
    rw [hts] at hle hsum
    rw [hcarry] at hsum
    refine ⟨sn, by simp [UpdatePositions, hs1, hsn], le_trans h1 hle, ?_⟩
    simp only [elapsedMsTotal, hs1]
    rw [he] at hsplit hsum
    omega

/-- C3, as stated, fails: with `m_ullDmaTimeStamp` and the carry zero and a timestamp of
two to the 32 (about 429.5 seconds), the elapsed time `e` is 4294967296, the cast to `ULONG`
leaves `TimeElapsedInMS` = 0, the new carry is 7296, and `0 * 10000 + 7296` is not `e`. -/
theorem TimeElapsedInMS_truncates :
    hnsElapsed streamFresh 4294967296 = 4294967296 ∧
      TimeElapsedInMS streamFresh 4294967296 = 0 ∧
      (UpdatePosition streamFresh 4294967296).map (fun s => s.m_hnsElapsedTimeCarryForward)
        = some 7296 ∧
      TimeElapsedInMS streamFresh 4294967296 * 10000 + 7296
        ≠ hnsElapsed streamFresh 4294967296 := by
  refine ⟨by decide, by decide, by decide, by decide⟩

/-- C3 (amended): for every `UpdatePosition` call whose elapsed time
`e = (now - dmaTimestamp) + old elapsedTimeCarry` (in 100ns units, as the 64-bit value the
code computes) is below two to the 32, the computed `TimeElapsedInMS` and the new
`elapsedTimeCarry` satisfy `TimeElapsedInMS * 10000 + elapsedTimeCarry = e`; hence over
any number of successive calls with non-decreasing timestamps, each with such an elapsed
time, the sum of the millisecond amounts times 10000 plus the final carry equals the total
elapsed 100ns time plus the initial carry. -/
theorem elapsed_time_conserved (s : CMiniportWaveRTStream) (now : Nat) (ts : List Nat)
    (hB : 0 < s.m_ulDmaBufferSize) (he : hnsElapsed s now < U32)
    (hfit : ElapsedFits s ts = true) :
    (∃ s1, UpdatePosition s now = some s1 ∧
        TimeElapsedInMS s now * 10000 + s1.m_hnsElapsedTimeCarryForward = hnsElapsed s now) ∧
      ∃ sn, UpdatePositions s ts = some sn ∧
        elapsedMsTotal s ts * 10000 + sn.m_hnsElapsedTimeCarryForward
          = sn.m_ullDmaTimeStamp - s.m_ullDmaTimeStamp + s.m_hnsElapsedTimeCarryForward := by
  constructor
  · obtain ⟨s1, hs1, _, _, _, _, hcarry, _⟩ := UpdatePosition_isSome s now hB
    exact ⟨s1, hs1, by rw [hcarry]; exact TimeElapsedInMS_split s now he⟩
  · obtain ⟨sn, hsn, _, hsum⟩ := elapsedMsTotal_conserved ts s hB hfit
    exact ⟨sn, hsn, hsum⟩

/-- Witness of C3 (amended): a fresh stream called at 5.33 ms, and called at 1 ms, 5.33 ms
and 30 ms in turn. -/
theorem elapsed_time_conserved_witness :
    0 < streamFresh.m_ulDmaBufferSize ∧ hnsElapsed streamFresh 53300 < U32 ∧
      ElapsedFits streamFresh [10000, 53300, 300000] = true ∧
      (∃ s1, UpdatePosition streamFresh 53300 = some s1 ∧
        TimeElapsedInMS streamFresh 53300 * 10000 + s1.m_hnsElapsedTimeCarryForward
          = hnsElapsed streamFresh 53300) ∧
      ∃ sn, UpdatePositions streamFresh [10000, 53300, 300000] = some sn ∧
        elapsedMsTotal streamFresh [10000, 53300, 300000] * 10000
            + sn.m_hnsElapsedTimeCarryForward
          = sn.m_ullDmaTimeStamp - streamFresh.m_ullDmaTimeStamp
            + streamFresh.m_hnsElapsedTimeCarryForward :=
  ⟨by decide, by decide, by decide,
    elapsed_time_conserved streamFresh 53300 [10000, 53300, 300000] (by decide) (by decide)
      (by decide)⟩

/-! ## Theorems: timer callback, packets and the end-to-end scenario -/

/-- Subtracting a timestamp from a later one, in 64-bit arithmetic. -/
theorem sub64_add_left (t d : Nat) (h : t + d < U64) : sub64 (t + d) (t % U64) = d := by
  unfold sub64; unfold U64 at *; omega

/-- The members and the events after the second part of `TimerNotifyRT`, when it returns. -/
theorem completeTick_props (s2 : CMiniportWaveRTStream) (b : Bool)
    (r : CMiniportWaveRTStream × List PKEVENT) (h : completeTick s2 b = some r) :
    r.1.m_llPacketCounter =
        (if s2.m_bEoSReceived then s2.m_llPacketCounter else s2.m_llPacketCounter + 1) ∧
      r.1.m_ulNotificationsPerBuffer = s2.m_ulNotificationsPerBuffer ∧
      r.1.m_KsState = s2.m_KsState ∧
      r.1.isKeywordDetectorPin = s2.isKeywordDetectorPin ∧
      r.1.m_ulLastOsReadPacket = s2.m_ulLastOsReadPacket ∧
      r.1.m_ulDmaMovementRate = s2.m_ulDmaMovementRate ∧
      r.1.m_bLastBufferRendered = s2.m_bLastBufferRendered ∧
      r.1.m_bEoSReceived = s2.m_bEoSReceived ∧
      r.1.m_NotificationList = s2.m_NotificationList ∧
      r.1.m_ullLastDPCTimeStamp = s2.m_ullLastDPCTimeStamp ∧
      r.1.m_hnsDPCTimeCarryForward = s2.m_hnsDPCTimeCarryForward ∧
      r.2 =
        (if s2.m_KsState = KSSTATE_RUN ∧ (b = true ∨ s2.m_bLastBufferRendered = true)
          then s2.m_NotificationList else []) := by
  unfold completeTick at h
  cases hE : s2.m_bEoSReceived <;> cases hb : b <;> cases hL : s2.m_bLastBufferRendered <;>
    cases hl : s2.m_NotificationList <;>
    simp only [hE, hb, hL, hl, Bool.not_true, Bool.not_false, Bool.false_eq_true, if_true,
      if_false, List.isEmpty_nil, List.isEmpty_cons, Bool.false_and, Bool.true_and,
      Bool.or_false, Bool.or_true, Bool.false_or, Bool.true_or, Option.map_some] at h <;>
    split_ifs at h <;>
    simp only [Option.map_some', Option.map_none', Option.some.injEq] at h <;>
    first
      | exact Option.noConfusion h
      | (subst h
         simp_all)

/-- The second part of `TimerNotifyRT` returns on a stream with notifications per buffer, or
with no event registered. -/
theorem completeTick_isSome (s2 : CMiniportWaveRTStream) (b : Bool)
    (hN : 0 < s2.m_ulNotificationsPerBuffer ∨ s2.m_NotificationList = []) :
    ∃ r, completeTick s2 b = some r := by
  unfold completeTick
  cases hE : s2.m_bEoSReceived <;>
    simp only [Bool.not_true, Bool.not_false, Bool.false_eq_true, if_true, if_false] <;>
    split_ifs <;>
    first
      | exact ⟨_, rfl⟩
      | exact ⟨_, Option.map_some' _ _⟩
      | (exfalso
         rcases hN with hN | hN
         · omega
         · simp_all)

/-- A timer callback that finds the notification interval elapsed, without end of stream
pending, on a stream with notifications per buffer or with no event registered, returns and
completes one packet. -/
theorem TimerNotifyRT_completes (s : CMiniportWaveRTStream) (now : Nat)
    (hB : 0 < s.m_ulDmaBufferSize)
    (hN : 0 < s.m_ulNotificationsPerBuffer ∨ s.m_NotificationList = [])
    (hE : s.m_bEoSReceived = false)
    (hT : s.m_ulNotificationIntervalMs ≤ timerElapsedInMS s now) :
    ∃ r, TimerNotifyRT s now = some r ∧
      r.1.m_llPacketCounter = s.m_llPacketCounter + 1 ∧
      r.1.m_ulNotificationsPerBuffer = s.m_ulNotificationsPerBuffer ∧
      r.1.m_KsState = s.m_KsState ∧
      r.1.isKeywordDetectorPin = s.isKeywordDetectorPin ∧
      r.1.m_ulLastOsReadPacket = s.m_ulLastOsReadPacket ∧
      r.1.m_ulDmaMovementRate = s.m_ulDmaMovementRate := by
  have h0 : (recordBufferCompleted s now).m_ulDmaBufferSize ≠ 0 := Nat.pos_iff_ne_zero.mp hB
  have hT1 : decide (timerElapsedInMS s now ≥ s.m_ulNotificationIntervalMs) = true :=
    decide_eq_true hT
  have hrun : TimerNotifyRT s now
      = completeTick (positionsAfter (recordBufferCompleted s now) now) true := by
    unfold TimerNotifyRT
    simp only [hT1, if_true, Bool.not_true, Bool.false_and, UpdatePosition, if_neg h0,
      Option.some_bind, Bool.false_eq_true, if_false]
  obtain ⟨r, hr⟩ :=
    completeTick_isSome (positionsAfter (recordBufferCompleted s now) now) true hN
  obtain ⟨h1, h2, h3, h4, h5, h6, _⟩ := completeTick_props _ true r hr
  have hE1 : (positionsAfter (recordBufferCompleted s now) now).m_bEoSReceived = false := hE
  rw [hE1] at h1
  exact ⟨r, hrun.trans hr, h1, h2, h3, h4, h5, h6⟩

/-- The allocation of the end-to-end scenario succeeds with an actual size of 4096 bytes. -/
theorem AllocateBufferWithNotification_scenario (bits : Nat) (g : Bool) :
    AllocateBufferWithNotification (Init false 192000 4 false bits) 4 4096 g
        STATUS_SUCCESS true = some (STATUS_SUCCESS, streamAllocated bits, some 4096) := by
  cases g <;>
    (unfold AllocateBufferWithNotification
     norm_num [Init, NT_SUCCESS, streamAllocated, U32])

/-- The result of `GetReadPacket` on an event-driven stream in Pause or Run that is not on the
keyword detector pin. -/
theorem GetReadPacket_main (s : CMiniportWaveRTStream) (kws : NTSTATUS × Nat × Nat × Bool)
    (hN : s.m_ulNotificationsPerBuffer ≠ 0)
    (hS : s.m_KsState = KSSTATE_PAUSE ∨ s.m_KsState = KSSTATE_RUN)
    (hK : s.isKeywordDetectorPin = false) :
    GetReadPacket s kws =
      if LODWORD (s.m_llPacketCounter - 1) = s.m_ulLastOsReadPacket then
        some (STATUS_DEVICE_NOT_READY, s,
          { PacketNumber := none, Flags := some 0, PerformanceCounterValue := none,
            MoreData := none })
      else if s.m_ulDmaMovementRate = 0 then none
      else
        some (STATUS_SUCCESS,
          { s with m_ulLastOsReadPacket := LODWORD (s.m_llPacketCounter - 1) },
          { PacketNumber := some (LODWORD (s.m_llPacketCounter - 1)), Flags := some 0,
            PerformanceCounterValue := some (timeOfAvailablePacketInQpc s),
            MoreData := some false }) := by
  have hS1 : ¬ s.m_KsState.toNat < KSSTATE_PAUSE.toNat := by
    rcases hS with h | h <;> rw [h] <;> decide
  unfold GetReadPacket
  simp only [if_neg hN, if_neg hS1, hK, Bool.false_eq_true, if_false]

/-- The transition to Stop returns success and zeroes the play and write positions. -/
theorem SetState_stop (s : CMiniportWaveRTStream) (now freq : Nat) :
    ∃ s1, SetState s KSSTATE_STOP now freq = some (STATUS_SUCCESS, s1) ∧
      s1.m_ullPlayPosition = 0 ∧ s1.m_ullWritePosition = 0 ∧ s1.m_KsState = KSSTATE_STOP ∧
      s1.isKeywordDetectorPin = s.isKeywordDetectorPin :=
  ⟨_, rfl, rfl, rfl, rfl, rfl⟩

/-- Outside Run, `GetPosition` reports the stored positions and leaves the stream as it is. -/
theorem GetPosition_not_running (s : CMiniportWaveRTStream) (now : Nat)
    (hK : s.isKeywordDetectorPin = false) (hS : s.m_KsState ≠ KSSTATE_RUN) :
    GetPosition s now = some (STATUS_SUCCESS, s,
      some { PlayOffset := s.m_ullPlayPosition, WriteOffset := s.m_ullWritePosition }) := by
  unfold GetPosition
  simp only [hK, if_neg hS, Bool.false_eq_true, if_false]

/-- In the end-to-end scenario the timer callback 5.33 ms after Run sees 5 elapsed
milliseconds. -/
theorem timerElapsed_running (bits t0 freq : Nat) (h : t0 + 53300 < U64) :
    timerElapsedInMS (streamRunning bits t0 freq) (t0 + 53300) = 5 := by
  have e : hnsSinceLastDPC (streamRunning bits t0 freq) (t0 + 53300) = 53300 := by
    show (sub64 (t0 + 53300) (t0 % U64) + 0) % U64 = 53300
    rw [sub64_add_left t0 53300 h]; decide
  unfold timerElapsedInMS
  rw [e]; decide

/-- C7: with block alignment 4, `AllocateBufferWithNotification` (4 notifications, 4096 bytes)
and movement rate 192000 bytes per second on a freshly initialised render stream on a
non-keyword pin, after `SetState` through Acquire, Pause and Run at time `t0` and one timer
callback at `t0` + 5.33 ms, `GetReadPacket` returns success with packet number 0 and
`MoreData = FALSE`; after a following `SetState (Stop)`, `GetPosition` returns success with
`PlayOffset = 0` and `WriteOffset = 0`. Every call of the scenario returns. -/
theorem end_to_end_scenario (t0 a b tStop tPos freq bits : Nat) (g : Bool)
    (kws : NTSTATUS × Nat × Nat × Bool) (h : t0 + 53300 < U64) :
    ∃ s1 s2 s3 s4 r5 s6 out s7,
      AllocateBufferWithNotification (Init false 192000 4 false bits) 4 4096 g
          STATUS_SUCCESS true = some (STATUS_SUCCESS, s1, some 4096) ∧
        SetState s1 KSSTATE_ACQUIRE a freq = some (STATUS_SUCCESS, s2) ∧
        SetState s2 KSSTATE_PAUSE b freq = some (STATUS_SUCCESS, s3) ∧
        SetState s3 KSSTATE_RUN t0 freq = some (STATUS_SUCCESS, s4) ∧
        TimerNotifyRT s4 (t0 + 53300) = some r5 ∧
        GetReadPacket r5.1 kws = some (STATUS_SUCCESS, s6, out) ∧
        out.PacketNumber = some 0 ∧ out.MoreData = some false ∧
        SetState s6 KSSTATE_STOP tStop freq = some (STATUS_SUCCESS, s7) ∧
        GetPosition s7 tPos
          = some (STATUS_SUCCESS, s7, some { PlayOffset := 0, WriteOffset := 0 }) := by
  obtain ⟨r5, h5, hpc, hN, hS, hK, hL, hR⟩ :=
    TimerNotifyRT_completes (streamRunning bits t0 freq) (t0 + 53300)
      (show 0 < 4096 by decide) (Or.inl (show 0 < 4 by decide)) rfl
      (by rw [timerElapsed_running bits t0 freq h]; exact le_refl 5)
  have hpc0 : r5.1.m_llPacketCounter = 1 := by rw [hpc]; rfl
  have hpc1 : LODWORD (r5.1.m_llPacketCounter - 1) = 0 := by rw [hpc0]; decide
  have hN1 : r5.1.m_ulNotificationsPerBuffer ≠ 0 := by
    rw [hN]; show (4 : Nat) ≠ 0; decide
  have hL1 : LODWORD (r5.1.m_llPacketCounter - 1) ≠ r5.1.m_ulLastOsReadPacket := by
    rw [hpc1, hL]; show (0 : Nat) ≠ ULONG_MAX; decide
  have hR1 : r5.1.m_ulDmaMovementRate ≠ 0 := by
    rw [hR]; show (192000 : Nat) ≠ 0; decide
  have hK1 : r5.1.isKeywordDetectorPin = false := hK
  have e6 := GetReadPacket_main r5.1 kws hN1 (Or.inr hS) hK1
  rw [if_neg hL1, if_neg hR1] at e6
  obtain ⟨s7, h7, hplay, hwrite, hstate, hkw⟩ :=
    SetState_stop { r5.1 with m_ulLastOsReadPacket := LODWORD (r5.1.m_llPacketCounter - 1) }
      tStop freq
  have e8 := GetPosition_not_running s7 tPos (hkw.trans hK1) (by rw [hstate]; decide)
  rw [hplay, hwrite] at e8
  exact ⟨streamAllocated bits, _, _, streamRunning bits t0 freq, r5, _, _, s7,
    AllocateBufferWithNotification_scenario bits g, rfl, rfl, rfl, h5, e6, by rw [hpc1], rfl,
    h7, e8⟩

/-- Witness of C7: Run at 100 ms, timer callback at 105.33 ms, Stop at 110 ms. -/
theorem end_to_end_scenario_witness :
    1000000 + 53300 < U64 ∧
    ∃ s1 s2 s3 s4 r5 s6 out s7,
      AllocateBufferWithNotification (Init false 192000 4 false 32) 4 4096 true
          STATUS_SUCCESS true = some (STATUS_SUCCESS, s1, some 4096) ∧
        SetState s1 KSSTATE_ACQUIRE 700000 10000000 = some (STATUS_SUCCESS, s2) ∧
        SetState s2 KSSTATE_PAUSE 800000 10000000 = some (STATUS_SUCCESS, s3) ∧
        SetState s3 KSSTATE_RUN 1000000 10000000 = some (STATUS_SUCCESS, s4) ∧
        TimerNotifyRT s4 (1000000 + 53300) = some r5 ∧
        GetReadPacket r5.1 (STATUS_SUCCESS, 0, 0, false) = some (STATUS_SUCCESS, s6, out) ∧
        out.PacketNumber = some 0 ∧ out.MoreData = some false ∧
        SetState s6 KSSTATE_STOP 1100000 10000000 = some (STATUS_SUCCESS, s7) ∧
        GetPosition s7 1200000
          = some (STATUS_SUCCESS, s7, some { PlayOffset := 0, WriteOffset := 0 }) :=
  ⟨by decide, end_to_end_scenario 1000000 700000 800000 1100000 1200000 10000000 32 true
    (STATUS_SUCCESS, 0, 0, false) (by decide)⟩

/-- C8: for an event-driven stream (`notificationsPerBuffer > 0`) in Pause or Run that is not
on the keyword detector pin, `GetReadPacket` returns `STATUS_DEVICE_NOT_READY` exactly when
the low 32 bits of `packetCounter - 1` equal the last packet number read by the OS; such a
call leaves the stream, so the last-read packet number, unchanged; a successful call returns
that packet number with `Flags = 0` and `MoreData = FALSE`, records it as last read, and a
second call right after it returns `STATUS_DEVICE_NOT_READY`; when the two numbers differ and
the movement rate is not zero the call does return success; and with `packetCounter = 0` and
the last-read number `ULONG_MAX` (as after Init or Stop) the call returns
`STATUS_DEVICE_NOT_READY`. -/
theorem GetReadPacket_deviceNotReady (s : CMiniportWaveRTStream)
    (kws : NTSTATUS × Nat × Nat × Bool)
    (hN : 0 < s.m_ulNotificationsPerBuffer)
    (hS : s.m_KsState = KSSTATE_PAUSE ∨ s.m_KsState = KSSTATE_RUN)
    (hK : s.isKeywordDetectorPin = false) :
    ((∃ s1 out, GetReadPacket s kws = some (STATUS_DEVICE_NOT_READY, s1, out)) ↔
        LODWORD (s.m_llPacketCounter - 1) = s.m_ulLastOsReadPacket) ∧
      (∀ s1 out, GetReadPacket s kws = some (STATUS_DEVICE_NOT_READY, s1, out) →
        s1 = s ∧ s1.m_ulLastOsReadPacket = s.m_ulLastOsReadPacket) ∧
      (∀ s1 out, GetReadPacket s kws = some (STATUS_SUCCESS, s1, out) →
        out.PacketNumber = some (LODWORD (s.m_llPacketCounter - 1)) ∧ out.Flags = some 0 ∧
          out.MoreData = some false ∧
          s1.m_ulLastOsReadPacket = LODWORD (s.m_llPacketCounter - 1) ∧
          ∀ kws2, ∃ out2, GetReadPacket s1 kws2 = some (STATUS_DEVICE_NOT_READY, s1, out2)) ∧
      (LODWORD (s.m_llPacketCounter - 1) ≠ s.m_ulLastOsReadPacket → 0 < s.m_ulDmaMovementRate →
        ∃ s1 out, GetReadPacket s kws = some (STATUS_SUCCESS, s1, out)) ∧
      (s.m_llPacketCounter = 0 → s.m_ulLastOsReadPacket = ULONG_MAX →
        ∃ out, GetReadPacket s kws = some (STATUS_DEVICE_NOT_READY, s, out)) := by
  have hN0 : s.m_ulNotificationsPerBuffer ≠ 0 := Nat.pos_iff_ne_zero.mp hN
  have hmain := GetReadPacket_main s kws hN0 hS hK
  refine ⟨⟨?_, ?_⟩, ?_, ?_, ?_, ?_⟩
  · rintro ⟨s1, out, h⟩
    by_contra hne
    rw [hmain, if_neg hne] at h
    split_ifs at h
    simp at h
  · intro heq
    exact ⟨_, _, by rw [hmain, if_pos heq]⟩
  · intro s1 out h
    rw [hmain] at h
    split_ifs at h with h1 h2
    · simp only [Option.some.injEq, Prod.mk.injEq, true_and] at h
      exact ⟨h.1.symm, by rw [← h.1]⟩
    · simp at h
  · intro s1 out h
    rw [hmain] at h
    split_ifs at h with h1 h2
    · simp at h
    · simp only [Option.some.injEq, Prod.mk.injEq, true_and] at h
      obtain ⟨hs1, hout⟩ := h
      subst hs1 hout
      refine ⟨rfl, rfl, rfl, rfl, ?_⟩
      intro kws2
      refine ⟨ReadPacket.mk none (some 0) none none, ?_⟩
      have hsecond := GetReadPacket_main
        { s with m_ulLastOsReadPacket := LODWORD (s.m_llPacketCounter - 1) } kws2 hN0 hS hK
      rw [if_pos rfl] at hsecond
      exact hsecond
  · intro hne hR
    have hR0 : s.m_ulDmaMovementRate ≠ 0 := Nat.pos_iff_ne_zero.mp hR
    exact ⟨_, _, by rw [hmain, if_neg hne, if_neg hR0]⟩
  · intro hpc hlast
    refine ⟨ReadPacket.mk none (some 0) none none, ?_⟩
    rw [hmain, if_pos (by rw [hpc, hlast]; decide)]

/-- Witness of C8: a paused stream with one completed packet that was not read yet. -/
theorem GetReadPacket_deviceNotReady_witness :
    0 < streamOnePacket.m_ulNotificationsPerBuffer ∧
      (streamOnePacket.m_KsState = KSSTATE_PAUSE ∨ streamOnePacket.m_KsState = KSSTATE_RUN) ∧
      streamOnePacket.isKeywordDetectorPin = false ∧
      ∃ s1 out, GetReadPacket streamOnePacket (STATUS_SUCCESS, 0, 0, false)
        = some (STATUS_SUCCESS, s1, out) :=
  ⟨by decide, by decide, by decide,
    (GetReadPacket_deviceNotReady streamOnePacket (STATUS_SUCCESS, 0, 0, false) (by decide)
      (by decide) (by decide)).2.2.2.1 (by decide) (by decide)⟩

/-! ## Theorems: SetWritePacket -/

/-- The low 32 bits of an integer are below two to the 32. -/
theorem LODWORD_lt (x : Int) : LODWORD x < U32 := by
  unfold LODWORD U32; omega

/-- The expected packet number is a 32-bit value. -/
theorem expectedPacket_lt (s : CMiniportWaveRTStream) : expectedPacket s < U32 := by
  unfold expectedPacket
  split_ifs
  · exact Nat.mod_lt _ (by decide)
  · exact LODWORD_lt _

/-- A negative signed difference to the expected packet number gives
`STATUS_DATA_LATE_ERROR` and leaves the stream as it is. -/
theorem SetWritePacket_late (fits : Nat → Nat → Bool) (s : CMiniportWaveRTStream)
    (P F E : Nat) (hN : s.m_ulNotificationsPerBuffer ≠ 0) (hE : s.m_bEoSReceived = false)
    (hd : toLONG (sub32 P (expectedPacket s)) < 0) :
    SetWritePacket fits s P F E = (STATUS_DATA_LATE_ERROR, s) := by
  unfold SetWritePacket
  simp only [if_neg hN, hE, Bool.false_eq_true, if_false, if_pos hd]

/-- A positive signed difference to the expected packet number gives
`STATUS_DATA_OVERRUN` and leaves the stream as it is. -/
theorem SetWritePacket_overrun (fits : Nat → Nat → Bool) (s : CMiniportWaveRTStream)
    (P F E : Nat) (hN : s.m_ulNotificationsPerBuffer ≠ 0) (hE : s.m_bEoSReceived = false)
    (hd : 0 < toLONG (sub32 P (expectedPacket s))) :
    SetWritePacket fits s P F E = (STATUS_DATA_OVERRUN, s) := by
  have hd1 : ¬ toLONG (sub32 P (expectedPacket s)) < 0 := by omega
  unfold SetWritePacket
  simp only [if_neg hN, hE, Bool.false_eq_true, if_false, if_neg hd1, gt_iff_lt, if_pos hd]

/-- The result of `SetWritePacket` once the sequencing check has passed. -/
theorem SetWritePacket_expected (fits : Nat → Nat → Bool) (s : CMiniportWaveRTStream)
    (P F E : Nat) (hN : s.m_ulNotificationsPerBuffer ≠ 0) (hE : s.m_bEoSReceived = false)
    (hd : toLONG (sub32 P (expectedPacket s)) = 0) :
    SetWritePacket fits s P F E =
      if F &&& KSSTREAM_HEADER_OPTIONSF_ENDOFSTREAM ≠ 0 then
        if E > s.m_ulDmaBufferSize / s.m_ulNotificationsPerBuffer then
          (STATUS_INVALID_PARAMETER, s)
        else
          if !NT_SUCCESS (SetStreamCurrentWritePositionForLastBuffer fits
              { s with m_ulLastOsWritePacket := P }
              (((P % s.m_ulNotificationsPerBuffer
                  * (s.m_ulDmaBufferSize / s.m_ulNotificationsPerBuffer)) % U32 + E) % U32)).1
          then
            ((SetStreamCurrentWritePositionForLastBuffer fits
              { s with m_ulLastOsWritePacket := P }
              (((P % s.m_ulNotificationsPerBuffer
                  * (s.m_ulDmaBufferSize / s.m_ulNotificationsPerBuffer)) % U32 + E) % U32)).1,
             { (SetStreamCurrentWritePositionForLastBuffer fits
              { s with m_ulLastOsWritePacket := P }
              (((P % s.m_ulNotificationsPerBuffer
                  * (s.m_ulDmaBufferSize / s.m_ulNotificationsPerBuffer)) % U32 + E) % U32)).2
               with m_ulLastOsWritePacket := s.m_ulLastOsWritePacket })
          else
            SetStreamCurrentWritePositionForLastBuffer fits
              { s with m_ulLastOsWritePacket := P }
              (((P % s.m_ulNotificationsPerBuffer
                  * (s.m_ulDmaBufferSize / s.m_ulNotificationsPerBuffer)) % U32 + E) % U32)
      else
        if !NT_SUCCESS (SetCurrentWritePositionInternal fits
            { s with m_ulLastOsWritePacket := P }
            ((P % s.m_ulNotificationsPerBuffer
                * (s.m_ulDmaBufferSize / s.m_ulNotificationsPerBuffer)) % U32)).1
        then
          ((SetCurrentWritePositionInternal fits
            { s with m_ulLastOsWritePacket := P }
            ((P % s.m_ulNotificationsPerBuffer
                * (s.m_ulDmaBufferSize / s.m_ulNotificationsPerBuffer)) % U32)).1,
           { (SetCurrentWritePositionInternal fits
            { s with m_ulLastOsWritePacket := P }
            ((P % s.m_ulNotificationsPerBuffer
                * (s.m_ulDmaBufferSize / s.m_ulNotificationsPerBuffer)) % U32)).2
             with m_ulLastOsWritePacket := s.m_ulLastOsWritePacket })
        else
          SetCurrentWritePositionInternal fits
            { s with m_ulLastOsWritePacket := P }
            ((P % s.m_ulNotificationsPerBuffer
                * (s.m_ulDmaBufferSize / s.m_ulNotificationsPerBuffer)) % U32) := by
  have hd1 : ¬ toLONG (sub32 P (expectedPacket s)) < 0 := by omega
  have hd2 : ¬ toLONG (sub32 P (expectedPacket s)) > 0 := by omega
  unfold SetWritePacket
  simp only [if_neg hN, hE, Bool.false_eq_true, if_false, if_neg hd1, if_neg hd2]

/-- Restoring `m_ulLastOsWritePacket` after setting it gives back the stream. -/
theorem restore_lastOsWritePacket (s : CMiniportWaveRTStream) (P : Nat) :
    { ({ s with m_ulLastOsWritePacket := P } : CMiniportWaveRTStream) with
      m_ulLastOsWritePacket := s.m_ulLastOsWritePacket } = s := by
  cases s; rfl

/-- The signed 32-bit difference is negative when `P` is behind `X` by at most two to the 31
or ahead of it by two to the 31 or more. -/
theorem toLONG_sub32_neg (P X : Nat) (hP : P < U32) (hX : X < U32)
    (h : (P < X ∧ X - P ≤ 2147483648) ∨ (X < P ∧ 2147483648 ≤ P - X)) :
    toLONG (sub32 P X) < 0 := by
  unfold toLONG sub32
  unfold U32 at *
  split_ifs <;> omega

/-- The signed 32-bit difference is positive when `P` is ahead of `X` by less than two to the
31 or behind it by more than two to the 31. -/
theorem toLONG_sub32_pos (P X : Nat) (hP : P < U32) (hX : X < U32)
    (h : (X < P ∧ P - X < 2147483648) ∨ (P < X ∧ 2147483648 < X - P)) :
    0 < toLONG (sub32 P X) := by
  unfold toLONG sub32
  unfold U32 at *
  split_ifs <;> omega

/-- The signed 32-bit difference of a number with itself is zero. -/
theorem toLONG_sub32_self (P : Nat) : toLONG (sub32 P P) = 0 := by
  unfold toLONG sub32
  unfold U32 at *
  split_ifs <;> omega

/-- The commit of a write position, as one conditional. -/
theorem SetCurrentWritePositionInternal_eq (fits : Nat → Nat → Bool)
    (s : CMiniportWaveRTStream) (pos : Nat) :
    SetCurrentWritePositionInternal fits s pos =
      if fits pos s.m_ulDmaBufferSize then
        (STATUS_SUCCESS, { s with m_ulCurrentWritePosition := pos })
      else (STATUS_INVALID_PARAMETER, s) := rfl

/-- The commit of the end-of-stream position, as one conditional. -/
theorem SetStreamCurrentWritePositionForLastBuffer_eq (fits : Nat → Nat → Bool)
    (s : CMiniportWaveRTStream) (pos : Nat) :
    SetStreamCurrentWritePositionForLastBuffer fits s pos =
      if fits pos s.m_ulDmaBufferSize then
        (STATUS_SUCCESS, { s with m_ulCurrentWritePosition := pos, m_bEoSReceived := true })
      else (STATUS_INVALID_PARAMETER, s) := by
  unfold SetStreamCurrentWritePositionForLastBuffer SetCurrentWritePositionInternal
  cases h : fits pos s.m_ulDmaBufferSize <;> simp [NT_SUCCESS]

/-- The result of `SetWritePacket` once the sequencing check has passed. -/
theorem SetWritePacket_committed (fits : Nat → Nat → Bool) (s : CMiniportWaveRTStream)
    (P F E : Nat) (hN : s.m_ulNotificationsPerBuffer ≠ 0) (hE : s.m_bEoSReceived = false)
    (hd : toLONG (sub32 P (expectedPacket s)) = 0) :
    SetWritePacket fits s P F E =
      if F &&& KSSTREAM_HEADER_OPTIONSF_ENDOFSTREAM ≠ 0 then
        if E > s.m_ulDmaBufferSize / s.m_ulNotificationsPerBuffer then
          (STATUS_INVALID_PARAMETER, s)
        else if fits (((P % s.m_ulNotificationsPerBuffer
              * (s.m_ulDmaBufferSize / s.m_ulNotificationsPerBuffer)) % U32 + E) % U32)
            s.m_ulDmaBufferSize
        then
          (STATUS_SUCCESS,
            { s with
              m_ulLastOsWritePacket := P
              m_ulCurrentWritePosition :=
                ((P % s.m_ulNotificationsPerBuffer
                  * (s.m_ulDmaBufferSize / s.m_ulNotificationsPerBuffer)) % U32 + E) % U32
              m_bEoSReceived := true })
        else (STATUS_INVALID_PARAMETER, s)
      else if fits ((P % s.m_ulNotificationsPerBuffer
            * (s.m_ulDmaBufferSize / s.m_ulNotificationsPerBuffer)) % U32) s.m_ulDmaBufferSize
      then
        (STATUS_SUCCESS,
          { s with
            m_ulLastOsWritePacket := P
            m_ulCurrentWritePosition :=
              (P % s.m_ulNotificationsPerBuffer
                * (s.m_ulDmaBufferSize / s.m_ulNotificationsPerBuffer)) % U32 })
      else (STATUS_INVALID_PARAMETER, s) := by
  rw [SetWritePacket_expected fits s P F E hN hE hd,
    SetStreamCurrentWritePositionForLastBuffer_eq, SetCurrentWritePositionInternal_eq]
  have hB : ∀ P : Nat, ({ s with m_ulLastOsWritePacket := P } : CMiniportWaveRTStream).m_ulDmaBufferSize
      = s.m_ulDmaBufferSize := fun _ => rfl
  simp only [hB]
  cases h1 : fits (((P % s.m_ulNotificationsPerBuffer
              * (s.m_ulDmaBufferSize / s.m_ulNotificationsPerBuffer)) % U32 + E) % U32)
            s.m_ulDmaBufferSize <;>
  cases h2 : fits ((P % s.m_ulNotificationsPerBuffer
            * (s.m_ulDmaBufferSize / s.m_ulNotificationsPerBuffer)) % U32) s.m_ulDmaBufferSize <;>
  simp only [NT_SUCCESS, Bool.not_true, Bool.not_false, if_true, if_false, Bool.false_eq_true,
    restore_lastOsWritePacket]

/-- C4, as stated, fails: on a paused event-driven stream with packet counter 0 (expected
packet 0, no end of stream received) the packet number 2147483649 is greater than the
expected one, and `SetWritePacket` returns `STATUS_DATA_LATE_ERROR`, not
`STATUS_DATA_OVERRUN`: the difference is taken modulo two to the 32 and read as signed. -/
theorem SetWritePacket_far_ahead_is_late :
    0 < streamPaused.m_ulNotificationsPerBuffer ∧ streamPaused.m_bEoSReceived = false ∧
      expectedPacket streamPaused = 0 ∧ expectedPacket streamPaused < 2147483649 ∧
      SetWritePacket fitsBuffer streamPaused 2147483649 0 0
        = (STATUS_DATA_LATE_ERROR, streamPaused) := by
  refine ⟨by decide, by decide, by decide, by decide, by decide⟩

/-- C4 (amended): for every event-driven stream (`notificationsPerBuffer > 0`) on which end of
stream has not been received, with `expected` the low 32 bits of the packet counter, plus 1
(modulo two to the 32) when the stream is in Run, and every 32-bit packet number:
`SetWritePacket` returns `STATUS_DATA_LATE_ERROR` when the packet number is behind `expected`
by at most two to the 31, or ahead of it by two to the 31 or more; it returns
`STATUS_DATA_OVERRUN` when the packet number is ahead of `expected` by less than two to the 31,
or behind it by more than two to the 31; and for the packet number equal to `expected`
without the end-of-stream flag it passes the sequencing check and its status is the status of
committing the write position, success with the packet number recorded whenever the commit
accepts the position. -/
theorem SetWritePacket_sequencing (fits : Nat → Nat → Bool) (s : CMiniportWaveRTStream)
    (P F E : Nat) (hN : 0 < s.m_ulNotificationsPerBuffer) (hE : s.m_bEoSReceived = false)
    (hP : P < U32) :
    (P < expectedPacket s ∧ expectedPacket s - P ≤ 2147483648 →
        SetWritePacket fits s P F E = (STATUS_DATA_LATE_ERROR, s)) ∧
      (expectedPacket s < P ∧ P - expectedPacket s < 2147483648 →
        SetWritePacket fits s P F E = (STATUS_DATA_OVERRUN, s)) ∧
      (expectedPacket s < P ∧ 2147483648 ≤ P - expectedPacket s →
        SetWritePacket fits s P F E = (STATUS_DATA_LATE_ERROR, s)) ∧
      (P < expectedPacket s ∧ 2147483648 < expectedPacket s - P →
        SetWritePacket fits s P F E = (STATUS_DATA_OVERRUN, s)) ∧
      (P = expectedPacket s → F &&& KSSTREAM_HEADER_OPTIONSF_ENDOFSTREAM = 0 →
        (SetWritePacket fits s P F E).1 =
            (SetCurrentWritePositionInternal fits { s with m_ulLastOsWritePacket := P }
              ((P % s.m_ulNotificationsPerBuffer
                * (s.m_ulDmaBufferSize / s.m_ulNotificationsPerBuffer)) % U32)).1 ∧
          (fits ((P % s.m_ulNotificationsPerBuffer
                * (s.m_ulDmaBufferSize / s.m_ulNotificationsPerBuffer)) % U32)
              s.m_ulDmaBufferSize = true →
            SetWritePacket fits s P F E =
              (STATUS_SUCCESS,
                { s with
                  m_ulLastOsWritePacket := P
                  m_ulCurrentWritePosition :=
                    (P % s.m_ulNotificationsPerBuffer
                      * (s.m_ulDmaBufferSize / s.m_ulNotificationsPerBuffer)) % U32 }))) := by
  have hN0 : s.m_ulNotificationsPerBuffer ≠ 0 := Nat.pos_iff_ne_zero.mp hN
  have hX := expectedPacket_lt s
  refine ⟨?_, ?_, ?_, ?_, ?_⟩
  · intro h
    exact SetWritePacket_late fits s P F E hN0 hE (toLONG_sub32_neg P _ hP hX (Or.inl h))
  · intro h
    exact SetWritePacket_overrun fits s P F E hN0 hE (toLONG_sub32_pos P _ hP hX (Or.inl h))
  · intro h
    exact SetWritePacket_late fits s P F E hN0 hE (toLONG_sub32_neg P _ hP hX (Or.inr h))
  · intro h
    exact SetWritePacket_overrun fits s P F E hN0 hE (toLONG_sub32_pos P _ hP hX (Or.inr h))
  · intro hPX hF
    have hd : toLONG (sub32 P (expectedPacket s)) = 0 := by
      rw [← hPX]; exact toLONG_sub32_self P
    have hF1 : ¬ (F &&& KSSTREAM_HEADER_OPTIONSF_ENDOFSTREAM ≠ 0) := by
      rw [hF]; exact fun h => h rfl
    rw [SetWritePacket_committed fits s P F E hN0 hE hd, if_neg hF1,
      SetCurrentWritePositionInternal_eq]
    constructor
    · show _ = (if fits _ s.m_ulDmaBufferSize = true then _ else _ :
        NTSTATUS × CMiniportWaveRTStream).1
      split_ifs <;> rfl
    · intro hfit
      rw [if_pos hfit]

/-- Witness of C4 (amended): a running stream with packet counter 4 expects packet 5. -/
theorem SetWritePacket_sequencing_witness :
    SetWritePacket fitsBuffer streamRun4 3 0 0 = (STATUS_DATA_LATE_ERROR, streamRun4) ∧
      SetWritePacket fitsBuffer streamRun4 9 0 0 = (STATUS_DATA_OVERRUN, streamRun4) ∧
      (SetWritePacket fitsBuffer streamRun4 5 0 0).1 = STATUS_SUCCESS :=
  ⟨(SetWritePacket_sequencing fitsBuffer streamRun4 3 0 0 (by decide) (by decide)
      (by decide)).1 (by decide),
    (SetWritePacket_sequencing fitsBuffer streamRun4 9 0 0 (by decide) (by decide)
      (by decide)).2.1 (by decide),
    by
      rw [((SetWritePacket_sequencing fitsBuffer streamRun4 5 0 0 (by decide) (by decide)
        (by decide)).2.2.2.2 (by decide) (by decide)).2 (by decide)]⟩

/-- C9: `SetWritePacket` is atomic on failure. Once the sequencing check has passed, with the
end-of-stream flag it rejects every `eosLength > packetSize` with
`STATUS_INVALID_PARAMETER`, leaving the stream unchanged, and for every
`eosLength <= packetSize` its status is that of committing the end-of-stream position, with
the packet number, the write position and the end-of-stream marker all set when the commit
accepts the position; and on every failing return the stream is unchanged: in particular
`m_ulLastOsWritePacket` has its value from before the call and the end-of-stream marker is
not set by the call. -/
theorem SetWritePacket_atomic (fits : Nat → Nat → Bool) (s : CMiniportWaveRTStream)
    (P F E : Nat) :
    (0 < s.m_ulNotificationsPerBuffer → s.m_bEoSReceived = false →
        toLONG (sub32 P (expectedPacket s)) = 0 →
        F &&& KSSTREAM_HEADER_OPTIONSF_ENDOFSTREAM ≠ 0 →
        (E > s.m_ulDmaBufferSize / s.m_ulNotificationsPerBuffer →
          SetWritePacket fits s P F E = (STATUS_INVALID_PARAMETER, s)) ∧
        (E ≤ s.m_ulDmaBufferSize / s.m_ulNotificationsPerBuffer →
          (SetWritePacket fits s P F E).1 =
              (SetStreamCurrentWritePositionForLastBuffer fits
                { s with m_ulLastOsWritePacket := P }
                (((P % s.m_ulNotificationsPerBuffer
                  * (s.m_ulDmaBufferSize / s.m_ulNotificationsPerBuffer)) % U32 + E) % U32)).1 ∧
            (fits (((P % s.m_ulNotificationsPerBuffer
                  * (s.m_ulDmaBufferSize / s.m_ulNotificationsPerBuffer)) % U32 + E) % U32)
                s.m_ulDmaBufferSize = true →
              SetWritePacket fits s P F E =
                (STATUS_SUCCESS,
                  { s with
                    m_ulLastOsWritePacket := P
                    m_ulCurrentWritePosition :=
                      ((P % s.m_ulNotificationsPerBuffer
                        * (s.m_ulDmaBufferSize / s.m_ulNotificationsPerBuffer)) % U32 + E) % U32
                    m_bEoSReceived := true })))) ∧
      (NT_SUCCESS (SetWritePacket fits s P F E).1 = false →
        (SetWritePacket fits s P F E).2.m_ulLastOsWritePacket = s.m_ulLastOsWritePacket ∧
          (SetWritePacket fits s P F E).2.m_bEoSReceived = s.m_bEoSReceived ∧
          (SetWritePacket fits s P F E).2 = s) := by
  constructor
  · intro hN hE hd hF
    have hN0 : s.m_ulNotificationsPerBuffer ≠ 0 := Nat.pos_iff_ne_zero.mp hN
    rw [SetWritePacket_committed fits s P F E hN0 hE hd, if_pos hF]
    constructor
    · intro hbig
      rw [if_pos hbig]
    · intro hsmall
      have hsmall1 : ¬ E > s.m_ulDmaBufferSize / s.m_ulNotificationsPerBuffer := by omega
      rw [if_neg hsmall1, SetStreamCurrentWritePositionForLastBuffer_eq]
      constructor
      · show _ = (if fits _ s.m_ulDmaBufferSize = true then _ else _ :
          NTSTATUS × CMiniportWaveRTStream).1
        split_ifs <;> rfl
      · intro hfit
        rw [if_pos hfit]
  · intro hfail
    have key : (SetWritePacket fits s P F E).2 = s := by
      by_cases hN : s.m_ulNotificationsPerBuffer = 0
      · unfold SetWritePacket; rw [if_pos hN]
      · cases hE : s.m_bEoSReceived
        · rcases lt_trichotomy (toLONG (sub32 P (expectedPacket s))) 0 with hd | hd | hd
          · rw [SetWritePacket_late fits s P F E hN hE hd]
          · rw [SetWritePacket_committed fits s P F E hN hE hd] at hfail ⊢
            split_ifs at hfail ⊢ <;> first | rfl | (simp [NT_SUCCESS] at hfail)
          · rw [SetWritePacket_overrun fits s P F E hN hE hd]
        · unfold SetWritePacket
          simp only [if_neg hN, hE, if_true]
    rw [key]
    exact ⟨rfl, rfl, rfl⟩

/-- Witness of C9: on a running stream that expects packet 5, an end-of-stream packet of 2000
bytes (packet size 1024) is rejected and leaves the stream unchanged. -/
theorem SetWritePacket_atomic_witness :
    SetWritePacket fitsBuffer streamRun4 5 KSSTREAM_HEADER_OPTIONSF_ENDOFSTREAM 2000
        = (STATUS_INVALID_PARAMETER, streamRun4) ∧
      (SetWritePacket fitsBuffer streamRun4 5 KSSTREAM_HEADER_OPTIONSF_ENDOFSTREAM 2000).2
        = streamRun4 :=
  ⟨((SetWritePacket_atomic fitsBuffer streamRun4 5 KSSTREAM_HEADER_OPTIONSF_ENDOFSTREAM 2000).1
      (by decide) (by decide) (by decide) (by decide)).1 (by decide),
    ((SetWritePacket_atomic fitsBuffer streamRun4 5 KSSTREAM_HEADER_OPTIONSF_ENDOFSTREAM 2000).2
      (by decide)).2.2⟩

/-! ## Theorems: notifications after Stop, buffer allocation -/

/-- C5 fails on the code: in the execution `staleCarryCalls` the stream runs from 100 ms,
is paused at 104.9 ms (the 4.9 ms since the Run are saved in `m_hnsDPCTimeCarryForward`) and
stopped; Stop leaves that carry at 49000. After the next Run, at 200 ms, the timer callback at
201 ms signals the registered event 7: only 1 ms after the Run, with a notification interval of
5 ms, the packet counter reaching 1 with 192 bytes of the 1024-byte packet transferred. No
earlier call of the execution signals an event. -/
theorem notification_one_ms_after_run :
    (run (Init false 192000 4 false 32) staleCarryCalls).map
        (fun r => (r.2, r.1.m_ulNotificationIntervalMs, r.1.m_llPacketCounter,
          r.1.m_ullLinearPosition,
          r.1.m_ulDmaBufferSize / r.1.m_ulNotificationsPerBuffer))
      = some ([[], [], [], [], [], [], [], [], [], [], [], [], [], [], [7]], 5, 1, 192, 1024) ∧
    (run (Init false 192000 4 false 32) (staleCarryCalls.take 11)).map
        (fun r => (r.1.m_KsState, r.1.m_hnsDPCTimeCarryForward)) = some (KSSTATE_STOP, 49000) ∧
    2010000 - 2000000 < 5 * 10000 := by
  refine ⟨by decide, by decide, by decide⟩

/-- On success the negotiated buffer size is a multiple of the block alignment, it is the
size returned, and the requested size was a multiple of the notification count. -/
theorem AllocateBufferWithNotification_blockAligned (s : CMiniportWaveRTStream)
    (n size : Nat) (g : Bool) (st : NTSTATUS) (pages : Bool)
    (s1 : CMiniportWaveRTStream) (actual : Option Nat)
    (h : AllocateBufferWithNotification s n size g st pages = some (STATUS_SUCCESS, s1, actual)) :
    s1.m_ulDmaBufferSize % s1.nBlockAlign = 0 ∧ actual = some s1.m_ulDmaBufferSize ∧
      s1.m_ulNotificationsPerBuffer = n ∧ size % n = 0 := by
  unfold AllocateBufferWithNotification at h
  split_ifs at h with h1 h2 h3 h4 h5 h6
  · simp at h
  · simp at h
  · simp only [Option.some.injEq, Prod.mk.injEq] at h
    obtain ⟨hst, _⟩ := h
    subst hst
    simp [NT_SUCCESS] at h4
  · simp at h
  · simp only [Option.some.injEq, Prod.mk.injEq, true_and] at h
    obtain ⟨hs, ha⟩ := h
    subst hs
    refine ⟨?_, ha.symm, rfl, ?_⟩
    · exact Nat.sub_mod_eq_zero_of_mod_eq (by rw [Nat.mod_mod])
    · by_contra hne
      exact h2 (Or.inr hne)

/-- C10 fails on the code: with block alignment 4, `AllocateBufferWithNotification` for 3
notifications and 4098 bytes passes the check `4098 % 3 = 0`, then rounds the size down to
the block alignment and succeeds with a buffer of 4096 bytes, which is a multiple of the
block alignment 4 but not of the notification count 3. -/
theorem AllocateBufferWithNotification_size_not_multiple :
    (AllocateBufferWithNotification (Init false 192000 4 false 32) 3 4098 true STATUS_SUCCESS
        true).map (fun r => (r.1, r.2.1.m_ulDmaBufferSize, r.2.1.m_ulNotificationsPerBuffer, r.2.2))
      = some (STATUS_SUCCESS, 4096, 3, some 4096) ∧
    4098 % 3 = 0 ∧ 4096 % 3 = 1 ∧ 4096 % 4 = 0 := by
  refine ⟨by decide, by decide, by decide, by decide⟩

/-! ## Theorems: stop, notification events, the timer callback and packet timestamps -/

/-- The position update leaves the notification list as it is. -/
theorem positionsAfter_list (s : CMiniportWaveRTStream) (t : Nat) :
    (positionsAfter s t).m_NotificationList = s.m_NotificationList := rfl

/-- `UpdatePosition` leaves the notification list as it is. -/
theorem UpdatePosition_list (s s1 : CMiniportWaveRTStream) (t : Nat)
    (h : UpdatePosition s t = some s1) : s1.m_NotificationList = s.m_NotificationList := by
  unfold UpdatePosition at h
  split_ifs at h
  simp only [Option.some.injEq] at h
  rw [← h]; rfl

/-- The buffer allocation leaves the notification list as it is. -/
theorem AllocateBufferWithNotification_list (s : CMiniportWaveRTStream) (n size : Nat)
    (g : Bool) (st : NTSTATUS) (pages : Bool)
    (r : NTSTATUS × CMiniportWaveRTStream × Option Nat)
    (h : AllocateBufferWithNotification s n size g st pages = some r) :
    r.2.1.m_NotificationList = s.m_NotificationList := by
  unfold AllocateBufferWithNotification at h
  split_ifs at h <;> simp only [Option.some.injEq] at h <;> rw [← h]

/-- `SetState` leaves the notification list as it is. -/
theorem SetState_list (s : CMiniportWaveRTStream) (st : KSSTATE) (now freq : Nat)
    (r : NTSTATUS × CMiniportWaveRTStream) (h : SetState s st now freq = some r) :
    r.2.m_NotificationList = s.m_NotificationList := by
  cases st
  · simp only [SetState, Option.some.injEq] at h; rw [← h]
  · simp only [SetState, Option.some.injEq] at h; rw [← h]
  · simp only [SetState, GetPositions] at h
    split at h
    · exact absurd h (by simp)
    · rename_i s2 h2
      simp only [Option.some.injEq] at h
      rw [← h]
      show s2.m_NotificationList = _
      split_ifs at h2
      all_goals first
        | (rw [UpdatePosition_list _ _ _ h2])
        | (simp only [Option.some.injEq] at h2; rw [← h2])
  · simp only [SetState, Option.some.injEq] at h; rw [← h]

/-- `GetPosition` leaves the notification list as it is. -/
theorem GetPosition_list (s : CMiniportWaveRTStream) (now : Nat)
    (r : NTSTATUS × CMiniportWaveRTStream × Option KSAUDIO_POSITION)
    (h : GetPosition s now = some r) :
    r.2.1.m_NotificationList = s.m_NotificationList := by
  unfold GetPosition at h
  split_ifs at h with h1 h2
  · simp only [Option.some.injEq] at h; rw [← h]
  · cases hU : UpdatePosition s now with
    | none => rw [hU] at h; simp at h
    | some s1 =>
      rw [hU] at h
      simp only [Option.some.injEq] at h
      rw [← h]
      exact UpdatePosition_list _ _ _ hU
  · simp only [Option.some.injEq] at h; rw [← h]

/-- The timer callback when the notification interval has not elapsed. -/
theorem TimerNotifyRT_not_reached (s : CMiniportWaveRTStream) (now : Nat)
    (h : ¬ s.m_ulNotificationIntervalMs ≤ timerElapsedInMS s now) :
    TimerNotifyRT s now =
      if s.m_bEoSReceived then (UpdatePosition s now).bind (fun s2 => completeTick s2 false)
      else some (s, []) := by
  have hb : decide (timerElapsedInMS s now ≥ s.m_ulNotificationIntervalMs) = false :=
    decide_eq_false h
  unfold TimerNotifyRT
  simp only [hb, Bool.false_eq_true, if_false, Bool.not_false, Bool.true_and]
  cases hE : s.m_bEoSReceived <;> simp

/-- The timer callback when the notification interval has elapsed. -/
theorem TimerNotifyRT_reached (s : CMiniportWaveRTStream) (now : Nat)
    (h : s.m_ulNotificationIntervalMs ≤ timerElapsedInMS s now) :
    TimerNotifyRT s now =
      (UpdatePosition (recordBufferCompleted s now) now).bind
        (fun s2 => completeTick s2 true) := by
  have hb : decide (timerElapsedInMS s now ≥ s.m_ulNotificationIntervalMs) = true :=
    decide_eq_true h
  unfold TimerNotifyRT
  simp only [hb, if_true, Bool.not_true, Bool.false_and, Bool.false_eq_true, if_false]

/-- The timer callback leaves the notification list as it is and signals nothing or the whole
list. -/
theorem TimerNotifyRT_list (s : CMiniportWaveRTStream) (now : Nat)
    (r : CMiniportWaveRTStream × List PKEVENT) (h : TimerNotifyRT s now = some r) :
    r.1.m_NotificationList = s.m_NotificationList ∧
      (r.2 = [] ∨ r.2 = s.m_NotificationList) := by
  have key : ∀ (s0 s2 : CMiniportWaveRTStream) (b : Bool),
      s0.m_NotificationList = s.m_NotificationList → UpdatePosition s0 now = some s2 →
      completeTick s2 b = some r →
      r.1.m_NotificationList = s.m_NotificationList ∧
        (r.2 = [] ∨ r.2 = s.m_NotificationList) := by
    intro s0 s2 b h0 hU hr
    have hl : s2.m_NotificationList = s.m_NotificationList :=
      (UpdatePosition_list s0 s2 now hU).trans h0
    obtain ⟨_, _, _, _, _, _, _, _, h9, _, _, h12⟩ := completeTick_props s2 b r hr
    rw [h9, h12, hl]
    refine ⟨rfl, ?_⟩
    split_ifs
    · exact Or.inr rfl
    · exact Or.inl rfl
  by_cases hT : s.m_ulNotificationIntervalMs ≤ timerElapsedInMS s now
  · rw [TimerNotifyRT_reached s now hT] at h
    obtain ⟨s2, hU, hr⟩ := Option.bind_eq_some.mp h
    exact key (recordBufferCompleted s now) s2 true rfl hU hr
  · rw [TimerNotifyRT_not_reached s now hT] at h
    split_ifs at h
    · obtain ⟨s2, hU, hr⟩ := Option.bind_eq_some.mp h
      exact key s s2 false rfl hU hr
    · simp only [Option.some.injEq] at h
      rw [← h]; exact ⟨rfl, Or.inl rfl⟩

/-- Membership test of the notification list. -/
theorem contains_iff (l : List PKEVENT) (ev : PKEVENT) : l.contains ev = true ↔ ev ∈ l := by
  simp

/-- The three outcomes of `RegisterNotificationEvent`. -/
theorem RegisterNotificationEvent_eq (s : CMiniportWaveRTStream) (ev : PKEVENT) :
    (ev ∈ s.m_NotificationList →
        RegisterNotificationEvent s ev true = (STATUS_UNSUCCESSFUL, s)) ∧
      (ev ∉ s.m_NotificationList →
        RegisterNotificationEvent s ev true =
          (STATUS_SUCCESS, { s with m_NotificationList := s.m_NotificationList ++ [ev] })) ∧
      RegisterNotificationEvent s ev false = (STATUS_INSUFFICIENT_RESOURCES, s) := by
  refine ⟨?_, ?_, ?_⟩
  · intro h
    have hc : s.m_NotificationList.contains ev = true := (contains_iff _ _).mpr h
    unfold RegisterNotificationEvent
    simp only [Bool.not_true, Bool.false_eq_true, if_false, hc, if_true]
  · intro h
    have hc : ¬ s.m_NotificationList.contains ev = true := fun hc => h ((contains_iff _ _).mp hc)
    unfold RegisterNotificationEvent
    simp only [Bool.not_true, Bool.false_eq_true, if_false, if_neg hc]
  · unfold RegisterNotificationEvent
    simp only [Bool.not_false, if_true]

/-- The two outcomes of `UnregisterNotificationEvent`. -/
theorem UnregisterNotificationEvent_eq (s : CMiniportWaveRTStream) (ev : PKEVENT) :
    (ev ∈ s.m_NotificationList →
        UnregisterNotificationEvent s ev =
          (STATUS_SUCCESS, { s with m_NotificationList := s.m_NotificationList.erase ev })) ∧
      (ev ∉ s.m_NotificationList →
        UnregisterNotificationEvent s ev = (STATUS_NOT_FOUND, s)) := by
  refine ⟨?_, ?_⟩
  · intro h
    have hc : s.m_NotificationList.contains ev = true := (contains_iff _ _).mpr h
    unfold UnregisterNotificationEvent
    simp only [hc, if_true]
  · intro h
    have hc : ¬ s.m_NotificationList.contains ev = true := fun hc => h ((contains_iff _ _).mp hc)
    unfold UnregisterNotificationEvent
    simp only [if_neg hc]

/-- A registration call keeps the notification list free of duplicates. -/
theorem notificationStep_nodup (s : CMiniportWaveRTStream) (c : NotificationCall)
    (h : s.m_NotificationList.Nodup) : (notificationStep s c).2.m_NotificationList.Nodup := by
  cases c with
  | register ev allocated =>
    show (RegisterNotificationEvent s ev allocated).2.m_NotificationList.Nodup
    cases allocated
    · rw [(RegisterNotificationEvent_eq s ev).2.2]; exact h
    · by_cases hm : ev ∈ s.m_NotificationList
      · rw [(RegisterNotificationEvent_eq s ev).1 hm]; exact h
      · rw [(RegisterNotificationEvent_eq s ev).2.1 hm]
        show (s.m_NotificationList ++ [ev]).Nodup
        rw [List.nodup_append]
        refine ⟨h, List.nodup_singleton ev, ?_⟩
        intro a ha hb
        rw [List.mem_singleton] at hb
        exact hm (hb ▸ ha)
  | unregister ev =>
    show (UnregisterNotificationEvent s ev).2.m_NotificationList.Nodup
    by_cases hm : ev ∈ s.m_NotificationList
    · rw [(UnregisterNotificationEvent_eq s ev).1 hm]
      exact h.erase ev
    · rw [(UnregisterNotificationEvent_eq s ev).2 hm]; exact h

/-- A sequence of registration calls keeps the notification list free of duplicates. -/
theorem notificationRun_nodup (cs : List NotificationCall) :
    ∀ s : CMiniportWaveRTStream, s.m_NotificationList.Nodup →
      (notificationRun s cs).m_NotificationList.Nodup := by
  induction cs with
  | nil => intro s h; exact h
  | cons c cs ih =>
    intro s h
    exact ih _ (notificationStep_nodup s c h)

/-- C11, as stated, fails: on a stream on the keyword detector pin, `GetPosition` after
`SetState (Stop)` returns `STATUS_NOT_SUPPORTED` and reports no position. -/
theorem GetPosition_after_stop_keyword_pin :
    ((SetState streamKeyword KSSTATE_STOP 0 10000000).bind
        (fun r => GetPosition r.2 0)).map (fun r => (r.1, r.2.2))
      = some (STATUS_NOT_SUPPORTED, none) := by
  decide

/-- C11 (amended): from every stream state, `SetState (Stop)` returns success and sets the
packet counter, the play, write, linear and presentation positions and the current (end of
stream) write position to 0, clears the end-of-stream and last-buffer-rendered flags and sets
the last OS read and write packet numbers to `ULONG_MAX`; on a stream that is not on the
keyword detector pin, `GetPosition` called afterwards returns success with `(0, 0)` and
changes nothing, while on the keyword detector pin it returns `STATUS_NOT_SUPPORTED` and
changes nothing; and a second `SetState (Stop)` leaves the state unchanged. -/
theorem SetState_stop_resets (s : CMiniportWaveRTStream) (now freq tPos now2 freq2 : Nat) :
    ∃ s1, SetState s KSSTATE_STOP now freq = some (STATUS_SUCCESS, s1) ∧
      s1.m_llPacketCounter = 0 ∧ s1.m_ullPlayPosition = 0 ∧ s1.m_ullWritePosition = 0 ∧
      s1.m_ullLinearPosition = 0 ∧ s1.m_ullPresentationPosition = 0 ∧
      s1.m_ulCurrentWritePosition = 0 ∧ s1.m_bEoSReceived = false ∧
      s1.m_bLastBufferRendered = false ∧ s1.m_ulLastOsReadPacket = ULONG_MAX ∧
      s1.m_ulLastOsWritePacket = ULONG_MAX ∧ s1.m_KsState = KSSTATE_STOP ∧
      (s.isKeywordDetectorPin = false →
        GetPosition s1 tPos
          = some (STATUS_SUCCESS, s1, some { PlayOffset := 0, WriteOffset := 0 })) ∧
      (s.isKeywordDetectorPin = true →
        GetPosition s1 tPos = some (STATUS_NOT_SUPPORTED, s1, none)) ∧
      SetState s1 KSSTATE_STOP now2 freq2 = some (STATUS_SUCCESS, s1) := by
  refine ⟨_, rfl, rfl, rfl, rfl, rfl, rfl, rfl, rfl, rfl, rfl, rfl, rfl, ?_, ?_, rfl⟩
  · intro hK
    unfold GetPosition
    simp [hK]
  · intro hK
    unfold GetPosition
    simp [hK]

/-- Witness of C11 (amended): a running stream with four completed packets and end of stream
pending is stopped and queried. -/
theorem SetState_stop_resets_witness :
    streamEoSPending.isKeywordDetectorPin = false ∧
    ∃ s1, SetState streamEoSPending KSSTATE_STOP 420000 10000000 = some (STATUS_SUCCESS, s1) ∧
      GetPosition s1 430000
        = some (STATUS_SUCCESS, s1, some { PlayOffset := 0, WriteOffset := 0 }) := by
  obtain ⟨s1, h1, _, _, _, _, _, _, _, _, _, _, _, h2, _, _⟩ :=
    SetState_stop_resets streamEoSPending 420000 10000000 430000 0 0
  exact ⟨by decide, s1, h1, h2 (by decide)⟩

/-- C12, as stated, fails: when the allocation of the list entry fails,
`RegisterNotificationEvent` of an event that is not in the list does not succeed, and of an
event that is in the list does not return `STATUS_UNSUCCESSFUL`: both return
`STATUS_INSUFFICIENT_RESOURCES`. -/
theorem RegisterNotificationEvent_allocation_failure :
    9 ∈ streamTwoEvents.m_NotificationList ∧ 5 ∉ streamTwoEvents.m_NotificationList ∧
      RegisterNotificationEvent streamTwoEvents 5 false
        = (STATUS_INSUFFICIENT_RESOURCES, streamTwoEvents) ∧
      RegisterNotificationEvent streamTwoEvents 9 false
        = (STATUS_INSUFFICIENT_RESOURCES, streamTwoEvents) := by
  refine ⟨by decide, by decide, by decide, by decide⟩

/-- C12 (amended): the notification list never holds the same event twice, under every
sequence of `RegisterNotificationEvent` and `UnregisterNotificationEvent` calls starting from
the empty list, whether or not the list-entry allocations succeed; in every state so reached,
when the allocation of the list entry succeeds, registering an event already in the list
fails with `STATUS_UNSUCCESSFUL` and leaves the stream unchanged, and registering an event
not in the list succeeds and appends it at the tail, keeping the other entries and their
order; when the allocation fails the call returns `STATUS_INSUFFICIENT_RESOURCES` and leaves
the stream unchanged. -/
theorem RegisterNotificationEvent_no_duplicates (s0 : CMiniportWaveRTStream)
    (cs : List NotificationCall) (ev : PKEVENT) (h0 : s0.m_NotificationList = []) :
    (notificationRun s0 cs).m_NotificationList.Nodup ∧
      (ev ∈ (notificationRun s0 cs).m_NotificationList →
        RegisterNotificationEvent (notificationRun s0 cs) ev true
          = (STATUS_UNSUCCESSFUL, notificationRun s0 cs)) ∧
      (ev ∉ (notificationRun s0 cs).m_NotificationList →
        RegisterNotificationEvent (notificationRun s0 cs) ev true
          = (STATUS_SUCCESS,
              { notificationRun s0 cs with
                m_NotificationList := (notificationRun s0 cs).m_NotificationList ++ [ev] })) ∧
      RegisterNotificationEvent (notificationRun s0 cs) ev false
        = (STATUS_INSUFFICIENT_RESOURCES, notificationRun s0 cs) := by
  refine ⟨notificationRun_nodup cs s0 (by rw [h0]; exact List.nodup_nil), ?_⟩
  exact RegisterNotificationEvent_eq (notificationRun s0 cs) ev

/-- Witness of C12 (amended): register 7, register 9, register 7 again, unregister 3, then
register 9 once more. -/
theorem RegisterNotificationEvent_no_duplicates_witness :
    (Init false 192000 4 false 32).m_NotificationList = [] ∧
      (notificationRun (Init false 192000 4 false 32)
        [NotificationCall.register 7 true, NotificationCall.register 9 true,
          NotificationCall.register 7 true, NotificationCall.unregister 3]).m_NotificationList
        = [7, 9] ∧
      (RegisterNotificationEvent
        (notificationRun (Init false 192000 4 false 32)
          [NotificationCall.register 7 true, NotificationCall.register 9 true,
            NotificationCall.register 7 true, NotificationCall.unregister 3]) 9 true).1
        = STATUS_UNSUCCESSFUL := by
  refine ⟨by decide, by decide, ?_⟩
  rw [(RegisterNotificationEvent_no_duplicates (Init false 192000 4 false 32)
    [NotificationCall.register 7 true, NotificationCall.register 9 true,
      NotificationCall.register 7 true, NotificationCall.unregister 3] 9 (by decide)).2.1
    (by decide)]

/-- A call other than the registration of `ev`, made on a stream whose notification list does
not hold `ev`, neither signals `ev` nor brings it into the list. -/
theorem step_not_mem (ev : PKEVENT) (s s1 : CMiniportWaveRTStream) (c : Call)
    (l : List PKEVENT) (hc : c ≠ Call.registerNotificationEvent ev)
    (hm : ev ∉ s.m_NotificationList) (h : step s c = some (s1, l)) :
    ev ∉ s1.m_NotificationList ∧ ev ∉ l := by
  cases c with
  | allocateBufferWithNotification n size =>
    simp only [step, Option.map_eq_some'] at h
    obtain ⟨r, hr, he⟩ := h
    simp only [Prod.mk.injEq] at he
    rw [← he.1, ← he.2, AllocateBufferWithNotification_list _ _ _ _ _ _ _ hr]
    exact ⟨hm, List.not_mem_nil ev⟩
  | registerNotificationEvent e =>
    have hne : e ≠ ev := fun h1 => hc (by rw [h1])
    simp only [step, Option.some.injEq, Prod.mk.injEq] at h
    rw [← h.1, ← h.2]
    refine ⟨?_, List.not_mem_nil ev⟩
    by_cases he : e ∈ s.m_NotificationList
    · rw [(RegisterNotificationEvent_eq s e).1 he]; exact hm
    · rw [(RegisterNotificationEvent_eq s e).2.1 he]
      show ev ∉ s.m_NotificationList ++ [e]
      simp only [List.mem_append, List.mem_singleton, not_or]
      exact ⟨hm, fun h1 => hne h1.symm⟩
  | unregisterNotificationEvent e =>
    simp only [step, Option.some.injEq, Prod.mk.injEq] at h
    rw [← h.1, ← h.2]
    refine ⟨?_, List.not_mem_nil ev⟩
    by_cases he : e ∈ s.m_NotificationList
    · rw [(UnregisterNotificationEvent_eq s e).1 he]
      exact fun h1 => hm (List.mem_of_mem_erase h1)
    · rw [(UnregisterNotificationEvent_eq s e).2 he]; exact hm
  | setState st now =>
    simp only [step, Option.map_eq_some'] at h
    obtain ⟨r, hr, he⟩ := h
    simp only [Prod.mk.injEq] at he
    rw [← he.1, ← he.2, SetState_list _ _ _ _ _ hr]
    exact ⟨hm, List.not_mem_nil ev⟩
  | getPosition now =>
    simp only [step, Option.map_eq_some'] at h
    obtain ⟨r, hr, he⟩ := h
    simp only [Prod.mk.injEq] at he
    rw [← he.1, ← he.2, GetPosition_list _ _ _ hr]
    exact ⟨hm, List.not_mem_nil ev⟩
  | timerNotifyRT now =>
    simp only [step] at h
    split_ifs at h
    obtain ⟨h1, h2⟩ := TimerNotifyRT_list s now (s1, l) h
    have h1a : s1.m_NotificationList = s.m_NotificationList := h1
    have h2a : l = [] ∨ l = s.m_NotificationList := h2
    refine ⟨by rw [h1a]; exact hm, ?_⟩
    rcases h2a with h3 | h3
    · rw [h3]; exact List.not_mem_nil ev
    · rw [h3]; exact hm

/-- No call of an execution that does not register `ev`, started on a stream whose
notification list does not hold `ev`, signals `ev`. -/
theorem run_not_signalled (ev : PKEVENT) (cs : List Call) :
    ∀ (s : CMiniportWaveRTStream) (r : CMiniportWaveRTStream × List (List PKEVENT)),
      Call.registerNotificationEvent ev ∉ cs → ev ∉ s.m_NotificationList →
      run s cs = some r → ∀ l ∈ r.2, ev ∉ l := by
  induction cs with
  | nil =>
    intro s r _ _ h
    simp only [run, Option.some.injEq] at h
    rw [← h]
    intro l hl
    exact absurd hl (List.not_mem_nil l)
  | cons c cs ih =>
    intro s r hc hm h
    have hc1 : c ≠ Call.registerNotificationEvent ev :=
      fun h1 => hc (by rw [h1]; exact List.mem_cons_self _ _)
    have hc2 : Call.registerNotificationEvent ev ∉ cs :=
      fun h1 => hc (List.mem_cons_of_mem _ h1)
    simp only [run] at h
    cases hs : step s c with
    | none => rw [hs] at h; simp at h
    | some p =>
      obtain ⟨s1, l1⟩ := p
      rw [hs] at h
      simp only at h
      cases hrun : run s1 cs with
      | none => rw [hrun] at h; simp at h
      | some q =>
        obtain ⟨s2, evs⟩ := q
        rw [hrun] at h
        simp only [Option.some.injEq] at h
        obtain ⟨hm1, hl1⟩ := step_not_mem ev s s1 c l1 hc1 hm hs
        rw [← h]
        intro l hl
        rcases List.mem_cons.mp hl with h2 | h2
        · rw [h2]; exact hl1
        · exact ih s1 (s2, evs) hc2 hm1 hrun l h2

/-- C13: in every state reached from the empty list by registration calls,
`UnregisterNotificationEvent` on a registered event returns success and removes it: the event
is no longer in the notification list, the other entries keep their order, and no call of a
later execution that does not register it again (timer callbacks included) signals it; on an
event that is not registered the call returns `STATUS_NOT_FOUND` and leaves the stream
unchanged; and registering an event that is not in the list and then unregistering it
restores the stream, so the list, that held before. -/
theorem UnregisterNotificationEvent_removes (s0 : CMiniportWaveRTStream)
    (cs : List NotificationCall) (ev : PKEVENT) (h0 : s0.m_NotificationList = []) :
    (ev ∈ (notificationRun s0 cs).m_NotificationList →
        (UnregisterNotificationEvent (notificationRun s0 cs) ev).1 = STATUS_SUCCESS ∧
        (UnregisterNotificationEvent (notificationRun s0 cs) ev).2.m_NotificationList
          = (notificationRun s0 cs).m_NotificationList.erase ev ∧
        ev ∉ (UnregisterNotificationEvent (notificationRun s0 cs) ev).2.m_NotificationList ∧
        ∀ (later : List Call) (r : CMiniportWaveRTStream × List (List PKEVENT)),
          Call.registerNotificationEvent ev ∉ later →
          run (UnregisterNotificationEvent (notificationRun s0 cs) ev).2 later = some r →
          ∀ l ∈ r.2, ev ∉ l) ∧
      (ev ∉ (notificationRun s0 cs).m_NotificationList →
        UnregisterNotificationEvent (notificationRun s0 cs) ev
          = (STATUS_NOT_FOUND, notificationRun s0 cs)) ∧
      (ev ∉ (notificationRun s0 cs).m_NotificationList →
        ∀ allocated : Bool,
          (UnregisterNotificationEvent
            (RegisterNotificationEvent (notificationRun s0 cs) ev allocated).2 ev).2
            = notificationRun s0 cs) := by
  have hnd : (notificationRun s0 cs).m_NotificationList.Nodup :=
    notificationRun_nodup cs s0 (by rw [h0]; exact List.nodup_nil)
  refine ⟨?_, (UnregisterNotificationEvent_eq _ ev).2, ?_⟩
  · intro hm
    have hnm : ev ∉ (UnregisterNotificationEvent (notificationRun s0 cs)
        ev).2.m_NotificationList := by
      rw [(UnregisterNotificationEvent_eq _ ev).1 hm]
      exact hnd.not_mem_erase
    refine ⟨by rw [(UnregisterNotificationEvent_eq _ ev).1 hm],
      by rw [(UnregisterNotificationEvent_eq _ ev).1 hm], hnm, ?_⟩
    intro later r hlater hrun
    exact run_not_signalled ev later _ r hlater hnm hrun
  · intro hm allocated
    cases allocated
    · rw [(RegisterNotificationEvent_eq _ ev).2.2, (UnregisterNotificationEvent_eq _ ev).2 hm]
    · rw [(RegisterNotificationEvent_eq _ ev).2.1 hm]
      have hmem : ev ∈ ({ notificationRun s0 cs with
          m_NotificationList := (notificationRun s0 cs).m_NotificationList ++ [ev] } :
            CMiniportWaveRTStream).m_NotificationList := by
        show ev ∈ (notificationRun s0 cs).m_NotificationList ++ [ev]
        simp
      rw [(UnregisterNotificationEvent_eq _ ev).1 hmem]
      show ({ notificationRun s0 cs with
        m_NotificationList := ((notificationRun s0 cs).m_NotificationList ++ [ev]).erase ev } :
          CMiniportWaveRTStream) = notificationRun s0 cs
      rw [List.erase_append_right _ hm]
      simp

/-- C16, as stated, fails: with movement rate 192000 bytes per second and 30000 elapsed
milliseconds the 32-bit product wraps; the call computes a displacement of 1465032 bytes and
a carry of 704, and 1465032 * 1000 + 704 is not 192000 * 30000 + 0. -/
theorem ByteDisplacement_product_wraps :
    streamFresh.m_ulDmaMovementRate = 192000 ∧
      streamFresh.m_byteDisplacementCarryForward = 0 ∧
      TimeElapsedInMS streamFresh 300000000 = 30000 ∧
      ByteDisplacement streamFresh 300000000 = 1465032 ∧
      (UpdatePosition streamFresh 300000000).map (fun s => s.m_byteDisplacementCarryForward)
        = some 704 ∧
      1465032 * 1000 + 704 ≠ 192000 * 30000 + 0 := by
  refine ⟨by decide, by decide, by decide, by decide, by decide, by decide⟩

/-- C16 (amended): for every `UpdatePosition` call on a stream with a non-zero buffer size
the call returns and the new byte displacement carry is below 1000; and whenever
`R * m + c` is below two to the 32 (`R` the movement rate, `m` the elapsed milliseconds of the
call, `c` the old carry), the byte displacement `D` first computed and the new carry satisfy
`D * 1000 + newCarry = R * m + c`. -/
theorem byte_displacement_conserved (s : CMiniportWaveRTStream) (now : Nat)
    (hB : 0 < s.m_ulDmaBufferSize) (hbits : 32 ≤ s.byteCarryBits) :
    ∃ s1, UpdatePosition s now = some s1 ∧
      s1.m_byteDisplacementCarryForward < 1000 ∧
      (s.m_ulDmaMovementRate * TimeElapsedInMS s now + s.m_byteDisplacementCarryForward < U32 →
        ByteDisplacement s now * 1000 + s1.m_byteDisplacementCarryForward
          = s.m_ulDmaMovementRate * TimeElapsedInMS s now
            + s.m_byteDisplacementCarryForward) := by
  have h0 : s.m_ulDmaBufferSize ≠ 0 := Nat.pos_iff_ne_zero.mp hB
  refine ⟨positionsAfter s now, by unfold UpdatePosition; rw [if_neg h0], ?_, ?_⟩
  · show byteSum s now % 1000 < 1000
    exact Nat.mod_lt _ (by decide)
  · intro h
    show ByteDisplacement s now * 1000 + byteSum s now % 1000 = _
    have hpow : U32 ≤ 2 ^ s.byteCarryBits := by
      have : (2 : Nat) ^ 32 ≤ 2 ^ s.byteCarryBits := Nat.pow_le_pow_right (by decide) hbits
      unfold U32; omega
    have hprod : (s.m_ulDmaMovementRate * TimeElapsedInMS s now) % U32
        = s.m_ulDmaMovementRate * TimeElapsedInMS s now :=
      Nat.mod_eq_of_lt (by omega)
    have hsum : byteSum s now
        = s.m_ulDmaMovementRate * TimeElapsedInMS s now + s.m_byteDisplacementCarryForward := by
      unfold byteSum
      rw [hprod]
      exact Nat.mod_eq_of_lt (by omega)
    have hD : ByteDisplacement s now = byteSum s now / 1000 := by
      unfold ByteDisplacement
      apply Nat.mod_eq_of_lt
      have : byteSum s now / 1000 ≤ byteSum s now := Nat.div_le_self _ _
      omega
    rw [hD, ← hsum]
    have := Nat.div_add_mod (byteSum s now) 1000
    omega

/-- Witness of C16 (amended): 5.33 ms at 192000 bytes per second. -/
theorem byte_displacement_conserved_witness :
    0 < streamFresh.m_ulDmaBufferSize ∧ 32 ≤ streamFresh.byteCarryBits ∧
    ∃ s1, UpdatePosition streamFresh 53300 = some s1 ∧
      s1.m_byteDisplacementCarryForward < 1000 ∧
      (streamFresh.m_ulDmaMovementRate * TimeElapsedInMS streamFresh 53300
          + streamFresh.m_byteDisplacementCarryForward < U32 →
        ByteDisplacement streamFresh 53300 * 1000 + s1.m_byteDisplacementCarryForward
          = streamFresh.m_ulDmaMovementRate * TimeElapsedInMS streamFresh 53300
            + streamFresh.m_byteDisplacementCarryForward) :=
  ⟨by decide, by decide, byte_displacement_conserved streamFresh 53300 (by decide) (by decide)⟩

/-- The timer callback on a stream with a non-zero buffer size, by cases. -/
theorem TimerNotifyRT_cases (s : CMiniportWaveRTStream) (now : Nat)
    (hB : s.m_ulDmaBufferSize ≠ 0) :
    TimerNotifyRT s now =
      if s.m_ulNotificationIntervalMs ≤ timerElapsedInMS s now then
        completeTick (positionsAfter (recordBufferCompleted s now) now) true
      else if s.m_bEoSReceived then completeTick (positionsAfter s now) false
      else some (s, []) := by
  have hB1 : (recordBufferCompleted s now).m_ulDmaBufferSize ≠ 0 := hB
  by_cases hT : s.m_ulNotificationIntervalMs ≤ timerElapsedInMS s now
  · rw [TimerNotifyRT_reached s now hT, if_pos hT]
    unfold UpdatePosition
    rw [if_neg hB1]; rfl
  · rw [TimerNotifyRT_not_reached s now hT, if_neg hT]
    unfold UpdatePosition
    rw [if_neg hB]
    split_ifs <;> rfl

/-- With zero notifications per buffer and a registered event the timer callback that
completes the notification interval faults in the signalling loop, before any event is
signalled: `AllocateBufferWithNotification` (4 notifications, 4096 bytes) sets the interval
to 5 ms, `AllocateAudioBuffer` sets the count to zero and keeps the interval, event 7 is
registered, the stream runs from 100 ms and the timer fires 5.33 ms later. -/
theorem TimerNotifyRT_zero_notifications_faults :
    ((AllocateBufferWithNotification (Init false 192000 4 false 32) 4 4096 true
        STATUS_SUCCESS true).bind
      (fun a => (AllocateAudioBuffer a.2.1 4096 true).bind
        (fun b =>
          (SetState (RegisterNotificationEvent b.2.1 7 true).2 KSSTATE_RUN 1000000 10000000).bind
            (fun c => if c.2.timerSet then TimerNotifyRT c.2 1053300 else some (c.2, [])))))
      = none := by
  decide

/-- With zero notifications per buffer and no event registered the same callback returns and
signals nothing. -/
theorem TimerNotifyRT_zero_notifications_no_event :
    ((AllocateBufferWithNotification (Init false 192000 4 false 32) 4 4096 true
        STATUS_SUCCESS true).bind
      (fun a => (AllocateAudioBuffer a.2.1 4096 true).bind
        (fun b =>
          (SetState b.2.1 KSSTATE_RUN 1000000 10000000).bind
            (fun c => (TimerNotifyRT c.2 1053300).map (fun r => r.2)))))
      = some [] := by
  decide

/-- C18: a timer callback on a stream with a buffer, and with notifications per buffer or
no event registered, returns, and it increases the packet counter by exactly one when the
elapsed time it computes (since the last qualifying callback, plus the carry, in whole
milliseconds) is at least the notification interval and end of stream is not pending; in
every other case (the interval is not reached, or end of stream is pending whether or not
the interval is reached) it leaves the packet counter unchanged. -/
theorem TimerNotifyRT_packetCounter (s : CMiniportWaveRTStream) (now : Nat)
    (hB : 0 < s.m_ulDmaBufferSize)
    (hN : 0 < s.m_ulNotificationsPerBuffer ∨ s.m_NotificationList = []) :
    ∃ r, TimerNotifyRT s now = some r ∧
      r.1.m_llPacketCounter =
        (if s.m_ulNotificationIntervalMs ≤ timerElapsedInMS s now ∧ s.m_bEoSReceived = false
          then s.m_llPacketCounter + 1 else s.m_llPacketCounter) := by
  have h0 : s.m_ulDmaBufferSize ≠ 0 := Nat.pos_iff_ne_zero.mp hB
  rw [TimerNotifyRT_cases s now h0]
  by_cases hT : s.m_ulNotificationIntervalMs ≤ timerElapsedInMS s now
  · rw [if_pos hT]
    obtain ⟨r, hr⟩ :=
      completeTick_isSome (positionsAfter (recordBufferCompleted s now) now) true hN
    refine ⟨r, hr, ?_⟩
    rw [(completeTick_props _ true r hr).1]
    show (if s.m_bEoSReceived = true then s.m_llPacketCounter else s.m_llPacketCounter + 1) = _
    cases hE : s.m_bEoSReceived <;> simp [hT]
  · rw [if_neg hT]
    cases hE : s.m_bEoSReceived
    · refine ⟨(s, []), by simp, ?_⟩
      simp [hT]
    · obtain ⟨r, hr⟩ := completeTick_isSome (positionsAfter s now) false hN
      refine ⟨r, by simp [hr], ?_⟩
      rw [(completeTick_props _ false r hr).1]
      show (if s.m_bEoSReceived = true then s.m_llPacketCounter else s.m_llPacketCounter + 1) = _
      simp [hE]

/-- Witness of C18: the callback 5.33 ms after Run completes the first packet. -/
theorem TimerNotifyRT_packetCounter_witness :
    0 < (streamRunning 32 1000000 10000000).m_ulDmaBufferSize ∧
    0 < (streamRunning 32 1000000 10000000).m_ulNotificationsPerBuffer ∧
    ∃ r, TimerNotifyRT (streamRunning 32 1000000 10000000) 1053300 = some r ∧
      r.1.m_llPacketCounter =
        (if (streamRunning 32 1000000 10000000).m_ulNotificationIntervalMs
              ≤ timerElapsedInMS (streamRunning 32 1000000 10000000) 1053300 ∧
            (streamRunning 32 1000000 10000000).m_bEoSReceived = false
          then (streamRunning 32 1000000 10000000).m_llPacketCounter + 1
          else (streamRunning 32 1000000 10000000).m_llPacketCounter) :=
  ⟨by decide, by decide,
    TimerNotifyRT_packetCounter (streamRunning 32 1000000 10000000) 1053300
      (by decide) (Or.inl (by decide))⟩

/-- C19: a timer callback on a stream with a buffer, and with notifications per buffer or
no event registered, returns, and it signals notification events only when the stream state
is Run and either the callback completed a notification interval or the last buffer has been
rendered; in that case it signals every event of the notification list exactly once, in list
order, and in every other case (state Stop, Acquire or Pause, or interval not reached with no
last buffer rendered) it signals none. The stream state and the list are left as they are.
The last-buffer-rendered flag is read after the position update of the callback; the stream
is any stream on which that flag is set only after end of stream was received, as on every
stream that `Init` and the operations produce. With zero notifications per buffer and an
event to signal the callback divides by zero before the first `KeSetEvent`. -/
theorem TimerNotifyRT_signals (s : CMiniportWaveRTStream) (now : Nat)
    (hB : 0 < s.m_ulDmaBufferSize)
    (hN : 0 < s.m_ulNotificationsPerBuffer ∨ s.m_NotificationList = [])
    (hInv : EoSInvariant s) :
    ∃ r, TimerNotifyRT s now = some r ∧
      r.2 =
        (if s.m_KsState = KSSTATE_RUN ∧
            (s.m_ulNotificationIntervalMs ≤ timerElapsedInMS s now
              ∨ r.1.m_bLastBufferRendered = true)
          then s.m_NotificationList else []) ∧
      r.1.m_KsState = s.m_KsState ∧ r.1.m_NotificationList = s.m_NotificationList := by
  have h0 : s.m_ulDmaBufferSize ≠ 0 := Nat.pos_iff_ne_zero.mp hB
  rw [TimerNotifyRT_cases s now h0]
  by_cases hT : s.m_ulNotificationIntervalMs ≤ timerElapsedInMS s now
  · rw [if_pos hT]
    obtain ⟨r, hr⟩ :=
      completeTick_isSome (positionsAfter (recordBufferCompleted s now) now) true hN
    obtain ⟨_, _, hS, _, _, _, hL, _, hl, _, _, hEv⟩ := completeTick_props _ true r hr
    refine ⟨r, hr, ?_, hS, hl⟩
    rw [hEv]
    show (if s.m_KsState = KSSTATE_RUN ∧ _ then s.m_NotificationList else []) = _
    by_cases hR : s.m_KsState = KSSTATE_RUN <;> simp [hR, hT]
  · rw [if_neg hT]
    cases hE : s.m_bEoSReceived
    · have hL : s.m_bLastBufferRendered = false := by
        cases hL : s.m_bLastBufferRendered
        · rfl
        · rw [hInv hL] at hE; exact absurd hE (by decide)
      refine ⟨(s, []), by simp, ?_, rfl, rfl⟩
      simp [hT, hL]
    · obtain ⟨r, hr⟩ := completeTick_isSome (positionsAfter s now) false hN
      obtain ⟨_, _, hS, _, _, _, hL, _, hl, _, _, hEv⟩ := completeTick_props _ false r hr
      refine ⟨r, by simp [hr], ?_, hS, hl⟩
      rw [hEv, hL]
      show (if s.m_KsState = KSSTATE_RUN ∧ _ then s.m_NotificationList else []) = _
      by_cases hR : s.m_KsState = KSSTATE_RUN <;> simp [hR, hT]

/-- Witness of C19: with events 7 and 9 registered, the callback 5.33 ms after Run signals 7
and then 9. -/
theorem TimerNotifyRT_signals_witness :
    0 < streamRunningTwoEvents.m_ulDmaBufferSize ∧
      0 < streamRunningTwoEvents.m_ulNotificationsPerBuffer ∧
      EoSInvariant streamRunningTwoEvents ∧
      ∃ r, TimerNotifyRT streamRunningTwoEvents 1053300 = some r ∧ r.2 = [7, 9] := by
  have hInv : EoSInvariant streamRunningTwoEvents := by
    intro h; exact absurd h (by decide)
  obtain ⟨r, h1, h2, _, _⟩ :=
    TimerNotifyRT_signals streamRunningTwoEvents 1053300 (by decide) (Or.inl (by decide)) hInv
  rw [if_pos ⟨by decide, Or.inl (by decide)⟩] at h2
  exact ⟨by decide, by decide, hInv, r, h1, h2⟩

/-- `Init` establishes the invariant on the two end-of-stream flags. -/
theorem EoSInvariant_Init (c : Bool) (rate align : Nat) (k : Bool) (bits : Nat) :
    EoSInvariant (Init c rate align k bits) := by
  intro h; exact absurd h (by simp [Init])

/-- The position update keeps the invariant on the two end-of-stream flags. -/
theorem EoSInvariant_positionsAfter (s : CMiniportWaveRTStream) (t : Nat)
    (h : EoSInvariant s) : EoSInvariant (positionsAfter s t) := by
  intro hL
  show s.m_bEoSReceived = true
  have hL1 : (if (!s.m_bCapture && s.m_bEoSReceived && !s.m_bLastBufferRendered
      && decide (((s.m_ullWritePosition + appliedDisplacement s t) % U64) % s.m_ulDmaBufferSize
        = s.m_ulCurrentWritePosition)) = true then true else s.m_bLastBufferRendered) = true := hL
  split_ifs at hL1 with hc
  · simp only [Bool.and_eq_true] at hc
    exact hc.1.1.2
  · exact h hL1

/-- `UpdatePosition` keeps the invariant on the two end-of-stream flags. -/
theorem EoSInvariant_UpdatePosition (s s1 : CMiniportWaveRTStream) (t : Nat)
    (hU : UpdatePosition s t = some s1) (h : EoSInvariant s) : EoSInvariant s1 := by
  unfold UpdatePosition at hU
  split_ifs at hU
  simp only [Option.some.injEq] at hU
  rw [← hU]
  exact EoSInvariant_positionsAfter s t h

/-- The timer callback keeps the invariant on the two end-of-stream flags. -/
theorem EoSInvariant_TimerNotifyRT (s : CMiniportWaveRTStream) (now : Nat)
    (r : CMiniportWaveRTStream × List PKEVENT) (hr : TimerNotifyRT s now = some r)
    (h : EoSInvariant s) : EoSInvariant r.1 := by
  have key : ∀ (s0 s2 : CMiniportWaveRTStream) (b : Bool), EoSInvariant s0 →
      UpdatePosition s0 now = some s2 → completeTick s2 b = some r → EoSInvariant r.1 := by
    intro s0 s2 b h0 hU hc hL
    obtain ⟨_, _, _, _, _, _, h1, h2, _⟩ := completeTick_props s2 b r hc
    rw [h2]
    rw [h1] at hL
    exact EoSInvariant_UpdatePosition s0 s2 now hU h0 hL
  by_cases hT : s.m_ulNotificationIntervalMs ≤ timerElapsedInMS s now
  · rw [TimerNotifyRT_reached s now hT] at hr
    obtain ⟨s2, hU, he⟩ := Option.bind_eq_some.mp hr
    exact key (recordBufferCompleted s now) s2 true h hU he
  · rw [TimerNotifyRT_not_reached s now hT] at hr
    split_ifs at hr
    · obtain ⟨s2, hU, he⟩ := Option.bind_eq_some.mp hr
      exact key s s2 false h hU he
    · simp only [Option.some.injEq] at hr
      rw [← hr]; exact h

/-- `SetState` keeps the invariant on the two end-of-stream flags. -/
theorem EoSInvariant_SetState (s : CMiniportWaveRTStream) (st : KSSTATE) (now freq : Nat)
    (r : NTSTATUS × CMiniportWaveRTStream) (hr : SetState s st now freq = some r)
    (h : EoSInvariant s) : EoSInvariant r.2 := by
  cases st
  · simp only [SetState, Option.some.injEq] at hr
    rw [← hr]; intro hL; exact absurd hL (by simp)
  · simp only [SetState, Option.some.injEq] at hr
    rw [← hr]; exact h
  · simp only [SetState, GetPositions] at hr
    split at hr
    · exact absurd hr (by simp)
    · rename_i s2 h2
      simp only [Option.some.injEq] at hr
      rw [← hr]
      have hs2 : EoSInvariant s2 := by
        split_ifs at h2
        all_goals first
          | exact EoSInvariant_UpdatePosition _ _ _ h2 h
          | (simp only [Option.some.injEq] at h2; rw [← h2]; exact h)
      exact hs2
  · simp only [SetState, Option.some.injEq] at hr
    rw [← hr]; exact h

/-- `GetPosition`, `GetReadPacket`, `SetWritePacket`, the buffer allocation and the
registration calls keep the invariant on the two end-of-stream flags. -/
theorem EoSInvariant_calls (s : CMiniportWaveRTStream) (h : EoSInvariant s) :
    (∀ now r, GetPosition s now = some r → EoSInvariant r.2.1) ∧
      (∀ kws r, GetReadPacket s kws = some r → EoSInvariant r.2.1) ∧
      (∀ fits P F E, EoSInvariant (SetWritePacket fits s P F E).2) ∧
      (∀ n size g st pages r,
        AllocateBufferWithNotification s n size g st pages = some r → EoSInvariant r.2.1) ∧
      (∀ ev a, EoSInvariant (RegisterNotificationEvent s ev a).2) ∧
      (∀ ev, EoSInvariant (UnregisterNotificationEvent s ev).2) := by
  refine ⟨?_, ?_, ?_, ?_, ?_, ?_⟩
  · intro now r hr
    unfold GetPosition at hr
    split_ifs at hr with h1 h2
    · simp only [Option.some.injEq] at hr; rw [← hr]; exact h
    · cases hU : UpdatePosition s now with
      | none => rw [hU] at hr; simp at hr
      | some s1 =>
        rw [hU] at hr
        simp only [Option.some.injEq] at hr
        rw [← hr]
        exact EoSInvariant_UpdatePosition _ _ _ hU h
    · simp only [Option.some.injEq] at hr; rw [← hr]; exact h
  · intro kws r hr
    unfold GetReadPacket at hr
    simp only at hr
    split_ifs at hr
    all_goals (simp only [Option.some.injEq] at hr; rw [← hr]; exact h)
  · intro fits P F E
    by_cases hN : s.m_ulNotificationsPerBuffer = 0
    · unfold SetWritePacket; rw [if_pos hN]; exact h
    · cases hE : s.m_bEoSReceived
      · rcases lt_trichotomy (toLONG (sub32 P (expectedPacket s))) 0 with hd | hd | hd
        · rw [SetWritePacket_late fits s P F E hN hE hd]; exact h
        · rw [SetWritePacket_committed fits s P F E hN hE hd]
          split_ifs
          all_goals first
            | exact h
            | (intro _; rfl)
        · rw [SetWritePacket_overrun fits s P F E hN hE hd]; exact h
      · unfold SetWritePacket
        simp only [if_neg hN, hE, if_true]
        exact h
  · intro n size g st pages r hr
    unfold AllocateBufferWithNotification at hr
    simp only at hr
    split_ifs at hr
    all_goals (simp only [Option.some.injEq] at hr; rw [← hr]; exact h)
  · intro ev a
    unfold RegisterNotificationEvent
    split_ifs <;> exact h
  · intro ev
    unfold UnregisterNotificationEvent
    split_ifs <;> exact h

/-- Witness of C13: events 7 and 9 are registered, then 7 is unregistered. -/
theorem UnregisterNotificationEvent_removes_witness :
    (Init false 192000 4 false 32).m_NotificationList = [] ∧
      7 ∈ (notificationRun (Init false 192000 4 false 32)
        [NotificationCall.register 7 true, NotificationCall.register 9 true]).m_NotificationList ∧
      (UnregisterNotificationEvent (notificationRun (Init false 192000 4 false 32)
        [NotificationCall.register 7 true, NotificationCall.register 9 true]) 7).1
        = STATUS_SUCCESS ∧
      7 ∉ (UnregisterNotificationEvent (notificationRun (Init false 192000 4 false 32)
        [NotificationCall.register 7 true, NotificationCall.register 9 true])
          7).2.m_NotificationList :=
  ⟨by decide, by decide,
    ((UnregisterNotificationEvent_removes (Init false 192000 4 false 32)
      [NotificationCall.register 7 true, NotificationCall.register 9 true] 7 (by decide)).1
      (by decide)).1,
    ((UnregisterNotificationEvent_removes (Init false 192000 4 false 32)
      [NotificationCall.register 7 true, NotificationCall.register 9 true] 7 (by decide)).1
      (by decide)).2.2.1⟩

/-- C20 fails on the code: after the calls `firstPacketCalls` (4096-byte buffer, 4
notifications, 192000 bytes per second, Run at 100 ms and one timer callback 5.33 ms later)
the packet counter is 1 with a packet size of 1024 bytes, while the linear position is 960
and the elapsed-time carry of 3300 stands for 63 more bytes: the difference
`linearPosition + carryBytes - packetCounter * packetSize` is negative. `GetReadPacket`
succeeds and computes it in unsigned 64-bit arithmetic, and the counter value it reports,
1690952593442 (at ten million ticks per second), is later than the position timestamp
1053300. -/
theorem GetReadPacket_timestamp_wraps :
    (run (Init false 192000 4 false 32) firstPacketCalls).map
        (fun r => (r.1.m_ullLinearPosition, r.1.m_hnsElapsedTimeCarryForward,
          r.1.m_llPacketCounter, r.1.m_ulDmaBufferSize / r.1.m_ulNotificationsPerBuffer,
          r.1.m_ullDmaTimeStamp, r.1.m_ullPerformanceCounterFrequency))
      = some (960, 3300, 1, 1024, 1053300, 10000000) ∧
    ((run (Init false 192000 4 false 32) firstPacketCalls).bind
        (fun r => GetReadPacket r.1 (STATUS_SUCCESS, 0, 0, false))).map
        (fun q => (q.1, q.2.2.PacketNumber, q.2.2.PerformanceCounterValue))
      = some (STATUS_SUCCESS, some 0, some 1690952593442) ∧
    960 + 3300 * 192000 / 10000000 < 1 * 1024 ∧ 1053300 < 1690952593442 := by
  refine ⟨by decide, by decide, by decide, by decide⟩

/-! ## Theorems: chunk loops, end of stream, the timer, state transitions -/

/-- The loop is finished at once when no byte is left. -/
theorem chunkLoop_zero (B fuel o : Nat) : chunkLoop B fuel o 0 = some [] := by
  cases fuel <;> rfl

/-- One iteration of the loop with bytes left. -/
theorem chunkLoop_succ (B fuel o d : Nat) :
    chunkLoop B (fuel + 1) o (d + 1) =
      match chunkLoop B fuel (((o + min (d + 1) (sub32 B o)) % U32) % B)
          (d + 1 - min (d + 1) (sub32 B o)) with
      | some rest => some ((o, min (d + 1) (sub32 B o)) :: rest)
      | none => none := rfl

/-- The room left in the buffer behind an offset inside it. -/
theorem sub32_room (B o : Nat) (ho : o < B) (hB32 : B < U32) : sub32 B o = B - o := by
  unfold sub32; unfold U32 at *; omega

/-- The chunks of the loop started inside the buffer: the loop finishes within
`(o + D + B - 1) / B` iterations. -/
theorem chunkLoop_spec (B : Nat) (hB32 : B < U32) :
    ∀ fuel o D : Nat, o < B → (D = 0 ∨ (o + D + B - 1) / B ≤ fuel) →
      ∃ cs, chunkLoop B fuel o D = some cs ∧ cs.length ≤ (o + D + B - 1) / B ∧
        chunksFrom B o cs = true ∧ chunkBytes cs = D := by
  intro fuel
  induction fuel with
  | zero =>
    intro o D ho hf
    have hD : D = 0 := by
      rcases hf with h | h
      · exact h
      · by_contra hne
        have hge : B ≤ o + D + B - 1 := by omega
        have h1 : 1 ≤ (o + D + B - 1) / B := (Nat.one_le_div_iff (by omega)).mpr hge
        omega
    subst hD
    exact ⟨[], rfl, Nat.zero_le _, rfl, rfl⟩
  | succ fuel ih =>
    intro o D ho hf
    cases D with
    | zero => exact ⟨[], rfl, Nat.zero_le _, rfl, rfl⟩
    | succ d =>
      have hB : 0 < B := by omega
      have hf1 : (o + (d + 1) + B - 1) / B ≤ fuel + 1 := by
        rcases hf with h | h
        · exact absurd h (by omega)
        · exact h
      have hroom := sub32_room B o ho hB32
      rw [chunkLoop_succ, hroom]
      by_cases hfit : d + 1 ≤ B - o
      · have hmin : min (d + 1) (B - o) = d + 1 := Nat.min_eq_left hfit
        rw [hmin, Nat.sub_self, chunkLoop_zero]
        refine ⟨[(o, d + 1)], rfl, ?_, ?_, ?_⟩
        · have hge : B ≤ o + (d + 1) + B - 1 := by omega
          exact (Nat.one_le_div_iff hB).mpr hge
        · simp only [chunksFrom, Bool.and_eq_true, decide_eq_true_eq]
          exact ⟨⟨⟨⟨trivial, by omega⟩, ho⟩, by omega⟩, trivial⟩
        · simp [chunkBytes]
      · have hmin : min (d + 1) (B - o) = B - o := Nat.min_eq_right (by omega)
        have hnext : ((o + (B - o)) % U32) % B = 0 := by
          have e : o + (B - o) = B := by omega
          rw [e, Nat.mod_eq_of_lt hB32, Nat.mod_self]
        have hsplit : o + (d + 1) + B - 1 = (0 + (d + 1 - (B - o)) + B - 1) + B := by omega
        have hdiv : (o + (d + 1) + B - 1) / B = (0 + (d + 1 - (B - o)) + B - 1) / B + 1 := by
          rw [hsplit, Nat.add_div_right _ hB]
        rw [hmin, hnext]
        obtain ⟨cs, hcs, hlen, hfrom, hbytes⟩ :=
          ih 0 (d + 1 - (B - o)) hB (Or.inr (by omega))
        rw [hcs]
        refine ⟨(o, B - o) :: cs, rfl, ?_, ?_, ?_⟩
        · rw [hdiv]
          simp only [List.length_cons]
          omega
        · have e : (o + (B - o)) % B = 0 := by
            have e1 : o + (B - o) = B := by omega
            rw [e1, Nat.mod_self]
          simp only [chunksFrom, Bool.and_eq_true, decide_eq_true_eq, e]
          exact ⟨⟨⟨⟨trivial, by omega⟩, ho⟩, by omega⟩, hfrom⟩
        · simp only [chunkBytes, List.map_cons, List.sum_cons] at hbytes ⊢
          omega

/-- More iterations allowed do not change the chunks of a loop that has finished. -/
theorem chunkLoop_mono (B : Nat) :
    ∀ (fuel o D : Nat) (cs : List (Nat × Nat)), chunkLoop B fuel o D = some cs →
      ∀ k, chunkLoop B (fuel + k) o D = some cs := by
  intro fuel
  induction fuel with
  | zero =>
    intro o D cs h k
    cases D with
    | zero => rw [chunkLoop_zero] at h ⊢; exact h
    | succ d => exact absurd h (by simp [chunkLoop])
  | succ fuel ih =>
    intro o D cs h k
    cases D with
    | zero => rw [chunkLoop_zero] at h ⊢; exact h
    | succ d =>
      have e : fuel + 1 + k = (fuel + k) + 1 := by omega
      rw [e, chunkLoop_succ]
      rw [chunkLoop_succ] at h
      cases hrest : chunkLoop B fuel (((o + min (d + 1) (sub32 B o)) % U32) % B)
          (d + 1 - min (d + 1) (sub32 B o)) with
      | none => rw [hrest] at h; exact absurd h (by simp)
      | some rest =>
        rw [hrest] at h
        rw [ih _ _ rest hrest k]
        exact h

/-- C26: for every buffer size `B > 0`, every linear position and every byte displacement
`D`, the chunking loops of `WriteBytes` and `ReadBytes` terminate after at most
`D / B + 2` iterations (with that many iterations allowed, or more, they return, with the same
chunks); every chunk handed to the tone generator or the data saver is non-empty and lies
inside the DMA buffer, the first chunk starts at `linearPosition mod B`, each next chunk
starts where the previous one ended modulo `B`, and the chunk lengths sum to exactly `D`. -/
theorem chunk_loops_terminate (s : CMiniportWaveRTStream) (D : Nat)
    (hB : 0 < s.m_ulDmaBufferSize) (hB32 : s.m_ulDmaBufferSize < U32) :
    ∃ cs, WriteBytes s (D / s.m_ulDmaBufferSize + 2) D = some cs ∧
      ReadBytes s (D / s.m_ulDmaBufferSize + 2) D = some cs ∧
      (∀ k, WriteBytes s (D / s.m_ulDmaBufferSize + 2 + k) D = some cs ∧
        ReadBytes s (D / s.m_ulDmaBufferSize + 2 + k) D = some cs) ∧
      cs.length ≤ D / s.m_ulDmaBufferSize + 2 ∧
      chunksFrom s.m_ulDmaBufferSize (s.m_ullLinearPosition % s.m_ulDmaBufferSize) cs = true ∧
      chunkBytes cs = D := by
  have h0 : s.m_ulDmaBufferSize ≠ 0 := Nat.pos_iff_ne_zero.mp hB
  have ho : s.m_ullLinearPosition % s.m_ulDmaBufferSize < s.m_ulDmaBufferSize :=
    Nat.mod_lt _ hB
  have ho32 : (s.m_ullLinearPosition % s.m_ulDmaBufferSize) % U32
      = s.m_ullLinearPosition % s.m_ulDmaBufferSize := Nat.mod_eq_of_lt (by omega)
  have hbound : (s.m_ullLinearPosition % s.m_ulDmaBufferSize + D + s.m_ulDmaBufferSize - 1)
      / s.m_ulDmaBufferSize ≤ D / s.m_ulDmaBufferSize + 2 := by
    have h1 : s.m_ullLinearPosition % s.m_ulDmaBufferSize + D + s.m_ulDmaBufferSize - 1
        ≤ D + 2 * s.m_ulDmaBufferSize := by omega
    have h2 := Nat.div_le_div_right (c := s.m_ulDmaBufferSize) h1
    rw [Nat.add_mul_div_right _ _ hB] at h2
    exact h2
  obtain ⟨cs, hcs, hlen, hfrom, hbytes⟩ :=
    chunkLoop_spec s.m_ulDmaBufferSize hB32 (D / s.m_ulDmaBufferSize + 2)
      (s.m_ullLinearPosition % s.m_ulDmaBufferSize) D ho (Or.inr hbound)
  have hW : ∀ k, WriteBytes s (D / s.m_ulDmaBufferSize + 2 + k) D = some cs := by
    intro k
    unfold WriteBytes
    rw [if_neg h0, ho32]
    exact chunkLoop_mono _ _ _ _ cs hcs k
  have hR : ∀ k, ReadBytes s (D / s.m_ulDmaBufferSize + 2 + k) D = some cs := by
    intro k
    unfold ReadBytes
    rw [if_neg h0, ho32]
    exact chunkLoop_mono _ _ _ _ cs hcs k
  exact ⟨cs, hW 0, hR 0, fun k => ⟨hW k, hR k⟩, le_trans hlen hbound, hfrom, hbytes⟩

/-- Witness of C26: 9000 bytes from linear position 12000 in a 4096-byte buffer go out in 4
chunks. -/
theorem chunk_loops_terminate_witness :
    0 < streamOffset.m_ulDmaBufferSize ∧ streamOffset.m_ulDmaBufferSize < U32 ∧
      WriteBytes streamOffset (9000 / 4096 + 2) 9000
        = some [(3808, 288), (0, 4096), (0, 4096), (0, 520)] ∧
      ∃ cs, ReadBytes streamOffset (9000 / streamOffset.m_ulDmaBufferSize + 2) 9000 = some cs ∧
        chunkBytes cs = 9000 := by
  obtain ⟨cs, _, hR, _, _, _, hbytes⟩ :=
    chunk_loops_terminate streamOffset 9000 (by decide) (by decide)
  exact ⟨by decide, by decide, by decide, cs, hR, hbytes⟩

/-- The result of `UpdatePosition` on a stream with a buffer. -/
theorem UpdatePosition_some (s : CMiniportWaveRTStream) (t : Nat)
    (hB : 0 < s.m_ulDmaBufferSize) : UpdatePosition s t = some (positionsAfter s t) := by
  unfold UpdatePosition
  rw [if_neg (Nat.pos_iff_ne_zero.mp hB)]

/-- The last-buffer-rendered flag after the position update. -/
theorem positionsAfter_rendered (s : CMiniportWaveRTStream) (t : Nat) :
    (positionsAfter s t).m_bLastBufferRendered
      = (s.m_bLastBufferRendered || lastBufferRenderedEvent s t) := by
  show (if _ then true else s.m_bLastBufferRendered) = _
  unfold lastBufferRenderedEvent
  cases h : (!s.m_bCapture && s.m_bEoSReceived && !s.m_bLastBufferRendered
    && decide (((s.m_ullWritePosition + appliedDisplacement s t) % U64)
        % s.m_ulDmaBufferSize = s.m_ulCurrentWritePosition)) <;> simp

/-- Once the last buffer is flagged as rendered, `UpdatePosition` writes no further event. -/
theorem lastBufferRenderedEvent_of_rendered (s : CMiniportWaveRTStream) (t : Nat)
    (h : s.m_bLastBufferRendered = true) : lastBufferRenderedEvent s t = false := by
  unfold lastBufferRenderedEvent
  rw [h]; simp

/-- Along calls that never clear the flag, no event is written once the flag is set, and at
most one event is written at all. -/
theorem lastBufferRenderedEvents_le
    (calls : List ((CMiniportWaveRTStream → CMiniportWaveRTStream) × Nat)) :
    ∀ s : CMiniportWaveRTStream,
      (∀ p ∈ calls, ∀ x : CMiniportWaveRTStream,
        x.m_bLastBufferRendered = true → (p.1 x).m_bLastBufferRendered = true) →
      (s.m_bLastBufferRendered = true → lastBufferRenderedEvents s calls = 0) ∧
        lastBufferRenderedEvents s calls ≤ 1 := by
  induction calls with
  | nil => intro s _; exact ⟨fun _ => rfl, Nat.zero_le _⟩
  | cons p rest ih =>
    intro s hkeep
    obtain ⟨f, t⟩ := p
    have hrest : ∀ q ∈ rest, ∀ x : CMiniportWaveRTStream,
        x.m_bLastBufferRendered = true → (q.1 x).m_bLastBufferRendered = true :=
      fun q hq => hkeep q (List.mem_cons_of_mem _ hq)
    have hf : ∀ x : CMiniportWaveRTStream,
        x.m_bLastBufferRendered = true → (f x).m_bLastBufferRendered = true :=
      hkeep (f, t) (List.mem_cons_self _ _)
    have tail : ∀ s1, UpdatePosition (f s) t = some s1 →
        s1.m_bLastBufferRendered
          = ((f s).m_bLastBufferRendered || lastBufferRenderedEvent (f s) t) := by
      intro s1 h1
      unfold UpdatePosition at h1
      split_ifs at h1
      simp only [Option.some.injEq] at h1
      rw [← h1]
      exact positionsAfter_rendered (f s) t
    simp only [lastBufferRenderedEvents]
    cases hU : UpdatePosition (f s) t with
    | none =>
      simp only
      refine ⟨?_, by split_ifs <;> omega⟩
      intro hs
      rw [lastBufferRenderedEvent_of_rendered (f s) t (hf s hs)]
      rfl
    | some s1 =>
      simp only
      have h1 := tail s1 hU
      obtain ⟨ih0, ih1⟩ := ih s1 hrest
      constructor
      · intro hs
        have hfs := hf s hs
        rw [lastBufferRenderedEvent_of_rendered (f s) t hfs]
        rw [hfs] at h1
        simp only [Bool.true_or] at h1
        rw [ih0 h1]
        rfl
      · cases he : lastBufferRenderedEvent (f s) t
        · simp only [Bool.false_eq_true, if_false]
          omega
        · rw [he] at h1
          simp only [Bool.or_true] at h1
          rw [ih0 h1]
          simp

/-- `SetWritePacket` leaves the last-buffer-rendered flag as it is. -/
theorem SetWritePacket_rendered (fits : Nat → Nat → Bool) (s : CMiniportWaveRTStream)
    (P F E : Nat) :
    (SetWritePacket fits s P F E).2.m_bLastBufferRendered = s.m_bLastBufferRendered := by
  by_cases hN : s.m_ulNotificationsPerBuffer = 0
  · unfold SetWritePacket; rw [if_pos hN]
  · cases hE : s.m_bEoSReceived
    · rcases lt_trichotomy (toLONG (sub32 P (expectedPacket s))) 0 with hd | hd | hd
      · rw [SetWritePacket_late fits s P F E hN hE hd]
      · rw [SetWritePacket_committed fits s P F E hN hE hd]
        split_ifs <;> rfl
      · rw [SetWritePacket_overrun fits s P F E hN hE hd]
    · unfold SetWritePacket
      simp only [if_neg hN, hE, if_true]

/-- C22: on a render stream with a buffer, `UpdatePosition` sets the last-buffer-rendered
flag, and writes the last-buffer-rendered event, exactly when end of stream is pending, the
flag is not yet set, and the write position after the clamped displacement equals the
end-of-stream position; once the flag is set no `UpdatePosition` call clears it or writes
the event again, so that along every sequence of `UpdatePosition` calls, interleaved with
operations that do not clear the flag (every operation but the transition to Stop), the
event is written at most once. -/
theorem lastBufferRendered_once (s : CMiniportWaveRTStream) (t : Nat)
    (calls : List ((CMiniportWaveRTStream → CMiniportWaveRTStream) × Nat))
    (hB : 0 < s.m_ulDmaBufferSize) (hR : s.m_bCapture = false) :
    (∃ s1, UpdatePosition s t = some s1 ∧
        s1.m_bLastBufferRendered
          = (s.m_bLastBufferRendered || lastBufferRenderedEvent s t)) ∧
      (lastBufferRenderedEvent s t = true ↔
        s.m_bEoSReceived = true ∧ s.m_bLastBufferRendered = false ∧
          ((s.m_ullWritePosition + appliedDisplacement s t) % U64) % s.m_ulDmaBufferSize
            = s.m_ulCurrentWritePosition) ∧
      (s.m_bLastBufferRendered = true → lastBufferRenderedEvent s t = false) ∧
      ((∀ p ∈ calls, ∀ x : CMiniportWaveRTStream,
          x.m_bLastBufferRendered = true → (p.1 x).m_bLastBufferRendered = true) →
        lastBufferRenderedEvents s calls ≤ 1) := by
  refine ⟨⟨_, UpdatePosition_some s t hB, positionsAfter_rendered s t⟩, ?_,
    lastBufferRenderedEvent_of_rendered s t, fun h => (lastBufferRenderedEvents_le calls s h).2⟩
  unfold lastBufferRenderedEvent
  rw [hR]
  simp only [Bool.not_false, Bool.true_and, Bool.and_eq_true, Bool.not_eq_true',
    decide_eq_true_eq]
  constructor
  · rintro ⟨⟨h1, h2⟩, h3⟩; exact ⟨h1, h2, h3⟩
  · rintro ⟨h1, h2, h3⟩; exact ⟨⟨h1, h2⟩, h3⟩

/-- Witness of C22: with end of stream pending at position 1024 and the cursor at 3840, calls
every 5 ms, with a rejected `SetWritePacket` in between, write the event once. -/
theorem lastBufferRendered_once_witness :
    0 < streamEoSPending.m_ulDmaBufferSize ∧ streamEoSPending.m_bCapture = false ∧
      lastBufferRenderedEvents streamEoSPending
        [(id, 250000), (fun x => (SetWritePacket fitsBuffer x 6 0 0).2, 300000), (id, 350000)]
        = 1 ∧
      lastBufferRenderedEvents streamEoSPending
        [(id, 250000), (fun x => (SetWritePacket fitsBuffer x 6 0 0).2, 300000), (id, 350000)]
        ≤ 1 := by
  refine ⟨by decide, by decide, by decide, ?_⟩
  apply (lastBufferRendered_once streamEoSPending 250000 _ (by decide) (by decide)).2.2.2
  intro p hp x hx
  simp only [List.mem_cons, List.mem_singleton, List.not_mem_nil, or_false] at hp
  rcases hp with h | h | h
  · rw [h]; exact hx
  · rw [h]; exact (SetWritePacket_rendered fitsBuffer x 6 0 0).trans hx
  · rw [h]; exact hx

/-- C23, as stated, fails: after a successful `AllocateBufferWithNotification` for 1
notification and 100 bytes at 192000 bytes per second the stream is in event-driven mode
(`m_ulNotificationsPerBuffer = 1`), but the buffer lasts less than a millisecond, the
notification interval is 0, and `SetState (Run)` does not arm the timer. -/
theorem SetState_run_tiny_buffer_no_timer :
    ((AllocateBufferWithNotification (Init false 192000 4 false 32) 1 100 true STATUS_SUCCESS
        true).bind (fun r => SetState r.2.1 KSSTATE_RUN 0 10000000)).map
        (fun r => (r.1, r.2.m_ulNotificationsPerBuffer, r.2.m_ulNotificationIntervalMs,
          r.2.timerSet))
      = some (STATUS_SUCCESS, 1, 0, false) := by
  decide

/-- C23 (amended): `SetState (Run)` arms the periodic notification timer if and only if the
notification interval `m_ulNotificationIntervalMs` is greater than 0. A successful
`AllocateBufferWithNotification` sets the notification count (greater than 0) and the
interval `((size * 1000) mod 2^32 / movementRate) / NotificationCount`, which is 0 for a
buffer that lasts fewer milliseconds than it has notifications; a successful
`AllocateAudioBuffer` sets the notification count to 0 and leaves the interval as it was, 0
on a stream that had no buffer with notifications before. -/
theorem SetState_run_arms_timer (s : CMiniportWaveRTStream) (now freq n size : Nat)
    (g : Bool) (st : NTSTATUS) (pages : Bool) (hT : s.timerSet = false) :
    (∃ s1, SetState s KSSTATE_RUN now freq = some (STATUS_SUCCESS, s1) ∧
        (s1.timerSet = true ↔ 0 < s.m_ulNotificationIntervalMs)) ∧
      (∀ s1 actual,
        AllocateBufferWithNotification s n size g st pages = some (STATUS_SUCCESS, s1, actual) →
        s1.m_ulNotificationsPerBuffer = n ∧ 0 < n ∧
          s1.m_ulNotificationIntervalMs
            = (((size - size % s.nBlockAlign) * 1000) % U32 / s.m_ulDmaMovementRate) / n) ∧
      (∀ s1 actual, AllocateAudioBuffer s size pages = some (STATUS_SUCCESS, s1, actual) →
        s1.m_ulNotificationsPerBuffer = 0 ∧
          s1.m_ulNotificationIntervalMs = s.m_ulNotificationIntervalMs) := by
  refine ⟨⟨_, rfl, ?_⟩, ?_, ?_⟩
  · show (if s.m_ulNotificationIntervalMs > 0 then true else s.timerSet) = true ↔ _
    rw [hT]
    by_cases h : 0 < s.m_ulNotificationIntervalMs <;> simp [h]
  · intro s1 actual h
    unfold AllocateBufferWithNotification at h
    simp only at h
    split_ifs at h with h1 h2 h3 h4 h5 h6
    · simp at h
    · simp at h
    · simp only [Option.some.injEq, Prod.mk.injEq] at h
      obtain ⟨hst, _⟩ := h
      subst hst
      simp [NT_SUCCESS] at h4
    · simp at h
    · simp only [Option.some.injEq, Prod.mk.injEq, true_and] at h
      obtain ⟨hs, _⟩ := h
      subst hs
      have hn : n ≠ 0 := fun h0 => h2 (Or.inl h0)
      exact ⟨rfl, Nat.pos_of_ne_zero hn, rfl⟩
  · intro s1 actual h
    unfold AllocateAudioBuffer at h
    simp only at h
    split_ifs at h
    · simp at h
    · simp at h
    · simp only [Option.some.injEq, Prod.mk.injEq, true_and] at h
      obtain ⟨hs, _⟩ := h
      subst hs
      exact ⟨rfl, rfl⟩

/-- Witness of C23 (amended): a 4096-byte buffer with 4 notifications has an interval of
5 ms, and the transition to Run arms the timer. -/
theorem SetState_run_arms_timer_witness :
    streamFresh.timerSet = false ∧
      ∃ s1, SetState streamFresh KSSTATE_RUN 1000000 10000000 = some (STATUS_SUCCESS, s1) ∧
        (s1.timerSet = true ↔ 0 < streamFresh.m_ulNotificationIntervalMs) :=
  ⟨by decide,
    (SetState_run_arms_timer streamFresh 1000000 10000000 4 4096 true STATUS_SUCCESS true
      (by decide)).1⟩

/-- C27: within the 32-bit range the fixed-point conversion of `UpdatePosition` is exact. On a
stream with a buffer, when `now >= dmaTimestamp`, `e = (now - dmaTimestamp) +
elapsedTimeCarry` is below two to the 32 and `movementRate * (e / 10000) +
byteDisplacementCarry` is below two to the 32, one call computes `TimeElapsedInMS =
e / 10000`, the new elapsed-time carry `e mod 10000`, the byte displacement
`(movementRate * TimeElapsedInMS + byteDisplacementCarry) / 1000` and the new byte carry, that
sum modulo 1000; after the call the elapsed-time carry is below 10000, the byte carry below
1000 and `dmaTimestamp = now`. -/
theorem fixed_point_conversion_exact (s : CMiniportWaveRTStream) (now : Nat)
    (hB : 0 < s.m_ulDmaBufferSize) (hbits : 32 ≤ s.byteCarryBits)
    (h1 : s.m_ullDmaTimeStamp ≤ now) (h64 : now < U64)
    (he : now - s.m_ullDmaTimeStamp + s.m_hnsElapsedTimeCarryForward < U32)
    (hb : s.m_ulDmaMovementRate
        * ((now - s.m_ullDmaTimeStamp + s.m_hnsElapsedTimeCarryForward) / 10000)
        + s.m_byteDisplacementCarryForward < U32) :
    ∃ s1, UpdatePosition s now = some s1 ∧
      TimeElapsedInMS s now
        = (now - s.m_ullDmaTimeStamp + s.m_hnsElapsedTimeCarryForward) / 10000 ∧
      s1.m_hnsElapsedTimeCarryForward
        = (now - s.m_ullDmaTimeStamp + s.m_hnsElapsedTimeCarryForward) % 10000 ∧
      ByteDisplacement s now
        = (s.m_ulDmaMovementRate * TimeElapsedInMS s now + s.m_byteDisplacementCarryForward)
          / 1000 ∧
      s1.m_byteDisplacementCarryForward
        = (s.m_ulDmaMovementRate * TimeElapsedInMS s now + s.m_byteDisplacementCarryForward)
          % 1000 ∧
      s1.m_hnsElapsedTimeCarryForward < 10000 ∧ s1.m_byteDisplacementCarryForward < 1000 ∧
      s1.m_ullDmaTimeStamp = now := by
  have hE := hnsElapsed_eq s now h1 he
  have hms : TimeElapsedInMS s now
      = (now - s.m_ullDmaTimeStamp + s.m_hnsElapsedTimeCarryForward) / 10000 := by
    unfold TimeElapsedInMS
    rw [hE, Nat.mod_eq_of_lt he]
  have hpow : U32 ≤ 2 ^ s.byteCarryBits := by
    have : (2 : Nat) ^ 32 ≤ 2 ^ s.byteCarryBits := Nat.pow_le_pow_right (by decide) hbits
    unfold U32; omega
  rw [← hms] at hb
  have hsum : byteSum s now
      = s.m_ulDmaMovementRate * TimeElapsedInMS s now + s.m_byteDisplacementCarryForward := by
    unfold byteSum
    rw [Nat.mod_eq_of_lt (show s.m_ulDmaMovementRate * TimeElapsedInMS s now < U32 by omega)]
    exact Nat.mod_eq_of_lt (by omega)
  have hD : ByteDisplacement s now = byteSum s now / 1000 := by
    unfold ByteDisplacement
    apply Nat.mod_eq_of_lt
    have : byteSum s now / 1000 ≤ byteSum s now := Nat.div_le_self _ _
    omega
  refine ⟨positionsAfter s now, UpdatePosition_some s now hB, hms, ?_, ?_, ?_, ?_, ?_, ?_⟩
  · show hnsElapsed s now % 10000 = _
    rw [hE]
  · rw [hD, hsum]
  · show byteSum s now % 1000 = _
    rw [hsum]
  · show hnsElapsed s now % 10000 < 10000
    exact Nat.mod_lt _ (by decide)
  · show byteSum s now % 1000 < 1000
    exact Nat.mod_lt _ (by decide)
  · show now % U64 = now
    exact Nat.mod_eq_of_lt h64

/-- Witness of C27: a call 5.33 ms after the position timestamp 0, at 192000 bytes per
second. -/
theorem fixed_point_conversion_exact_witness :
    ∃ s1, UpdatePosition streamFresh 53300 = some s1 ∧
      TimeElapsedInMS streamFresh 53300 = 5 ∧ s1.m_hnsElapsedTimeCarryForward = 3300 ∧
      ByteDisplacement streamFresh 53300 = 960 ∧ s1.m_byteDisplacementCarryForward = 0 ∧
      s1.m_ullDmaTimeStamp = 53300 := by
  obtain ⟨s1, h1, h2, h3, h4, h5, _, _, h8⟩ :=
    fixed_point_conversion_exact streamFresh 53300 (by decide) (by decide) (by decide)
      (by decide) (by decide) (by decide)
  refine ⟨s1, h1, ?_, ?_, ?_, ?_, h8⟩
  · rw [h2]; decide
  · rw [h3]; decide
  · rw [h4, h2]; decide
  · rw [h5, h2]; decide

/-- C28: on a render stream with a buffer and end of stream pending whose write position
already equals the end-of-stream position, `UpdatePosition`, for every timestamp, applies
zero displacement: the play, write and linear positions are unchanged by the call (the
cursor stays at the target), while the position timestamp and the two carries are still
updated. The stream is one whose play position is its write position, inside the buffer, as
`UpdatePosition` and the transition to Stop leave them; the buffer size is a `ULONG` and the
linear position a `ULONGLONG`. -/
theorem UpdatePosition_at_EoS_position (s : CMiniportWaveRTStream) (now : Nat)
    (hB32 : s.m_ulDmaBufferSize < U32) (hR : s.m_bCapture = false)
    (hE : s.m_bEoSReceived = true) (hW : s.m_ullWritePosition = s.m_ulCurrentWritePosition)
    (hP : s.m_ullPlayPosition = s.m_ullWritePosition)
    (hlt : s.m_ullWritePosition < s.m_ulDmaBufferSize) (hL : s.m_ullLinearPosition < U64) :
    ∃ s1, UpdatePosition s now = some s1 ∧ appliedDisplacement s now = 0 ∧
      s1.m_ullPlayPosition = s.m_ullPlayPosition ∧
      s1.m_ullWritePosition = s.m_ullWritePosition ∧
      s1.m_ullLinearPosition = s.m_ullLinearPosition ∧
      s1.m_ullDmaTimeStamp = now % U64 ∧
      s1.m_hnsElapsedTimeCarryForward = hnsElapsed s now % 10000 ∧
      s1.m_byteDisplacementCarryForward = byteSum s now % 1000 := by
  have hB : 0 < s.m_ulDmaBufferSize := by omega
  have hD : appliedDisplacement s now = 0 := by
    unfold appliedDisplacement clampToEoS
    rw [hR, hE]
    simp only [Bool.false_eq_true, if_false, if_true]
    rw [if_pos (le_of_eq hW), ← hW]
    have h0 : sub32 s.m_ullWritePosition s.m_ullWritePosition = 0 := by
      unfold sub32 U32; omega
    rw [h0]
    exact Nat.min_zero _
  have hnew : ((s.m_ullWritePosition + appliedDisplacement s now) % U64) % s.m_ulDmaBufferSize
      = s.m_ullWritePosition := by
    rw [hD, Nat.add_zero]
    have h64 : s.m_ullWritePosition % U64 = s.m_ullWritePosition :=
      Nat.mod_eq_of_lt (by unfold U64; unfold U32 at hB32; omega)
    rw [h64]
    exact Nat.mod_eq_of_lt hlt
  refine ⟨positionsAfter s now, UpdatePosition_some s now hB, hD, ?_, ?_, ?_, rfl, rfl, rfl⟩
  · show ((s.m_ullWritePosition + appliedDisplacement s now) % U64) % s.m_ulDmaBufferSize = _
    rw [hnew, hP]
  · exact hnew
  · show (s.m_ullLinearPosition + appliedDisplacement s now) % U64 = _
    rw [hD, Nat.add_zero]
    exact Nat.mod_eq_of_lt hL

/-- Witness of C28: the cursor sits on the end-of-stream position 1024 and a call comes 22 ms
later. -/
theorem UpdatePosition_at_EoS_position_witness :
    ∃ s1, UpdatePosition streamAtEoS 420000 = some s1 ∧ appliedDisplacement streamAtEoS 420000 = 0 ∧
      s1.m_ullPlayPosition = 1024 ∧ s1.m_ullWritePosition = 1024 ∧
      s1.m_ullLinearPosition = 5120 := by
  obtain ⟨s1, h1, h2, h3, h4, h5, _, _, _⟩ :=
    UpdatePosition_at_EoS_position streamAtEoS 420000 (by decide) (by decide) (by decide)
      (by decide) (by decide) (by decide) (by decide)
  exact ⟨s1, h1, h2, h3, h4, h5⟩

/-- C29: a timer callback on a stream with a buffer, and with notifications per buffer or no
event registered, returns; when it completes a notification interval, with
`e = now - lastDPCTimeStamp + DPC carry` in 100ns units, `e` below two to the 32 and
`e / 10000` at least the notification interval, the new carry equals
`e - notificationIntervalMs * 10000`, which is non-negative, and `lastDPCTimeStamp` becomes
`now`; on a callback that does not complete an interval both are unchanged. -/
theorem TimerNotifyRT_carry (s : CMiniportWaveRTStream) (now : Nat)
    (hB : 0 < s.m_ulDmaBufferSize)
    (hN : 0 < s.m_ulNotificationsPerBuffer ∨ s.m_NotificationList = []) :
    ∃ r, TimerNotifyRT s now = some r ∧
      (s.m_ullLastDPCTimeStamp ≤ now → now < U64 →
        now - s.m_ullLastDPCTimeStamp + s.m_hnsDPCTimeCarryForward < U32 →
        s.m_ulNotificationIntervalMs
          ≤ (now - s.m_ullLastDPCTimeStamp + s.m_hnsDPCTimeCarryForward) / 10000 →
        s.m_ulNotificationIntervalMs * 10000
            ≤ now - s.m_ullLastDPCTimeStamp + s.m_hnsDPCTimeCarryForward ∧
          r.1.m_hnsDPCTimeCarryForward
            = now - s.m_ullLastDPCTimeStamp + s.m_hnsDPCTimeCarryForward
              - s.m_ulNotificationIntervalMs * 10000 ∧
          r.1.m_ullLastDPCTimeStamp = now) ∧
      (¬ s.m_ulNotificationIntervalMs ≤ timerElapsedInMS s now →
        r.1.m_ullLastDPCTimeStamp = s.m_ullLastDPCTimeStamp ∧
          r.1.m_hnsDPCTimeCarryForward = s.m_hnsDPCTimeCarryForward) := by
  have h0 : s.m_ulDmaBufferSize ≠ 0 := Nat.pos_iff_ne_zero.mp hB
  have hnot : ¬ s.m_ulNotificationIntervalMs ≤ timerElapsedInMS s now →
      s.m_ullLastDPCTimeStamp ≤ now → now < U64 →
      now - s.m_ullLastDPCTimeStamp + s.m_hnsDPCTimeCarryForward < U32 →
      s.m_ulNotificationIntervalMs
        ≤ (now - s.m_ullLastDPCTimeStamp + s.m_hnsDPCTimeCarryForward) / 10000 → False := by
    intro hT h1 h64 he hi
    apply hT
    have hsince : hnsSinceLastDPC s now
        = now - s.m_ullLastDPCTimeStamp + s.m_hnsDPCTimeCarryForward := by
      unfold hnsSinceLastDPC sub64
      unfold U64 U32 at *
      omega
    unfold timerElapsedInMS
    rw [hsince, Nat.mod_eq_of_lt he]
    exact hi
  rw [TimerNotifyRT_cases s now h0]
  by_cases hT : s.m_ulNotificationIntervalMs ≤ timerElapsedInMS s now
  · rw [if_pos hT]
    obtain ⟨r, hr⟩ :=
      completeTick_isSome (positionsAfter (recordBufferCompleted s now) now) true hN
    obtain ⟨_, _, _, _, _, _, _, _, _, hts, hcf, _⟩ := completeTick_props _ true r hr
    refine ⟨r, hr, ?_, fun h => absurd hT h⟩
    intro h1 h64 he hi
    have hle : s.m_ulNotificationIntervalMs * 10000
        ≤ now - s.m_ullLastDPCTimeStamp + s.m_hnsDPCTimeCarryForward := by
      have := Nat.div_mul_le_self
        (now - s.m_ullLastDPCTimeStamp + s.m_hnsDPCTimeCarryForward) 10000
      have h2 := Nat.mul_le_mul_right 10000 hi
      omega
    have hsince : hnsSinceLastDPC s now
        = now - s.m_ullLastDPCTimeStamp + s.m_hnsDPCTimeCarryForward := by
      unfold hnsSinceLastDPC sub64
      unfold U64 U32 at *
      omega
    refine ⟨hle, ?_, ?_⟩
    · rw [hcf]
      show sub64 (hnsSinceLastDPC s now) ((s.m_ulNotificationIntervalMs * 10000) % U32) = _
      rw [hsince]
      have hq : ∀ e q : Nat, e < U32 → q ≤ e → sub64 e (q % U32) = e - q := by
        intro e q h3 h4
        unfold sub64
        unfold U64 U32 at *
        omega
      exact hq _ _ he hle
    · rw [hts]
      show now % U64 = now
      exact Nat.mod_eq_of_lt h64
  · rw [if_neg hT]
    cases hE : s.m_bEoSReceived
    · exact ⟨(s, []), by simp, fun h1 h64 he hi => (hnot hT h1 h64 he hi).elim,
        fun _ => ⟨rfl, rfl⟩⟩
    · obtain ⟨r, hr⟩ := completeTick_isSome (positionsAfter s now) false hN
      obtain ⟨_, _, _, _, _, _, _, _, _, hts, hcf, _⟩ := completeTick_props _ false r hr
      exact ⟨r, by simp [hr], fun h1 h64 he hi => (hnot hT h1 h64 he hi).elim,
        fun _ => ⟨hts, hcf⟩⟩

/-- Witness of C29: the callback 5.33 ms after Run carries 0.33 ms to the next interval. -/
theorem TimerNotifyRT_carry_witness :
    0 < (streamRunning 32 1000000 10000000).m_ulDmaBufferSize ∧
    0 < (streamRunning 32 1000000 10000000).m_ulNotificationsPerBuffer ∧
    ∃ r, TimerNotifyRT (streamRunning 32 1000000 10000000) 1053300 = some r ∧
      r.1.m_hnsDPCTimeCarryForward = 3300 ∧ r.1.m_ullLastDPCTimeStamp = 1053300 := by
  obtain ⟨r, h1, h2, _⟩ :=
    TimerNotifyRT_carry (streamRunning 32 1000000 10000000) 1053300 (by decide)
      (Or.inl (by decide))
  obtain ⟨_, h3, h4⟩ := h2 (by decide) (by decide) (by decide) (by decide)
  exact ⟨by decide, by decide, r, h1, by rw [h3]; decide, h4⟩

/-- The transition to Pause out of Run, on a stream with a buffer: the position is updated
once and the time since the last qualifying timer callback is saved when the timer is in
use. -/
theorem SetState_pause_from_run (s : CMiniportWaveRTStream) (now freq : Nat)
    (hB : 0 < s.m_ulDmaBufferSize) (hS : s.m_KsState = KSSTATE_RUN) :
    ∃ s1, SetState s KSSTATE_PAUSE now freq = some (STATUS_SUCCESS, s1) ∧
      s1.m_KsState = KSSTATE_PAUSE ∧
      s1.m_llPacketCounter = s.m_llPacketCounter ∧ s1.m_bEoSReceived = s.m_bEoSReceived ∧
      s1.m_ulLastOsReadPacket = s.m_ulLastOsReadPacket ∧
      s1.m_ulLastOsWritePacket = s.m_ulLastOsWritePacket ∧
      s1.m_ulCurrentWritePosition = s.m_ulCurrentWritePosition ∧
      s1.m_ullPlayPosition = (positionsAfter s now).m_ullPlayPosition ∧
      s1.m_ullWritePosition = (positionsAfter s now).m_ullWritePosition ∧
      s1.m_ullLinearPosition = (positionsAfter s now).m_ullLinearPosition ∧
      s1.m_ullPresentationPosition = (positionsAfter s now).m_ullPresentationPosition ∧
      s1.m_bLastBufferRendered = (positionsAfter s now).m_bLastBufferRendered := by
  have h0 : s.m_ulDmaBufferSize ≠ 0 := Nat.pos_iff_ne_zero.mp hB
  have hG : ∀ x : CMiniportWaveRTStream, x.m_KsState = KSSTATE_RUN →
      x.m_ulDmaBufferSize ≠ 0 → GetPositions x now = some (positionsAfter x now) := by
    intro x hx hb
    unfold GetPositions UpdatePosition
    rw [if_pos hx, if_neg hb]
  by_cases hI : s.m_ulNotificationIntervalMs > 0
  · have hc : s.m_KsState.toNat > KSSTATE_PAUSE.toNat ∧ s.m_ulNotificationIntervalMs > 0 := by
      rw [hS]; exact ⟨by decide, hI⟩
    simp only [SetState]
    rw [if_pos hc, hG]
    · exact ⟨_, rfl, rfl, rfl, rfl, rfl, rfl, rfl, rfl, rfl, rfl, rfl, rfl⟩
    · exact hS
    · exact h0
  · have hc : ¬ (s.m_KsState.toNat > KSSTATE_PAUSE.toNat ∧ s.m_ulNotificationIntervalMs > 0) :=
      fun h => hI h.2
    simp only [SetState]
    rw [if_neg hc, hG]
    · exact ⟨_, rfl, rfl, rfl, rfl, rfl, rfl, rfl, rfl, rfl, rfl, rfl, rfl⟩
    · exact hS
    · exact h0

/-- The transition to Pause from a state other than Run changes the state only. -/
theorem SetState_pause_not_running (s : CMiniportWaveRTStream) (now freq : Nat)
    (hS : s.m_KsState ≠ KSSTATE_RUN) :
    SetState s KSSTATE_PAUSE now freq
      = some (STATUS_SUCCESS, { s with m_KsState := KSSTATE_PAUSE }) := by
  have hc : ¬ (s.m_KsState.toNat > KSSTATE_PAUSE.toNat ∧ s.m_ulNotificationIntervalMs > 0) := by
    intro h
    apply hS
    cases hk : s.m_KsState <;> rw [hk] at h <;> first | rfl | exact absurd h.1 (by decide)
  simp only [SetState]
  rw [if_neg hc]
  unfold GetPositions
  rw [if_neg hS]

/-- C30: in the build without sideband support, `SetState` returns success for every pair of
current state and requested state and ends with the stream state equal to the requested
state, also for transitions that skip states (the transition from Run to Pause updates the
position, which needs a buffer); only a request for Stop resets the position, packet and
end-of-stream fields: every other request keeps the packet counter, the end-of-stream flag,
the last OS packet numbers and the end-of-stream write position, Acquire, Run and a Pause
outside Run also keep the positions, and a Pause in Run moves the positions as
`UpdatePosition` does. -/
theorem SetState_any_transition (s : CMiniportWaveRTStream) (State_ : KSSTATE)
    (now freq : Nat)
    (h : 0 < s.m_ulDmaBufferSize ∨ s.m_KsState ≠ KSSTATE_RUN ∨ State_ ≠ KSSTATE_PAUSE) :
    ∃ s1, SetState s State_ now freq = some (STATUS_SUCCESS, s1) ∧ s1.m_KsState = State_ ∧
      (State_ ≠ KSSTATE_STOP →
        s1.m_llPacketCounter = s.m_llPacketCounter ∧ s1.m_bEoSReceived = s.m_bEoSReceived ∧
        s1.m_ulLastOsReadPacket = s.m_ulLastOsReadPacket ∧
        s1.m_ulLastOsWritePacket = s.m_ulLastOsWritePacket ∧
        s1.m_ulCurrentWritePosition = s.m_ulCurrentWritePosition) ∧
      (State_ ≠ KSSTATE_STOP → (State_ ≠ KSSTATE_PAUSE ∨ s.m_KsState ≠ KSSTATE_RUN) →
        s1.m_ullPlayPosition = s.m_ullPlayPosition ∧
        s1.m_ullWritePosition = s.m_ullWritePosition ∧
        s1.m_ullLinearPosition = s.m_ullLinearPosition ∧
        s1.m_ullPresentationPosition = s.m_ullPresentationPosition ∧
        s1.m_bLastBufferRendered = s.m_bLastBufferRendered) ∧
      (State_ = KSSTATE_PAUSE → s.m_KsState = KSSTATE_RUN →
        s1.m_ullPlayPosition = (positionsAfter s now).m_ullPlayPosition ∧
        s1.m_ullWritePosition = (positionsAfter s now).m_ullWritePosition ∧
        s1.m_ullLinearPosition = (positionsAfter s now).m_ullLinearPosition ∧
        s1.m_ullPresentationPosition = (positionsAfter s now).m_ullPresentationPosition ∧
        s1.m_bLastBufferRendered = (positionsAfter s now).m_bLastBufferRendered) ∧
      (State_ = KSSTATE_STOP →
        s1.m_llPacketCounter = 0 ∧ s1.m_ullPlayPosition = 0 ∧ s1.m_ullWritePosition = 0 ∧
        s1.m_ullLinearPosition = 0 ∧ s1.m_ullPresentationPosition = 0 ∧
        s1.m_ulCurrentWritePosition = 0 ∧ s1.m_bEoSReceived = false ∧
        s1.m_bLastBufferRendered = false ∧ s1.m_ulLastOsReadPacket = ULONG_MAX ∧
        s1.m_ulLastOsWritePacket = ULONG_MAX) := by
  cases State_ with
  | KSSTATE_STOP =>
    exact ⟨_, rfl, rfl, fun h1 => absurd rfl h1, fun h1 => absurd rfl h1,
      fun h1 => absurd h1 (by decide), fun _ => ⟨rfl, rfl, rfl, rfl, rfl, rfl, rfl, rfl, rfl, rfl⟩⟩
  | KSSTATE_ACQUIRE =>
    exact ⟨_, rfl, rfl, fun _ => ⟨rfl, rfl, rfl, rfl, rfl⟩, fun _ _ => ⟨rfl, rfl, rfl, rfl, rfl⟩,
      fun h1 => absurd h1 (by decide), fun h1 => absurd h1 (by decide)⟩
  | KSSTATE_RUN =>
    exact ⟨_, rfl, rfl, fun _ => ⟨rfl, rfl, rfl, rfl, rfl⟩, fun _ _ => ⟨rfl, rfl, rfl, rfl, rfl⟩,
      fun h1 => absurd h1 (by decide), fun h1 => absurd h1 (by decide)⟩
  | KSSTATE_PAUSE =>
    by_cases hS : s.m_KsState = KSSTATE_RUN
    · have hB : 0 < s.m_ulDmaBufferSize := by
        rcases h with h | h | h
        · exact h
        · exact absurd hS h
        · exact absurd rfl h
      obtain ⟨s1, h1, h2, h3, h4, h5, h6, h7, h8, h9, h10, h11, h12⟩ :=
        SetState_pause_from_run s now freq hB hS
      refine ⟨s1, h1, h2, fun _ => ⟨h3, h4, h5, h6, h7⟩, ?_, fun _ _ => ⟨h8, h9, h10, h11, h12⟩,
        fun h13 => absurd h13 (by decide)⟩
      intro _ h14
      rcases h14 with h14 | h14
      · exact absurd rfl h14
      · exact absurd hS h14
    · rw [SetState_pause_not_running s now freq hS]
      exact ⟨_, rfl, rfl, fun _ => ⟨rfl, rfl, rfl, rfl, rfl⟩,
        fun _ _ => ⟨rfl, rfl, rfl, rfl, rfl⟩, fun _ h15 => absurd h15 hS,
        fun h13 => absurd h13 (by decide)⟩

/-- Witness of C30: Stop directly to Run on a fresh stream, and Run directly to Stop on a
running stream with end of stream pending. -/
theorem SetState_any_transition_witness :
    (∃ s1, SetState streamFresh KSSTATE_RUN 1000000 10000000 = some (STATUS_SUCCESS, s1) ∧
        s1.m_KsState = KSSTATE_RUN) ∧
      (∃ s1, SetState streamEoSPending KSSTATE_STOP 420000 10000000
          = some (STATUS_SUCCESS, s1) ∧ s1.m_KsState = KSSTATE_STOP) := by
  obtain ⟨s1, h1, h2, _⟩ :=
    SetState_any_transition streamFresh KSSTATE_RUN 1000000 10000000 (Or.inl (by decide))
  obtain ⟨s2, h3, h4, _⟩ :=
    SetState_any_transition streamEoSPending KSSTATE_STOP 420000 10000000
      (Or.inl (by decide))
  exact ⟨⟨s1, h1, h2⟩, ⟨s2, h3, h4⟩⟩

end Sysvad

/-! ## Theorems: the aggregate effects-enable setting -/

namespace SwapAPO

/-- C6: `GetCurrentEffectsSetting` returns enabled (1) when both property reads succeed with
master-disable = `VT_UI4` 0, per-effect enable = `VT_UI4` 1 and mode Default; it returns 0
whenever the master-disable property reads as a non-zero `VT_UI4`, for every per-effect
value and every mode; and it returns 0 whenever the mode is Raw, for every value of the two
properties. -/
theorem GetCurrentEffectsSetting_combination (properties : IPropertyStore)
    (pkeyEnable : PROPERTYKEY) (processingMode : GUID) :
    (properties PKEY_AudioEndpoint_Disable_SysFx = some { vt := VT_UI4, ulVal := 0 } →
        properties pkeyEnable = some { vt := VT_UI4, ulVal := 1 } →
        processingMode = AUDIO_SIGNALPROCESSINGMODE_DEFAULT →
        GetCurrentEffectsSetting properties pkeyEnable processingMode = 1) ∧
      (∀ v, v ≠ 0 →
        properties PKEY_AudioEndpoint_Disable_SysFx = some { vt := VT_UI4, ulVal := v } →
        GetCurrentEffectsSetting properties pkeyEnable processingMode = 0) ∧
      (processingMode = AUDIO_SIGNALPROCESSINGMODE_RAW →
        GetCurrentEffectsSetting properties pkeyEnable processingMode = 0) := by
  refine ⟨?_, ?_, ?_⟩
  · intro h1 h2 h3
    unfold GetCurrentEffectsSetting
    rw [h1, h2, h3]
    decide
  · intro v hv h1
    unfold GetCurrentEffectsSetting
    rw [h1]
    simp [hv]
  · intro h3
    unfold GetCurrentEffectsSetting
    rw [h3]
    simp

/-- Witness of C6: stores with master-disable 0 or 1 and per-effect enable 1. -/
theorem GetCurrentEffectsSetting_combination_witness :
    GetCurrentEffectsSetting (storeWith 0 1) effectKey AUDIO_SIGNALPROCESSINGMODE_DEFAULT = 1 ∧
      GetCurrentEffectsSetting (storeWith 1 1) effectKey AUDIO_SIGNALPROCESSINGMODE_DEFAULT = 0 ∧
      GetCurrentEffectsSetting (storeWith 0 1) effectKey AUDIO_SIGNALPROCESSINGMODE_RAW = 0 :=
  ⟨(GetCurrentEffectsSetting_combination (storeWith 0 1) effectKey
      AUDIO_SIGNALPROCESSINGMODE_DEFAULT).1 (by decide) (by decide) rfl,
    (GetCurrentEffectsSetting_combination (storeWith 1 1) effectKey
      AUDIO_SIGNALPROCESSINGMODE_DEFAULT).2.1 1 (by decide) (by decide),
    (GetCurrentEffectsSetting_combination (storeWith 0 1) effectKey
      AUDIO_SIGNALPROCESSINGMODE_RAW).2.2 rfl⟩

/-! ## Theorems: the processing entry point and the property notification -/

/-- C14: for every `APOProcess` call (`CSwapAPOMFX` and `CSwapAPOSFX`) whose first input
connection is flagged Valid or Silent, on return the first output connection has the valid
frame count and the buffer flag of the input connection (and the buffer address it had); when
the input flag is Invalid or any undefined value, the call changes neither the output
connection nor the sample memory. -/
theorem APOProcess_flags (mfx : CSwapAPOMFX) (sfx : CSwapAPOSFX) (mem : SampleMemory)
    (input : APO_CONNECTION_PROPERTY) (u32NumOutputConnections : Nat)
    (output : APO_CONNECTION_PROPERTY) :
    (input.u32BufferFlags = BUFFER_VALID ∨ input.u32BufferFlags = BUFFER_SILENT →
        (mfx.APOProcess mem input u32NumOutputConnections output).2
            = { output with
                u32BufferFlags := input.u32BufferFlags
                u32ValidFrameCount := input.u32ValidFrameCount } ∧
          (sfx.APOProcess mem input u32NumOutputConnections output).2
            = { output with
                u32BufferFlags := input.u32BufferFlags
                u32ValidFrameCount := input.u32ValidFrameCount }) ∧
      (input.u32BufferFlags ≠ BUFFER_VALID ∧ input.u32BufferFlags ≠ BUFFER_SILENT →
        mfx.APOProcess mem input u32NumOutputConnections output = (mem, output) ∧
          sfx.APOProcess mem input u32NumOutputConnections output = (mem, output)) := by
  constructor
  · intro h
    have h0 : input.u32BufferFlags ≠ BUFFER_INVALID := by
      rcases h with h | h <;> rw [h] <;> decide
    unfold CSwapAPOMFX.APOProcess CSwapAPOSFX.APOProcess
    rw [if_neg h0, if_pos h, if_neg h0, if_pos h]
    exact ⟨rfl, rfl⟩
  · intro h
    have h1 : ¬ (input.u32BufferFlags = BUFFER_VALID ∨ input.u32BufferFlags = BUFFER_SILENT) :=
      fun h2 => h2.elim h.1 h.2
    unfold CSwapAPOMFX.APOProcess CSwapAPOSFX.APOProcess
    rw [if_neg h1]
    constructor <;> split_ifs <;> rfl

/-- Witness of C14: a silent input of 3 frames in place, and an input with the undefined
flag 7. -/
theorem APOProcess_flags_witness :
    (mfxEnabled.APOProcess rampMemory inputSilent 1 outputInPlace).2
      = { outputInPlace with u32BufferFlags := BUFFER_SILENT, u32ValidFrameCount := 3 } ∧
    sfxEnabled.APOProcess rampMemory inputUndefined 1 outputElsewhere
      = (rampMemory, outputElsewhere) :=
  ⟨((APOProcess_flags mfxEnabled sfxEnabled rampMemory inputSilent 1 outputInPlace).1
      (Or.inr rfl)).1,
    ((APOProcess_flags mfxEnabled sfxEnabled rampMemory inputUndefined 1 outputElsewhere).2
      ⟨by decide, by decide⟩).2⟩

/-- A failed read of the master-disable property or of the enable property makes the
setting 0. -/
theorem GetCurrentEffectsSetting_read_fails (properties : IPropertyStore)
    (pkeyEnable : PROPERTYKEY) (processingMode : GUID)
    (h : properties PKEY_AudioEndpoint_Disable_SysFx = none ∨ properties pkeyEnable = none) :
    GetCurrentEffectsSetting properties pkeyEnable processingMode = 0 := by
  unfold GetCurrentEffectsSetting
  rcases h with h | h
  · rw [h]; simp
  · rw [h]; simp

/-- C15, as stated, fails: with the enable flag cached as 1 and a property store whose reads
fail, `OnPropertyValueChanged` for the master-disable key sets the flag to 0 (and signals the
effects-changed event), on `CSwapAPOMFX` and on `CSwapAPOSFX`. -/
theorem OnPropertyValueChanged_failed_read_disables :
    mfxEnabled.m_fEnableSwapMFX = 1 ∧ sfxEnabled.m_fEnableSwapSFX = 1 ∧
      storeFailing PKEY_AudioEndpoint_Disable_SysFx = none ∧
      ((CSwapAPOMFX.OnPropertyValueChanged effectKey mfxEnabled
          PKEY_AudioEndpoint_Disable_SysFx).1.m_fEnableSwapMFX,
        (CSwapAPOMFX.OnPropertyValueChanged effectKey mfxEnabled
          PKEY_AudioEndpoint_Disable_SysFx).2) = (0, true) ∧
      ((CSwapAPOSFX.OnPropertyValueChanged effectKey sfxEnabled
          PKEY_AudioEndpoint_Disable_SysFx).1.m_fEnableSwapSFX,
        (CSwapAPOSFX.OnPropertyValueChanged effectKey sfxEnabled
          PKEY_AudioEndpoint_Disable_SysFx).2) = (0, true) := by
  refine ⟨by decide, by decide, by decide, by decide, by decide⟩

/-- C15 (amended): when `OnPropertyValueChanged` recomputes the effect-enable flag (the
property store is present and the key is the enable key of the effect or the master-disable
key) and a property read fails (`IPropertyStore::GetValue` returns a failure for the
master-disable key or for the enable key), the cached flag (`m_fEnableSwapMFX`,
`m_fEnableSwapSFX`) is 0 after the call, whatever it was before, and the effects-changed
event is signalled exactly when the flag was not 0 and the event handle exists; the flag
keeps its value when the property store is absent or the key is another key. -/
theorem OnPropertyValueChanged_read_fails (pkeyMFX pkeySFX : PROPERTYKEY) (mfx : CSwapAPOMFX)
    (sfx : CSwapAPOSFX) (key : PROPERTYKEY) (properties : IPropertyStore) :
    (mfx.m_spAPOSystemEffectsProperties = some properties →
        key = pkeyMFX ∨ key = PKEY_AudioEndpoint_Disable_SysFx →
        properties PKEY_AudioEndpoint_Disable_SysFx = none ∨ properties pkeyMFX = none →
        CSwapAPOMFX.OnPropertyValueChanged pkeyMFX mfx key
          = ({ mfx with m_fEnableSwapMFX := 0 },
              decide (mfx.m_fEnableSwapMFX ≠ 0) && mfx.m_hEffectsChangedEvent.isSome)) ∧
      (sfx.m_spAPOSystemEffectsProperties = some properties →
        key = pkeySFX ∨ key = PKEY_AudioEndpoint_Disable_SysFx →
        properties PKEY_AudioEndpoint_Disable_SysFx = none ∨ properties pkeySFX = none →
        CSwapAPOSFX.OnPropertyValueChanged pkeySFX sfx key
          = ({ sfx with m_fEnableSwapSFX := 0 },
              decide (sfx.m_fEnableSwapSFX ≠ 0) && sfx.m_hEffectsChangedEvent.isSome)) ∧
      (mfx.m_spAPOSystemEffectsProperties = none
          ∨ (key ≠ pkeyMFX ∧ key ≠ PKEY_AudioEndpoint_Disable_SysFx) →
        CSwapAPOMFX.OnPropertyValueChanged pkeyMFX mfx key = (mfx, false)) ∧
      (sfx.m_spAPOSystemEffectsProperties = none
          ∨ (key ≠ pkeySFX ∧ key ≠ PKEY_AudioEndpoint_Disable_SysFx) →
        CSwapAPOSFX.OnPropertyValueChanged pkeySFX sfx key = (sfx, false)) := by
  refine ⟨?_, ?_, ?_, ?_⟩
  · intro hs hk hf
    unfold CSwapAPOMFX.OnPropertyValueChanged
    rw [hs]
    simp only [if_pos hk, GetCurrentEffectsSetting_read_fails properties pkeyMFX _ hf]
    by_cases h0 : mfx.m_fEnableSwapMFX = 0
    · simp [h0]
    · have h1 : (0 : Int) ≠ mfx.m_fEnableSwapMFX := fun h => h0 h.symm
      simp [h0, h1]
  · intro hs hk hf
    unfold CSwapAPOSFX.OnPropertyValueChanged
    rw [hs]
    simp only [if_pos hk, GetCurrentEffectsSetting_read_fails properties pkeySFX _ hf]
    by_cases h0 : sfx.m_fEnableSwapSFX = 0
    · simp [h0]
    · have h1 : (0 : Int) ≠ sfx.m_fEnableSwapSFX := fun h => h0 h.symm
      simp [h0, h1]
  · intro h
    unfold CSwapAPOMFX.OnPropertyValueChanged
    rcases h with h | h
    · rw [h]
    · have hk : ¬ (key = pkeyMFX ∨ key = PKEY_AudioEndpoint_Disable_SysFx) :=
        fun h2 => h2.elim h.1 h.2
      cases hs : mfx.m_spAPOSystemEffectsProperties with
      | none => rfl
      | some p => simp only [if_neg hk]
  · intro h
    unfold CSwapAPOSFX.OnPropertyValueChanged
    rcases h with h | h
    · rw [h]
    · have hk : ¬ (key = pkeySFX ∨ key = PKEY_AudioEndpoint_Disable_SysFx) :=
        fun h2 => h2.elim h.1 h.2
      cases hs : sfx.m_spAPOSystemEffectsProperties with
      | none => rfl
      | some p => simp only [if_neg hk]

/-- The sample that an in-place `ProcessSwap` leaves at an address. -/
theorem ProcessSwap_apply (mem : SampleMemory) (p frames spf a : Nat) :
    ProcessSwap mem p p frames spf a =
      if p ≤ a ∧ a < p + frames * spf then
        if (a - p) % spf = 0 then mem (p + (a - p) + 1)
        else if (a - p) % spf = 1 then mem (p + (a - p) - 1)
        else mem (p + (a - p))
      else mem a := rfl

/-- The first channel of a frame is followed, within the frame, by the second. -/
theorem next_channel (i frames spf : Nat) (h : 1 < spf) (hi : i < frames * spf)
    (h0 : i % spf = 0) : i + 1 < frames * spf ∧ (i + 1) % spf = 1 := by
  have hq : i / spf < frames := Nat.div_lt_of_lt_mul (by rw [Nat.mul_comm]; exact hi)
  have hd := Nat.div_add_mod i spf
  have hm : spf * (i / spf + 1) ≤ spf * frames := Nat.mul_le_mul_left spf hq
  have hc : spf * frames = frames * spf := Nat.mul_comm _ _
  have he : spf * (i / spf + 1) = spf * (i / spf) + spf := by
    rw [Nat.mul_add, Nat.mul_one]
  refine ⟨by omega, ?_⟩
  rw [Nat.add_mod, h0, Nat.zero_add, Nat.mod_mod, Nat.mod_eq_of_lt h]

/-- The second channel of a frame is preceded by the first. -/
theorem previous_channel (i spf : Nat) (h1 : i % spf = 1) : 1 ≤ i ∧ (i - 1) % spf = 0 := by
  have hd := Nat.div_add_mod i spf
  have hi : 1 ≤ i := by
    rcases Nat.eq_zero_or_pos i with h | h
    · rw [h, Nat.zero_mod] at h1; exact absurd h1 (by decide)
    · exact h
  refine ⟨hi, ?_⟩
  have he : i - 1 = spf * (i / spf) := by omega
  rw [he, Nat.mul_mod_right]

/-- An in-place `ProcessSwap` on frames of more than one channel, applied twice, restores the
sample memory. -/
theorem ProcessSwap_twice (mem : SampleMemory) (p frames spf : Nat) (h : 1 < spf) :
    ProcessSwap (ProcessSwap mem p p frames spf) p p frames spf = mem := by
  funext a
  rw [ProcessSwap_apply]
  by_cases hr : p ≤ a ∧ a < p + frames * spf
  · rw [if_pos hr]
    have hi : a - p < frames * spf := by omega
    by_cases c0 : (a - p) % spf = 0
    · obtain ⟨hn, hm⟩ := next_channel (a - p) frames spf h hi c0
      have e1 : p + (a - p) + 1 - p = a - p + 1 := by omega
      have hr1 : p ≤ p + (a - p) + 1 ∧ p + (a - p) + 1 < p + frames * spf := by omega
      have c0n : ¬ (p + (a - p) + 1 - p) % spf = 0 := by rw [e1, hm]; decide
      have c1n : (p + (a - p) + 1 - p) % spf = 1 := by rw [e1, hm]
      rw [if_pos c0, ProcessSwap_apply, if_pos hr1, if_neg c0n, if_pos c1n]
      congr 1; omega
    · rw [if_neg c0]
      by_cases c1 : (a - p) % spf = 1
      · obtain ⟨hp, hm⟩ := previous_channel (a - p) spf c1
        have e1 : p + (a - p) - 1 - p = a - p - 1 := by omega
        have hr1 : p ≤ p + (a - p) - 1 ∧ p + (a - p) - 1 < p + frames * spf := by omega
        have c0p : (p + (a - p) - 1 - p) % spf = 0 := by rw [e1, hm]
        rw [if_pos c1, ProcessSwap_apply, if_pos hr1, if_pos c0p]
        congr 1; omega
      · have e1 : p + (a - p) = a := by omega
        rw [if_neg c1, e1, ProcessSwap_apply, if_pos hr, if_neg c0, if_neg c1, e1]
  · rw [if_neg hr, ProcessSwap_apply, if_neg hr]

/-- With all coefficients 1.0, `ProcessSwapScale` is `ProcessSwap`. -/
theorem ProcessSwapScale_unit (mem : SampleMemory) (pOut pIn frames spf : Nat)
    (coef : Nat → FLOAT32) (hc : ∀ ch, coef ch = 1) :
    ProcessSwapScale mem pOut pIn frames spf coef = ProcessSwap mem pOut pIn frames spf := by
  funext a
  unfold ProcessSwapScale
  by_cases hr : pOut ≤ a ∧ a < pOut + frames * spf
  · rw [if_pos hr, hc, mul_one]
  · rw [if_neg hr]
    unfold ProcessSwap
    rw [if_neg hr]

/-- C17: with all gain coefficients equal to 1.0, the channel-swap transform applied in
place twice to the same buffer restores the original content exactly, for every frame count
and every channel count greater than 1: `ProcessSwap`, `ProcessSwapScale`, and an `APOProcess`
call (of `CSwapAPOMFX` and of `CSwapAPOSFX`) with a Valid input connection whose buffer is
also the output buffer, whether or not the effect is enabled. -/
theorem channel_swap_twice (mem : SampleMemory) (p frames spf : Nat) (coef : Nat → FLOAT32)
    (mfx : CSwapAPOMFX) (sfx : CSwapAPOSFX) (n : Nat) (input output : APO_CONNECTION_PROPERTY)
    (h : 1 < spf) (hc : ∀ ch, coef ch = 1) :
    ProcessSwap (ProcessSwap mem p p frames spf) p p frames spf = mem ∧
      ProcessSwapScale (ProcessSwapScale mem p p frames spf coef) p p frames spf coef = mem ∧
      (mfx.m_u32SamplesPerFrame = spf → mfx.m_pf32Coefficients = coef →
        input.u32BufferFlags = BUFFER_VALID → output.pBuffer = input.pBuffer →
        (mfx.APOProcess (mfx.APOProcess mem input n output).1 input n output).1 = mem) ∧
      (sfx.m_u32SamplesPerFrame = spf →
        input.u32BufferFlags = BUFFER_VALID → output.pBuffer = input.pBuffer →
        (sfx.APOProcess (sfx.APOProcess mem input n output).1 input n output).1 = mem) := by
  have hS := ProcessSwap_twice mem p frames spf h
  have hSS : ∀ (m : SampleMemory) (q f : Nat),
      ProcessSwapScale (ProcessSwapScale m q q f spf coef) q q f spf coef = m := by
    intro m q f
    rw [ProcessSwapScale_unit _ _ _ _ _ coef hc, ProcessSwapScale_unit _ _ _ _ _ coef hc]
    exact ProcessSwap_twice m q f spf h
  refine ⟨hS, hSS mem p frames, ?_, ?_⟩
  · intro hspf hcoef hv hp
    have h0 : input.u32BufferFlags ≠ BUFFER_INVALID := by rw [hv]; decide
    have h2 : ¬ BUFFER_SILENT = input.u32BufferFlags := by rw [hv]; decide
    have h3 : ¬ (0 ≠ n ∧ output.pBuffer ≠ input.pBuffer) := fun h4 => h4.2 hp
    have key : ∀ m : SampleMemory, (mfx.APOProcess m input n output).1 =
        if mfx.m_AudioProcessingMode ≠ AUDIO_SIGNALPROCESSINGMODE_RAW
            ∧ mfx.m_fEnableSwapMFX ≠ 0 ∧ 1 < mfx.m_u32SamplesPerFrame then
          ProcessSwapScale m input.pBuffer input.pBuffer input.u32ValidFrameCount spf coef
        else m := by
      intro m
      unfold CSwapAPOMFX.APOProcess
      rw [if_neg h0, if_pos (Or.inl hv)]
      simp only [if_neg h2, if_neg h3, hspf, hcoef]
    rw [key, key]
    split_ifs
    · exact hSS mem _ _
    · rfl
  · intro hspf hv hp
    have h0 : input.u32BufferFlags ≠ BUFFER_INVALID := by rw [hv]; decide
    have h2 : ¬ BUFFER_SILENT = input.u32BufferFlags := by rw [hv]; decide
    have h3 : ¬ (0 ≠ n ∧ output.pBuffer ≠ input.pBuffer) := fun h4 => h4.2 hp
    have key : ∀ m : SampleMemory, (sfx.APOProcess m input n output).1 =
        if sfx.m_AudioProcessingMode ≠ AUDIO_SIGNALPROCESSINGMODE_RAW
            ∧ sfx.m_fEnableSwapSFX ≠ 0 then
          ProcessSwap m input.pBuffer input.pBuffer input.u32ValidFrameCount spf
        else m := by
      intro m
      unfold CSwapAPOSFX.APOProcess
      rw [if_neg h0, if_pos (Or.inl hv)]
      simp only [if_neg h2, if_neg h3, hspf]
    rw [key, key]
    split_ifs
    · exact ProcessSwap_twice mem _ _ spf h
    · rfl

/-- Witness of C17: 3 stereo frames at address 16, swapped twice. -/
theorem channel_swap_twice_witness :
    (1 : Nat) < 2 ∧
      ProcessSwap (ProcessSwap rampMemory 16 16 3 2) 16 16 3 2 = rampMemory ∧
      ProcessSwapScale (ProcessSwapScale rampMemory 16 16 3 2 mfxEnabled.m_pf32Coefficients)
        16 16 3 2 mfxEnabled.m_pf32Coefficients = rampMemory :=
  ⟨by decide,
    (channel_swap_twice rampMemory 16 3 2 mfxEnabled.m_pf32Coefficients mfxEnabled sfxEnabled 1
      inputValid outputInPlace (by decide) (fun _ => rfl)).1,
    (channel_swap_twice rampMemory 16 3 2 mfxEnabled.m_pf32Coefficients mfxEnabled sfxEnabled 1
      inputValid outputInPlace (by decide) (fun _ => rfl)).2.1⟩

/-- Witness of C15 (amended): a failing store with the flag cached as 1 and an event handle. -/
theorem OnPropertyValueChanged_read_fails_witness :
    (CSwapAPOMFX.OnPropertyValueChanged effectKey mfxEnabled
        PKEY_AudioEndpoint_Disable_SysFx).1.m_fEnableSwapMFX = 0 := by
  rw [(OnPropertyValueChanged_read_fails effectKey effectKey mfxEnabled sfxEnabled
    PKEY_AudioEndpoint_Disable_SysFx storeFailing).1 rfl (Or.inr rfl) (Or.inl rfl)]

/-! ## Theorems: notifications and the calls made by the processing -/

/-- `SetAudioSystemEffectState` leaves the object as it is. -/
theorem SetAudioSystemEffectState_object (this : CSwapAPOMFX) (effectId : GUID) (state : Nat) :
    (this.SetAudioSystemEffectState effectId state).2.1 = this := by
  unfold CSwapAPOMFX.SetAudioSystemEffectState
  cases this.m_effectInfos.find? (fun effectInfo => effectId == effectInfo.id) <;> rfl

/-- `HandleNotification` leaves the members of the object as they are, whatever the
notification. -/
theorem HandleNotification_object (pkey : PROPERTYKEY) (this : CSwapAPOMFX)
    (n : APO_NOTIFICATION) (r : CSwapAPOMFX × Bool)
    (h : CSwapAPOMFX.HandleNotification pkey this n = some r) : r.1 = this := by
  unfold CSwapAPOMFX.HandleNotification at h
  cases n with
  | endpointPropertyChange key =>
    simp only at h
    split_ifs at h
    · cases hu : this.m_userStore with
      | none => rw [hu] at h; simp at h
      | some store =>
        cases he : this.m_effectInfos with
        | nil => rw [hu, he] at h; simp at h
        | cons e0 rest =>
          rw [hu, he] at h
          simp only [Option.some.injEq] at h
          rw [← h]
          exact SetAudioSystemEffectState_object this _ _
    · simp only [Option.some.injEq] at h
      rw [← h]
  | audioEnvironmentStateChange =>
    simp only [Option.some.injEq] at h
    rw [← h]
  | other =>
    simp only [Option.some.injEq] at h
    rw [← h]

/-- C21 fails on the code: on `mfxStale` the recomputed combination
`GetCurrentEffectsSetting (userStore, enableKey, mode)` is 1, but after `HandleNotification`
of a property change of the enable key the state stored for the effect in `m_effectInfos`,
the state that `GetControllableSystemEffectsList` reports and the flag `m_fEnableSwapMFX`
that `APOProcess` reads are all still 0; the call signals the effects-changed event, and a
second identical notification signals it again. -/
theorem HandleNotification_cache_not_updated :
    GetCurrentEffectsSetting (storeWith 0 1) effectKey mfxStale.m_AudioProcessingMode = 1 ∧
    (CSwapAPOMFX.HandleNotification effectKey mfxStale
        (APO_NOTIFICATION.endpointPropertyChange effectKey)).map
        (fun r => (r.1.m_effectInfos.map (fun e => e.state), r.1.m_fEnableSwapMFX, r.2,
          (r.1.GetControllableSystemEffectsList none none 0 true).2.2.map (fun e => e.state)))
      = some ([0], 0, true, [0]) ∧
    ((CSwapAPOMFX.HandleNotification effectKey mfxStale
        (APO_NOTIFICATION.endpointPropertyChange effectKey)).bind
        (fun r => CSwapAPOMFX.HandleNotification effectKey r.1
          (APO_NOTIFICATION.endpointPropertyChange effectKey))).map
        (fun r => (r.1.m_effectInfos.map (fun e => e.state), r.1.m_fEnableSwapMFX, r.2))
      = some ([0], 0, true) := by
  refine ⟨by decide, by decide, by decide⟩

/-- C24: `OnPropertyValueChanged` (of `CSwapAPOMFX` and of `CSwapAPOSFX`), when the legacy
effects property store is present and the changed key is the enable key of the effect or the
master-disable key, sets the cached enable flag to
`GetCurrentEffectsSetting (store, enableKey, mode)` and signals the effects-changed event
(once) exactly if that value differs from the previous flag and an event handle is
registered; for any other key, or when no store is present, it changes no state and signals
nothing; it always returns `S_OK`. -/
theorem OnPropertyValueChanged_recomputes (pkeyMFX pkeySFX : PROPERTYKEY) (mfx : CSwapAPOMFX)
    (sfx : CSwapAPOSFX) (key : PROPERTYKEY) :
    (∀ properties, mfx.m_spAPOSystemEffectsProperties = some properties →
        key = pkeyMFX ∨ key = PKEY_AudioEndpoint_Disable_SysFx →
        CSwapAPOMFX.OnPropertyValueChanged pkeyMFX mfx key
          = ({ mfx with
                m_fEnableSwapMFX :=
                  GetCurrentEffectsSetting properties pkeyMFX mfx.m_AudioProcessingMode },
              decide (GetCurrentEffectsSetting properties pkeyMFX mfx.m_AudioProcessingMode
                  ≠ mfx.m_fEnableSwapMFX) && mfx.m_hEffectsChangedEvent.isSome)) ∧
      (∀ properties, sfx.m_spAPOSystemEffectsProperties = some properties →
        key = pkeySFX ∨ key = PKEY_AudioEndpoint_Disable_SysFx →
        CSwapAPOSFX.OnPropertyValueChanged pkeySFX sfx key
          = ({ sfx with
                m_fEnableSwapSFX :=
                  GetCurrentEffectsSetting properties pkeySFX sfx.m_AudioProcessingMode },
              decide (GetCurrentEffectsSetting properties pkeySFX sfx.m_AudioProcessingMode
                  ≠ sfx.m_fEnableSwapSFX) && sfx.m_hEffectsChangedEvent.isSome)) ∧
      (mfx.m_spAPOSystemEffectsProperties = none
          ∨ (key ≠ pkeyMFX ∧ key ≠ PKEY_AudioEndpoint_Disable_SysFx) →
        CSwapAPOMFX.OnPropertyValueChanged pkeyMFX mfx key = (mfx, false)) ∧
      (sfx.m_spAPOSystemEffectsProperties = none
          ∨ (key ≠ pkeySFX ∧ key ≠ PKEY_AudioEndpoint_Disable_SysFx) →
        CSwapAPOSFX.OnPropertyValueChanged pkeySFX sfx key = (sfx, false)) ∧
      CSwapAPOMFX.OnPropertyValueChanged_hr pkeyMFX mfx key = S_OK ∧
      CSwapAPOSFX.OnPropertyValueChanged_hr pkeySFX sfx key = S_OK := by
  refine ⟨?_, ?_, ?_, ?_, ?_, ?_⟩
  · intro properties hs hk
    unfold CSwapAPOMFX.OnPropertyValueChanged
    rw [hs]
    simp only [if_pos hk]
    congr 1
    by_cases h0 : GetCurrentEffectsSetting properties pkeyMFX mfx.m_AudioProcessingMode
        = mfx.m_fEnableSwapMFX <;> simp [h0]
  · intro properties hs hk
    unfold CSwapAPOSFX.OnPropertyValueChanged
    rw [hs]
    simp only [if_pos hk]
    congr 1
    by_cases h0 : GetCurrentEffectsSetting properties pkeySFX sfx.m_AudioProcessingMode
        = sfx.m_fEnableSwapSFX <;> simp [h0]
  · intro h
    unfold CSwapAPOMFX.OnPropertyValueChanged
    rcases h with h | h
    · rw [h]
    · have hk : ¬ (key = pkeyMFX ∨ key = PKEY_AudioEndpoint_Disable_SysFx) :=
        fun h2 => h2.elim h.1 h.2
      cases hs : mfx.m_spAPOSystemEffectsProperties with
      | none => rfl
      | some p => simp only [if_neg hk]
  · intro h
    unfold CSwapAPOSFX.OnPropertyValueChanged
    rcases h with h | h
    · rw [h]
    · have hk : ¬ (key = pkeySFX ∨ key = PKEY_AudioEndpoint_Disable_SysFx) :=
        fun h2 => h2.elim h.1 h.2
      cases hs : sfx.m_spAPOSystemEffectsProperties with
      | none => rfl
      | some p => simp only [if_neg hk]
  · unfold CSwapAPOMFX.OnPropertyValueChanged_hr
    cases mfx.m_spAPOSystemEffectsProperties with
    | none => rfl
    | some p => simp only; split_ifs <;> rfl
  · unfold CSwapAPOSFX.OnPropertyValueChanged_hr
    cases sfx.m_spAPOSystemEffectsProperties with
    | none => rfl
    | some p => simp only; split_ifs <;> rfl

/-- Witness of C24: with the flag cached as 0 and a store with master-disable 0 and enable 1,
the notification of the enable key sets the flag to 1 and signals the event. -/
theorem OnPropertyValueChanged_recomputes_witness :
    ((CSwapAPOMFX.OnPropertyValueChanged effectKey mfxLegacy effectKey).1.m_fEnableSwapMFX,
        (CSwapAPOMFX.OnPropertyValueChanged effectKey mfxLegacy effectKey).2) = (1, true) := by
  rw [(OnPropertyValueChanged_recomputes effectKey effectKey mfxLegacy sfxEnabled effectKey).1
    (storeWith 0 1) rfl (Or.inl rfl)]
  decide

/-- The calls of `CSwapAPOMFX::APOProcess` on a Valid or Silent input, and the sample memory
they leave. -/
theorem CSwapAPOMFX_calls (mfx : CSwapAPOMFX) (mem : SampleMemory)
    (input : APO_CONNECTION_PROPERTY) (n : Nat) (output : APO_CONNECTION_PROPERTY)
    (hv : input.u32BufferFlags = BUFFER_VALID ∨ input.u32BufferFlags = BUFFER_SILENT) :
    mfx.APOProcess_calls input n output =
        (if BUFFER_SILENT = input.u32BufferFlags then
          [SampleCall.writeSilence input.pBuffer input.u32ValidFrameCount
            mfx.m_u32SamplesPerFrame] else [])
        ++ (if mfx.m_AudioProcessingMode ≠ AUDIO_SIGNALPROCESSINGMODE_RAW
              ∧ mfx.m_fEnableSwapMFX ≠ 0 ∧ 1 < mfx.m_u32SamplesPerFrame then
            [SampleCall.processSwapScale input.pBuffer input.pBuffer input.u32ValidFrameCount
              mfx.m_u32SamplesPerFrame] else [])
        ++ (if 0 ≠ n ∧ output.pBuffer ≠ input.pBuffer then
            [SampleCall.copyFrames output.pBuffer input.pBuffer input.u32ValidFrameCount
              mfx.m_u32SamplesPerFrame] else []) ∧
      (mfx.APOProcess mem input n output).1
        = (mfx.APOProcess_calls input n output).foldl
            (SampleCall.run mfx.m_pf32Coefficients) mem := by
  have h0 : input.u32BufferFlags ≠ BUFFER_INVALID := by
    rcases hv with h | h <;> rw [h] <;> decide
  unfold CSwapAPOMFX.APOProcess_calls CSwapAPOMFX.APOProcess
  rw [if_neg h0, if_pos hv, if_neg h0, if_pos hv]
  simp only
  split_ifs <;>
    simp only [List.append_nil, List.nil_append, List.cons_append, List.foldl_cons,
      List.foldl_nil, SampleCall.run, and_self]

/-- The calls of `CSwapAPOSFX::APOProcess` on a Valid or Silent input, and the sample memory
they leave. -/
theorem CSwapAPOSFX_calls (sfx : CSwapAPOSFX) (coef : Nat → FLOAT32) (mem : SampleMemory)
    (input : APO_CONNECTION_PROPERTY) (n : Nat) (output : APO_CONNECTION_PROPERTY)
    (hv : input.u32BufferFlags = BUFFER_VALID ∨ input.u32BufferFlags = BUFFER_SILENT) :
    sfx.APOProcess_calls input n output =
        (if BUFFER_SILENT = input.u32BufferFlags then
          [SampleCall.writeSilence input.pBuffer input.u32ValidFrameCount
            sfx.m_u32SamplesPerFrame] else [])
        ++ (if sfx.m_AudioProcessingMode ≠ AUDIO_SIGNALPROCESSINGMODE_RAW
              ∧ sfx.m_fEnableSwapSFX ≠ 0 then
            [SampleCall.processSwap input.pBuffer input.pBuffer input.u32ValidFrameCount
              sfx.m_u32SamplesPerFrame] else [])
        ++ (if 0 ≠ n ∧ output.pBuffer ≠ input.pBuffer then
            [SampleCall.copyFrames output.pBuffer input.pBuffer input.u32ValidFrameCount
              sfx.m_u32SamplesPerFrame] else []) ∧
      (sfx.APOProcess mem input n output).1
        = (sfx.APOProcess_calls input n output).foldl (SampleCall.run coef) mem := by
  have h0 : input.u32BufferFlags ≠ BUFFER_INVALID := by
    rcases hv with h | h <;> rw [h] <;> decide
  unfold CSwapAPOSFX.APOProcess_calls CSwapAPOSFX.APOProcess
  rw [if_neg h0, if_pos hv, if_neg h0, if_pos hv]
  simp only
  split_ifs <;>
    simp only [List.append_nil, List.nil_append, List.cons_append, List.foldl_cons,
      List.foldl_nil, SampleCall.run, and_self]

/-- Which calls a list of the three optional calls holds. -/
theorem optional_calls (a b c : SampleCall) (p q r : Prop) [Decidable p] [Decidable q]
    [Decidable r] (hab : a ≠ b) (hac : a ≠ c) (hbc : b ≠ c) :
    (a ∈ (if p then [a] else []) ++ (if q then [b] else []) ++ (if r then [c] else []) ↔ p) ∧
      (b ∈ (if p then [a] else []) ++ (if q then [b] else []) ++ (if r then [c] else []) ↔ q) ∧
      (c ∈ (if p then [a] else []) ++ (if q then [b] else []) ++ (if r then [c] else []) ↔ r) ∧
      (p → ((if p then [a] else []) ++ (if q then [b] else [])
        ++ (if r then [c] else [])).head? = some a) ∧
      ((if p then [a] else []) ++ (if q then [b] else []) ++ (if r then [c] else [])).length
        ≤ 3 := by
  have hba : b ≠ a := fun h => hab h.symm
  have hca : c ≠ a := fun h => hac h.symm
  have hcb : c ≠ b := fun h => hbc h.symm
  by_cases hp : p <;> by_cases hq : q <;> by_cases hr : r <;>
    simp [hp, hq, hr, hab, hac, hbc, hba, hca, hcb]

/-- C25: in `APOProcess` with a Valid or Silent input, `CSwapAPOMFX` invokes the in-place
swap-and-scale on the input buffer if and only if the processing mode is not Raw, the cached
enable flag is set and the channel count exceeds 1; `CSwapAPOSFX` invokes the in-place swap
if and only if the mode is not Raw and its enable flag is set; a Silent input, and only a
Silent input, is first overwritten with silence; in both the input is copied to the output
buffer if and only if the number of output connections is non-zero and the output buffer
address differs from the input buffer address; these are all the calls made on the sample
memory, and the memory after `APOProcess` is the memory after these calls in their order. -/
theorem APOProcess_calls_made (mfx : CSwapAPOMFX) (sfx : CSwapAPOSFX) (mem : SampleMemory)
    (input : APO_CONNECTION_PROPERTY) (n : Nat) (output : APO_CONNECTION_PROPERTY)
    (hv : input.u32BufferFlags = BUFFER_VALID ∨ input.u32BufferFlags = BUFFER_SILENT) :
    ((SampleCall.processSwapScale input.pBuffer input.pBuffer input.u32ValidFrameCount
          mfx.m_u32SamplesPerFrame ∈ mfx.APOProcess_calls input n output ↔
        mfx.m_AudioProcessingMode ≠ AUDIO_SIGNALPROCESSINGMODE_RAW
          ∧ mfx.m_fEnableSwapMFX ≠ 0 ∧ 1 < mfx.m_u32SamplesPerFrame) ∧
      (SampleCall.writeSilence input.pBuffer input.u32ValidFrameCount mfx.m_u32SamplesPerFrame
          ∈ mfx.APOProcess_calls input n output ↔ BUFFER_SILENT = input.u32BufferFlags) ∧
      (BUFFER_SILENT = input.u32BufferFlags →
        (mfx.APOProcess_calls input n output).head?
          = some (SampleCall.writeSilence input.pBuffer input.u32ValidFrameCount
              mfx.m_u32SamplesPerFrame)) ∧
      (SampleCall.copyFrames output.pBuffer input.pBuffer input.u32ValidFrameCount
          mfx.m_u32SamplesPerFrame ∈ mfx.APOProcess_calls input n output ↔
        0 ≠ n ∧ output.pBuffer ≠ input.pBuffer) ∧
      (mfx.APOProcess_calls input n output).length ≤ 3 ∧
      (mfx.APOProcess mem input n output).1
        = (mfx.APOProcess_calls input n output).foldl
            (SampleCall.run mfx.m_pf32Coefficients) mem) ∧
    ((SampleCall.processSwap input.pBuffer input.pBuffer input.u32ValidFrameCount
          sfx.m_u32SamplesPerFrame ∈ sfx.APOProcess_calls input n output ↔
        sfx.m_AudioProcessingMode ≠ AUDIO_SIGNALPROCESSINGMODE_RAW
          ∧ sfx.m_fEnableSwapSFX ≠ 0) ∧
      (SampleCall.writeSilence input.pBuffer input.u32ValidFrameCount sfx.m_u32SamplesPerFrame
          ∈ sfx.APOProcess_calls input n output ↔ BUFFER_SILENT = input.u32BufferFlags) ∧
      (BUFFER_SILENT = input.u32BufferFlags →
        (sfx.APOProcess_calls input n output).head?
          = some (SampleCall.writeSilence input.pBuffer input.u32ValidFrameCount
              sfx.m_u32SamplesPerFrame)) ∧
      (SampleCall.copyFrames output.pBuffer input.pBuffer input.u32ValidFrameCount
          sfx.m_u32SamplesPerFrame ∈ sfx.APOProcess_calls input n output ↔
        0 ≠ n ∧ output.pBuffer ≠ input.pBuffer) ∧
      (sfx.APOProcess_calls input n output).length ≤ 3 ∧
      (sfx.APOProcess mem input n output).1
        = (sfx.APOProcess_calls input n output).foldl
            (SampleCall.run mfx.m_pf32Coefficients) mem) := by
  constructor
  · obtain ⟨hc, hm⟩ := CSwapAPOMFX_calls mfx mem input n output hv
    refine ⟨?_, ?_, ?_, ?_, ?_, hm⟩
    all_goals rw [hc]
    · exact (optional_calls _ _ _ _ _ _ (by simp) (by simp) (by simp)).2.1
    · exact (optional_calls _ _ _ _ _ _ (by simp) (by simp) (by simp)).1
    · exact (optional_calls _ _ _ _ _ _ (by simp) (by simp) (by simp)).2.2.2.1
    · exact (optional_calls _ _ _ _ _ _ (by simp) (by simp) (by simp)).2.2.1
    · exact (optional_calls _ _ _ _ _ _ (by simp) (by simp) (by simp)).2.2.2.2
  · obtain ⟨hc, hm⟩ := CSwapAPOSFX_calls sfx mfx.m_pf32Coefficients mem input n output hv
    refine ⟨?_, ?_, ?_, ?_, ?_, hm⟩
    all_goals rw [hc]
    · exact (optional_calls _ _ _ _ _ _ (by simp) (by simp) (by simp)).2.1
    · exact (optional_calls _ _ _ _ _ _ (by simp) (by simp) (by simp)).1
    · exact (optional_calls _ _ _ _ _ _ (by simp) (by simp) (by simp)).2.2.2.1
    · exact (optional_calls _ _ _ _ _ _ (by simp) (by simp) (by simp)).2.2.1
    · exact (optional_calls _ _ _ _ _ _ (by simp) (by simp) (by simp)).2.2.2.2

/-- Witness of C25: a Silent input of 3 stereo frames with the output on a buffer of its own:
silence, the swap, then the copy. -/
theorem APOProcess_calls_made_witness :
    mfxEnabled.APOProcess_calls inputSilent 1 outputElsewhere
        = [SampleCall.writeSilence 16 3 2, SampleCall.processSwapScale 16 16 3 2,
            SampleCall.copyFrames 64 16 3 2] ∧
      (SampleCall.processSwapScale inputSilent.pBuffer inputSilent.pBuffer
          inputSilent.u32ValidFrameCount mfxEnabled.m_u32SamplesPerFrame
            ∈ mfxEnabled.APOProcess_calls inputSilent 1 outputElsewhere ↔
        mfxEnabled.m_AudioProcessingMode ≠ AUDIO_SIGNALPROCESSINGMODE_RAW
          ∧ mfxEnabled.m_fEnableSwapMFX ≠ 0 ∧ 1 < mfxEnabled.m_u32SamplesPerFrame) :=
  ⟨by decide,
    (APOProcess_calls_made mfxEnabled sfxEnabled rampMemory inputSilent 1 outputElsewhere
      (Or.inr rfl)).1.1⟩

end SwapAPO
